import Mathlib

/-!
# CA broadcast repeater (`src/ca/repeater.cpp`)

A shallow embedding of the repeater: its socket factory `makeSocket`, the liveness prober
`verifyClients`, the fan-out engine `fanOut`, the registrar `register_new_client` and one
iteration of the dispatch loop of `ca_repeater`.

The global state of the C file (the client list and the two function statics of the registrar)
is a field of `World`.  Every call into the operating system (`socket`, `bind`, `setsockopt`,
`connect`, `send`, `calloc`) takes its return value and error number from `World.os`, indexed by
the number of such calls made so far, so a theorem that holds for every `World` holds for every
behaviour of the operating system.  Each call is also appended to `World.trace`, together with a
marker at the entry of `verifyClients` and of `fanOut`.
-/

namespace Repeater

/-! ## Data model -/

/-- Constants that the headers included by `repeater.cpp` supply (`iocinf.h`, `caProto.h`, the
socket headers); none of them is defined in the file itself, so they are parameters. -/
structure Platform where
  AF_INET : Nat
  INADDR_ANY : Nat
  INADDR_LOOPBACK : Nat
  INVALID_SOCKET : Int
  SOCK_ECONNREFUSED : Int
  SOCK_EADDRINUSE : Int
  REPEATER_REGISTER : Nat
  REPEATER_CONFIRM : Nat
  CA_PROTO_NOOP : Nat
  linux : Bool

/-- The C type `SOCKET`. -/
abbrev SOCKET := Int

/-- The constant `PORT_ANY = 0u`. -/
def PORT_ANY : Nat := 0

/-- Integers that C keeps in network byte order (`sin_port`, `s_addr`, `m_cmmd`) are represented
by the number they carry on the wire, so the byte order conversions are the identity. -/
def htons (x : Nat) : Nat := x

/-- See `htons`. -/
def ntohs (x : Nat) : Nat := x

/-- See `htons`. -/
def htonl (x : Nat) : Nat := x

/-- The C type `struct sockaddr_in`: family, port and IPv4 address. -/
structure sockaddr_in where
  sin_family : Nat
  sin_port : Nat
  sin_addr : Nat
deriving DecidableEq, Repr

/-- The C type `struct one_client` (the list node is the position in the list). -/
structure one_client where
  from_ : sockaddr_in
  sock : SOCKET
deriving DecidableEq, Repr

/-- The C type `makeSocketReturn` (`pErrStr` is a function of `errNumber` and is left out). -/
structure makeSocketReturn where
  sock : SOCKET
  errNumber : Int
deriving DecidableEq, Repr

/-- Modelled from the spec: the declaration of `caHdr` (in `caProto.h`) is not part of the
sources at hand.  The header is a fixed-size structure with a 16-bit `command` and a 32-bit
`available` field; the remaining fields are those of the Channel Access message header. -/
structure caHdr where
  m_cmmd : Nat
  m_postsize : Nat
  m_dataType : Nat
  m_count : Nat
  m_cid : Nat
  m_available : Nat
deriving DecidableEq, Repr

/-- The header after `memset (&hdr, 0, sizeof (hdr))`. -/
def caHdr.zero : caHdr := ⟨0, 0, 0, 0, 0, 0⟩

/-- The value of `sizeof (caHdr)`: four 16-bit and two 32-bit fields. -/
def sizeof_caHdr : Nat := 16

/-- The two bytes of a 16-bit field, most significant first. -/
def be16 (x : Nat) : List Nat := [x / 256 % 256, x % 256]

/-- The four bytes of a 32-bit field, most significant first. -/
def be32 (x : Nat) : List Nat := [x / 16777216 % 256, x / 65536 % 256, x / 256 % 256, x % 256]

/-- The bytes of a header as `send` sees them through `(char *) &hdr`. -/
def caHdr.bytes (h : caHdr) : List Nat :=
  be16 h.m_cmmd ++ be16 h.m_postsize ++ be16 h.m_dataType ++ be16 h.m_count
    ++ be32 h.m_cid ++ be32 h.m_available

/-- The value of `ntohs (pMsg->m_cmmd)` for a header that starts at the head of `buf`. -/
def msgCmmd (buf : List Nat) : Nat := ntohs (buf.getD 0 0 % 256 * 256 + buf.getD 1 0 % 256)

/-- What one call into the operating system gives back: its return value and the value of
`SOCKERRNO` after it. -/
structure OsReturn where
  ret : Int
  errno : Int
deriving DecidableEq, Repr

/-- The observable actions of the repeater. -/
inductive Event where
  | socket (r : OsReturn)
  | bind (sock : SOCKET) (addr : sockaddr_in) (r : OsReturn)
  | setsockopt (sock : SOCKET) (r : OsReturn)
  | connect (sock : SOCKET) (addr : sockaddr_in) (r : OsReturn)
  | send (sock : SOCKET) (pMsg : List Nat) (msgSize : Nat) (r : OsReturn)
  | socket_close (sock : SOCKET)
  | calloc (r : OsReturn)
  | free
  | errlogPrintf
  | assertFailed
  | exit
  | call_verifyClients
  | call_fanOut (pFrom : sockaddr_in) (pMsg : List Nat) (msgSize : Nat)
deriving DecidableEq, Repr

/-- The state of the process and of its environment. -/
structure World where
  /-- The static `client_list`. -/
  client_list : List one_client
  /-- The static `testSock` of `register_new_client`. -/
  testSock : SOCKET
  /-- The static `init` of `register_new_client`. -/
  init : Bool
  /-- Set when an `assert` failed or `exit` was called: the thread runs no further. -/
  halted : Bool
  /-- The results of the calls into the operating system, in call order. -/
  os : Nat → OsReturn
  /-- The number of calls into the operating system made so far. -/
  clock : Nat
  /-- The actions performed so far, oldest first. -/
  trace : List Event

/-- Append an action to the trace. -/
def World.emit (w : World) (e : Event) : World := { w with trace := w.trace ++ [e] }

/-- The result of the next call into the operating system. -/
def World.next (w : World) : OsReturn := w.os w.clock

/-- Advance past one call into the operating system. -/
def World.tick (w : World) : World := { w with clock := w.clock + 1 }

/-- Replace the client list. -/
def World.setClients (w : World) (l : List one_client) : World := { w with client_list := l }

/-- The actions performed between the states `w` and `w2`. -/
def emitted (w w2 : World) : List Event := w2.trace.drop w.trace.length

/-! ## Socket factory -/

/-- The function `makeSocket` (lines 89-136). -/
def makeSocket (P : Platform) (port : Nat) (reuseAddr : Bool) (w : World) :
    makeSocketReturn × World :=
  let s := w.next
  let w := w.tick.emit (Event.socket s)
  if s.ret = P.INVALID_SOCKET then
    (⟨s.ret, s.errno⟩, w)
  else if port ≠ PORT_ANY then
    let bd : sockaddr_in := ⟨P.AF_INET, htons port, htonl P.INADDR_ANY⟩
    let b := w.next
    let w := w.tick.emit (Event.bind s.ret bd b)
    if b.ret < 0 then
      (⟨P.INVALID_SOCKET, b.errno⟩, w.emit (Event.socket_close s.ret))
    else if reuseAddr then
      let o := w.next
      let w := w.tick.emit (Event.setsockopt s.ret o)
      let w := if o.ret < 0 then w.emit Event.errlogPrintf else w
      (⟨s.ret, 0⟩, w)
    else
      (⟨s.ret, 0⟩, w)
  else
    (⟨s.ret, 0⟩, w)

/-! ## Liveness prober -/

/-- The loop of `verifyClients` (lines 149-173).  The first argument is what is left of
`client_list`, the second is the local list `theClients`.  The node that `ellDelete` removes
from `theClients` is the one `ellAdd` has just put at its tail. -/
def verifyClientsLoop (P : Platform) :
    List one_client → List one_client → World → List one_client × World
  | [], theClients, w => (theClients, w)
  | pclient :: rest, theClients, w =>
    let w := { w with client_list := rest }
    let theClients := theClients ++ [pclient]
    let (msr, w) := makeSocket P (ntohs pclient.from_.sin_port) false w
    if msr.sock ≠ P.INVALID_SOCKET then
      let theClients := theClients.dropLast
      let w := ((w.emit (Event.socket_close msr.sock)).emit
        (Event.socket_close pclient.sock)).emit Event.free
      verifyClientsLoop P rest theClients w
    else
      let w := if msr.errNumber ≠ P.SOCK_EADDRINUSE then w.emit Event.errlogPrintf else w
      verifyClientsLoop P rest theClients w

/-- The function `verifyClients` (lines 142-175). -/
def verifyClients (P : Platform) (w : World) : World :=
  let w := w.emit Event.call_verifyClients
  let (theClients, w) := verifyClientsLoop P w.client_list [] w
  { w with client_list := w.client_list ++ theClients }

/-! ## Fan-out engine -/

/-- The loop of `fanOut` (lines 188-221); the third argument is the flag `verify`. -/
def fanOutLoop (P : Platform) (pFrom : sockaddr_in) (pMsg : List Nat) (msgSize : Nat) :
    List one_client → List one_client → Bool → World → List one_client × Bool × World
  | [], theClients, verify, w => (theClients, verify, w)
  | pclient :: rest, theClients, verify, w =>
    let w := { w with client_list := rest }
    let theClients := theClients ++ [pclient]
    if pFrom.sin_port = pclient.from_.sin_port ∧ pFrom.sin_addr = pclient.from_.sin_addr then
      fanOutLoop P pFrom pMsg msgSize rest theClients verify w
    else
      let r := w.next
      let w := w.tick.emit (Event.send pclient.sock pMsg msgSize r)
      if r.ret < 0 then
        if r.errno = P.SOCK_ECONNREFUSED then
          fanOutLoop P pFrom pMsg msgSize rest theClients true w
        else
          fanOutLoop P pFrom pMsg msgSize rest theClients verify (w.emit Event.errlogPrintf)
      else
        fanOutLoop P pFrom pMsg msgSize rest theClients verify w

/-- The function `fanOut` (lines 180-227). -/
def fanOut (P : Platform) (pFrom : sockaddr_in) (pMsg : List Nat) (msgSize : Nat)
    (w : World) : World :=
  let w := w.emit (Event.call_fanOut pFrom pMsg msgSize)
  let (theClients, verify, w) := fanOutLoop P pFrom pMsg msgSize w.client_list [] false w
  let w := { w with client_list := w.client_list ++ theClients }
  if verify then verifyClients P w else w

/-! ## Registrar -/

/-- The creation of the bind test socket on the first use (lines 253-263). -/
def initTestSock (P : Platform) (w : World) : World :=
  if !w.init then
    let (msr, w) := makeSocket P PORT_ANY true w
    let w := if msr.sock = P.INVALID_SOCKET then w.emit Event.errlogPrintf
      else { w with testSock := msr.sock }
    { w with init := true }
  else w

/-- The test that the client is on this host (lines 248-287); `false` stands for `return`. -/
def localTest (P : Platform) (pFrom : sockaddr_in) (w : World) : Bool × World :=
  if htonl P.INADDR_LOOPBACK ≠ pFrom.sin_addr then
    let w := initTestSock P w
    if w.testSock ≠ P.INVALID_SOCKET then
      let ina : sockaddr_in := { pFrom with sin_port := PORT_ANY }
      let b := w.next
      let w := w.tick.emit (Event.bind w.testSock ina b)
      if b.ret ≠ 0 then (false, w) else (true, w)
    else (false, w)
  else (true, w)

/-- The search for a client with the port of `pFrom` (lines 289-295): the position and the
record of the first match, which together stand for the pointer `pclient`. -/
def findClient (sin_port : Nat) : List one_client → Option (Nat × one_client)
  | [] => none
  | pclient :: rest =>
    if sin_port = pclient.from_.sin_port then some (0, pclient)
    else (findClient sin_port rest).map (fun p => (p.1 + 1, p.2))

/-- The header `confirm` as it is sent (lines 336-338). -/
def confirmHdr (P : Platform) (pFrom : sockaddr_in) : caHdr :=
  { caHdr.zero with m_cmmd := htons P.REPEATER_CONFIRM, m_available := pFrom.sin_addr }

/-- The header `noop` as it is handed to `fanOut` (line 365; line 366 assigns to `confirm`). -/
def noopHdr : caHdr := caHdr.zero

/-- The end of `register_new_client` (lines 361-382). -/
def sendNoop (P : Platform) (pFrom : sockaddr_in) (newClient : Bool) (w : World) : World :=
  let w := fanOut P pFrom noopHdr.bytes sizeof_caHdr w
  if newClient then verifyClients P w else w

/-- The confirmation and what follows it (lines 336-382) for the client at position `idx` of
`client_list`, whose record is `pclient`. -/
def confirmClient (P : Platform) (pFrom : sockaddr_in) (idx : Nat) (pclient : one_client)
    (newClient : Bool) (w : World) : World :=
  let r := w.next
  let w := w.tick.emit (Event.send pclient.sock (confirmHdr P pFrom).bytes sizeof_caHdr r)
  if 0 ≤ r.ret then
    if r.ret = sizeof_caHdr then sendNoop P pFrom newClient w
    else { w.emit Event.assertFailed with halted := true }
  else if r.errno = P.SOCK_ECONNREFUSED then
    let w := w.setClients (w.client_list.eraseIdx idx)
    let w := (w.emit (Event.socket_close pclient.sock)).emit Event.free
    sendNoop P pFrom newClient w
  else
    sendNoop P pFrom newClient (w.emit Event.errlogPrintf)

/-- The creation of a new client (lines 297-334): the position and the record of the new
client, or `none` where the function returns. -/
def createClient (P : Platform) (pFrom : sockaddr_in) (w : World) :
    Option (Nat × one_client) × World :=
  let m := w.next
  let w := w.tick.emit (Event.calloc m)
  if m.ret = 0 then (none, w.emit Event.errlogPrintf)
  else
    let (msr, w) := makeSocket P PORT_ANY false w
    if msr.sock = P.INVALID_SOCKET then (none, (w.emit Event.free).emit Event.errlogPrintf)
    else
      let c := w.next
      let w := w.tick.emit (Event.connect msr.sock pFrom c)
      if c.ret < 0 then
        (none, ((w.emit Event.errlogPrintf).emit (Event.socket_close msr.sock)).emit Event.free)
      else
        let pclient : one_client := ⟨pFrom, msr.sock⟩
        let idx := w.client_list.length
        (some (idx, pclient), w.setClients (w.client_list ++ [pclient]))

/-- The lookup and, without a match, the creation of the client (lines 289-334): position,
record and the flag `newClient`, or `none` where the function returns. -/
def obtainClient (P : Platform) (pFrom : sockaddr_in) (w : World) :
    Option (Nat × one_client × Bool) × World :=
  match findClient pFrom.sin_port w.client_list with
  | some (idx, pclient) => (some (idx, pclient, false), w)
  | none =>
    match createClient P pFrom w with
    | (some (idx, pclient), w) => (some (idx, pclient, true), w)
    | (none, w) => (none, w)

/-- The function `register_new_client` (lines 232-383). -/
def register_new_client (P : Platform) (pFrom : sockaddr_in) (w : World) : World :=
  if pFrom.sin_family ≠ P.AF_INET then w
  else
    match localTest P pFrom w with
    | (false, w) => w
    | (true, w) =>
      match obtainClient P pFrom w with
      | (none, w) => w
      | (some (idx, pclient, newClient), w) => confirmClient P pFrom idx pclient newClient w

/-! ## Dispatch loop -/

/-- What one `recvfrom` on the service socket gives: its return value, `SOCKERRNO`, the
receive buffer and the source address. -/
structure Datagram where
  size : Int
  errno : Int
  buf : List Nat
  from_ : sockaddr_in
deriving DecidableEq, Repr

/-- One iteration of the loop of `ca_repeater` (lines 425-478) after `recvfrom` returned `d`. -/
def dispatch (P : Platform) (d : Datagram) (w : World) : World :=
  if d.size < 0 then
    if P.linux ∧ d.errno = P.SOCK_ECONNREFUSED then w
    else w.emit Event.errlogPrintf
  else if sizeof_caHdr ≤ d.size.toNat then
    if msgCmmd d.buf = P.REPEATER_REGISTER then
      let w := register_new_client P d.from_ w
      if w.halted then w
      else
        let pMsg := d.buf.drop sizeof_caHdr
        let size := d.size - sizeof_caHdr
        if size = 0 then w
        else fanOut P d.from_ pMsg size.toNat w
    else fanOut P d.from_ d.buf d.size.toNat w
  else if d.size = 0 then
    register_new_client P d.from_ w
  else fanOut P d.from_ d.buf d.size.toNat w

/-- The loop of `ca_repeater` over the datagrams that `recvfrom` returns. -/
def dispatchAll (P : Platform) : List Datagram → World → World
  | [], w => w
  | d :: ds, w => if w.halted then w else dispatchAll P ds (dispatch P d w)

/-- The function `ca_repeater` (lines 389-479) for the configured `port` (the result of
`caFetchPortConfig`) and the datagrams `ds`; `bsdSockAttach` is taken to succeed. -/
def ca_repeater (P : Platform) (port : Nat) (ds : List Datagram) (w : World) : World :=
  let w := w.setClients []
  let (msr, w) := makeSocket P port true w
  if msr.sock = P.INVALID_SOCKET then
    let w := if msr.errNumber = P.SOCK_EADDRINUSE then w else w.emit Event.errlogPrintf
    { w.emit Event.exit with halted := true }
  else dispatchAll P ds w

end Repeater

/-! # Blocking send of the CA server (`src/cas/generic/casMsgIO.cc`,
`src/cas/io/bsdSocket/casStreamIO.cc`)

The function `casMsgIO::xSend` and the `osdSend` of the stream circuit that it calls.  The
results of the calls of `send` come from an oracle, as in the repeater. -/

namespace CaServer

/-- The C++ type `xSendStatus`. -/
inductive xSendStatus where
  | xSendOK
  | xSendDisconnect
deriving DecidableEq, Repr

/-- The states of the socket of a stream circuit. -/
inductive casIOState where
  | casOnLine
  | casOffLine
deriving DecidableEq, Repr

/-- The C++ type `xBlockingStatus`. -/
inductive xBlockingStatus where
  | xIsBlocking
  | xIsntBlocking
deriving DecidableEq, Repr

/-- The members of the stream circuit that `xSend` and `osdSend` use, and the results of the
calls of `send` in call order. -/
structure Circuit where
  sockState : casIOState
  blockingStatus : xBlockingStatus
  os : Nat → Repeater.OsReturn
  clock : Nat

/-- The width of `bufSizeT`, an `unsigned`. -/
def bufSizeMod : Nat := 4294967296

/-- The function `casStreamIO::osdSend` (lines 145-194 of `casStreamIO.cc`).  The argument
`nBytesActual` is the value of the reference parameter at the call, the second component of
the result its value at the return. -/
def osdSend (EWOULDBLOCK : Int) (nBytesReq : Nat) (nBytesActual : Nat) (io : Circuit) :
    xSendStatus × Nat × Circuit :=
  if io.sockState ≠ casIOState.casOnLine then
    (xSendStatus.xSendDisconnect, nBytesActual, io)
  else if nBytesReq ≤ 0 then
    (xSendStatus.xSendOK, 0, io)
  else
    let status := io.os io.clock
    let io := { io with clock := io.clock + 1 }
    if status.ret = 0 then
      (xSendStatus.xSendDisconnect, nBytesActual,
        { io with sockState := casIOState.casOffLine })
    else if status.ret < 0 then
      let io := if status.errno ≠ EWOULDBLOCK then
        { io with sockState := casIOState.casOffLine } else io
      (xSendStatus.xSendOK, 0, io)
    else
      (xSendStatus.xSendOK, status.ret.toNat % bufSizeMod, io)

/-- The loop of `casMsgIO::xSend` (lines 106-122 of `casMsgIO.cc`), run for at most `fuel`
passes; `none` when the passes do not suffice.  Neither `pBuf` nor `nBytesAvailableToSend`
changes between the passes. -/
def xSendLoop (EWOULDBLOCK : Int) :
    Nat → Nat → Nat → Nat → Nat → Circuit → Option (xSendStatus × Nat × Circuit)
  | 0, _, _, _, _, _ => none
  | fuel + 1, nBytesAvailableToSend, nBytesNeedToBeSent, nActualBytes, nActualBytesDelta, io =>
    if nBytesNeedToBeSent = 0 then some (xSendStatus.xSendOK, nActualBytes, io)
    else
      match osdSend EWOULDBLOCK nBytesAvailableToSend nActualBytesDelta io with
      | (stat, nActualBytesDelta, io) =>
        if stat ≠ xSendStatus.xSendOK then some (stat, nActualBytes, io)
        else
          let nActualBytes := (nActualBytes + nActualBytesDelta) % bufSizeMod
          if nBytesNeedToBeSent > nActualBytesDelta then
            xSendLoop EWOULDBLOCK fuel nBytesAvailableToSend
              (nBytesNeedToBeSent - nActualBytesDelta) nActualBytes nActualBytesDelta io
          else some (xSendStatus.xSendOK, nActualBytes, io)

/-- The function `casMsgIO::xSend` (lines 88-123 of `casMsgIO.cc`): the status and the value
left in `nActualBytes`; `none` when the `assert` fails or the loop does not end within `fuel`
passes.  The local `nActualBytesDelta` is not initialised in the source and starts as `d0`. -/
def xSend (EWOULDBLOCK : Int) (fuel : Nat) (d0 : Nat) (nBytesAvailableToSend : Nat)
    (nBytesNeedToBeSent : Nat) (io : Circuit) : Option (xSendStatus × Nat × Circuit) :=
  if nBytesAvailableToSend < nBytesNeedToBeSent then none
  else if io.blockingStatus = xBlockingStatus.xIsntBlocking then
    some (osdSend EWOULDBLOCK nBytesAvailableToSend 0 io)
  else xSendLoop EWOULDBLOCK fuel nBytesAvailableToSend nBytesNeedToBeSent 0 d0 io

/-- A circuit on line in blocking mode whose first `send` takes 6 bytes and whose later sends
take 10. -/
def partialThenFull : Circuit where
  sockState := casIOState.casOnLine
  blockingStatus := xBlockingStatus.xIsBlocking
  os := fun n => if n = 0 then ⟨6, 0⟩ else ⟨10, 0⟩
  clock := 0

end CaServer

namespace Repeater

/-! ## Concrete scenarios -/

/-- The constants on a Linux host with the Channel Access protocol numbers. -/
def linuxPlatform : Platform where
  AF_INET := 2
  INADDR_ANY := 0
  INADDR_LOOPBACK := 2130706433
  INVALID_SOCKET := -1
  SOCK_ECONNREFUSED := 111
  SOCK_EADDRINUSE := 98
  REPEATER_REGISTER := 24
  REPEATER_CONFIRM := 17
  CA_PROTO_NOOP := 0
  linux := true

/-- The loopback address with the given port. -/
def loopback (port : Nat) : sockaddr_in := ⟨2, port, 2130706433⟩

/-- A state with the client list `l`, no bind test socket yet, and the operating system
answering its calls with `script`, then with `dflt` for ever. -/
def scenario (l : List one_client) (script : List OsReturn) (dflt : OsReturn) : World where
  client_list := l
  testSock := -1
  init := false
  halted := false
  os := fun n => script.getD n dflt
  clock := 0
  trace := []

/-- Two clients on the loopback address, ports 5001 and 5002, with sockets 5 and 6. -/
def twoClients : List one_client := [⟨loopback 5001, 5⟩, ⟨loopback 5002, 6⟩]

/-- A state in which the one client, port 5001 and socket 5, has registered from the interface
address 192.168.1.5; the operating system answers the next three sends with success. -/
def movedClient : World :=
  scenario [⟨⟨2, 5001, 3232235781⟩, 5⟩] [⟨16, 0⟩, ⟨16, 0⟩, ⟨2, 0⟩] ⟨0, 0⟩

/-- A datagram of 18 bytes from port 5001 of the loopback address: a header with the command
`REPEATER_REGISTER`, followed by the bytes 7 and 7. -/
def registerWithPayload : Datagram :=
  ⟨18, 0, [0, 24, 0, 0, 0, 0, 0, 0, 0, 0, 0, 0, 0, 0, 0, 0, 7, 7], loopback 5001⟩

/-- A first registration from port 5001 of the loopback address with an empty client list:
`calloc`, `socket` and `connect` succeed, the send of the confirmation fails with the error
number 105, and the probe of the new client finds its port in use. -/
def confirmFails : World :=
  scenario [] [⟨1, 0⟩, ⟨5, 0⟩, ⟨0, 0⟩, ⟨-1, 105⟩, ⟨6, 0⟩, ⟨-1, 98⟩] ⟨0, 0⟩

/-- Two clients of which the second has exited: the send to the first succeeds, the send to
the second is refused, the bind of the prober to the port of the first fails with the error
number of an address in use, and the bind to the port of the second succeeds. -/
def clientExited : World :=
  scenario twoClients [⟨3, 0⟩, ⟨-1, 111⟩, ⟨7, 0⟩, ⟨-1, 98⟩, ⟨7, 0⟩, ⟨0, 0⟩] ⟨0, 0⟩

/-! ## Classification of actions -/

/-- The actions of the socket factory: `socket`, a `bind` to a port other than `PORT_ANY`,
`setsockopt`, `socket_close` and a log line. -/
def Event.isFactory : Event → Bool
  | Event.socket _ => true
  | Event.bind _ addr _ => decide (addr.sin_port ≠ PORT_ANY)
  | Event.setsockopt _ _ => true
  | Event.socket_close _ => true
  | Event.errlogPrintf => true
  | _ => false

/-- The actions of the liveness prober: those of the socket factory, `free` and its own marker. -/
def Event.isProbe : Event → Bool
  | Event.free => true
  | Event.call_verifyClients => true
  | e => e.isFactory

/-- The sends among a list of actions: socket, message and size of each, in order. -/
def sends : List Event → List (SOCKET × List Nat × Nat)
  | [] => []
  | Event.send sock pMsg msgSize _ :: es => (sock, pMsg, msgSize) :: sends es
  | _ :: es => sends es

/-- A send that failed with `SOCK_ECONNREFUSED`. -/
def Event.isRefused (P : Platform) : Event → Bool
  | Event.send _ _ _ r => decide (r.ret < 0 ∧ r.errno = P.SOCK_ECONNREFUSED)
  | _ => false

/-- The condition under which `fanOut` skips a client: port and address of the source of the
datagram are those of the record (lines 194-195). -/
def isSender (pFrom : sockaddr_in) (pclient : one_client) : Bool :=
  decide (pFrom.sin_port = pclient.from_.sin_port ∧ pFrom.sin_addr = pclient.from_.sin_addr)

/-- The actions of the fan-out engine: `send`, its own marker and those of the prober. -/
def Event.isFan : Event → Bool
  | Event.send _ _ _ _ => true
  | Event.call_fanOut _ _ _ => true
  | e => e.isProbe

/-- The actions of the test that the client is local: `socket`, `bind`, `setsockopt`,
`socket_close` and a log line. -/
def Event.isLocalTest : Event → Bool
  | Event.socket _ => true
  | Event.bind _ _ _ => true
  | Event.setsockopt _ _ => true
  | Event.socket_close _ => true
  | Event.errlogPrintf => true
  | _ => false

/-- The actions that precede the confirmation in the registrar: those of the test that the
client is local, `calloc`, `connect` and `free`. -/
def Event.isSetup : Event → Bool
  | Event.calloc _ => true
  | Event.connect _ _ _ => true
  | Event.free => true
  | e => e.isLocalTest

/-- The actions from the confirmation on: those of the fan-out engine and a failed `assert`. -/
def Event.isConfirm : Event → Bool
  | Event.assertFailed => true
  | e => e.isFan

/-- The action is a `send`. -/
def Event.isSend : Event → Bool
  | Event.send _ _ _ _ => true
  | _ => false

/-- The actions of the loop of the fan-out engine: `send`, a log line, and the marker. -/
def Event.isFanLoop : Event → Bool
  | Event.send _ _ _ _ => true
  | Event.call_fanOut _ _ _ => true
  | Event.errlogPrintf => true
  | _ => false

/-- The actions of the body of the loop of the fan-out engine: `send` and a log line. -/
def Event.isSendLog : Event → Bool
  | Event.send _ _ _ _ => true
  | Event.errlogPrintf => true
  | _ => false

/-- The calls of `fanOut` among a list of actions: source address, message and size of each,
in order. -/
def fanOutCalls : List Event → List (sockaddr_in × List Nat × Nat)
  | [] => []
  | Event.call_fanOut pFrom pMsg msgSize :: es => (pFrom, pMsg, msgSize) :: fanOutCalls es
  | _ :: es => fanOutCalls es

/-- The actions of the loop of the prober: those of the socket factory and `free`. -/
def Event.isProbeLoop : Event → Bool
  | Event.free => true
  | e => e.isFactory

/-- The number of runs of the prober among a list of actions. -/
def proberCalls : List Event → Nat
  | [] => 0
  | Event.call_verifyClients :: es => proberCalls es + 1
  | _ :: es => proberCalls es

/-- The sends that a fan-out from `pFrom` owes to the client list `l`: one for each record
that is not the sender, in the order of the list. -/
def fanOutSends (pFrom : sockaddr_in) (pMsg : List Nat) (msgSize : Nat)
    (l : List one_client) : List (SOCKET × List Nat × Nat) :=
  (l.filter (fun c => !isSender pFrom c)).map (fun c => (c.sock, pMsg, msgSize))

/-- The results of the probes of the liveness prober: what `makeSocket` returns for the port of
each record in turn, from the state `w` on. -/
def probes (P : Platform) : List one_client → World → List makeSocketReturn
  | [], _ => []
  | pclient :: rest, w =>
    (makeSocket P (ntohs pclient.from_.sin_port) false w).1 ::
      probes P rest (makeSocket P (ntohs pclient.from_.sin_port) false w).2

/-- The state of the environment after the probes of the records of a list, from the state
`w` on. -/
def probeState (P : Platform) : List one_client → World → World
  | [], w => w
  | pclient :: rest, w =>
    probeState P rest (makeSocket P (ntohs pclient.from_.sin_port) false w).2

/-- The records whose probe returned no socket, in their order. -/
def survivors (P : Platform) (l : List one_client) (w : World) : List one_client :=
  ((l.zip (probes P l w)).filter (fun p => decide (p.2.sock = P.INVALID_SOCKET))).map Prod.fst

/-- The states `w` and `w2` agree on the environment: the same results of the calls into the
operating system and the same number of calls made. -/
def SameOs (w w2 : World) : Prop := w.os = w2.os ∧ w.clock = w2.clock

/-- The state `w2` is reached from `w` by actions that all satisfy `Q`, with the same results
of the calls into the operating system. -/
structure Ext (Q : Event → Bool) (w w2 : World) : Prop where
  os : w2.os = w.os
  trace : ∃ evs, w2.trace = w.trace ++ evs ∧ ∀ e ∈ evs, Q e = true

/-! ## Basic facts -/

section basics

@[simp] theorem emit_trace (w : World) (e : Event) : (w.emit e).trace = w.trace ++ [e] := rfl
@[simp] theorem emit_client_list (w : World) (e : Event) :
    (w.emit e).client_list = w.client_list := rfl
@[simp] theorem emit_testSock (w : World) (e : Event) : (w.emit e).testSock = w.testSock := rfl
@[simp] theorem emit_init (w : World) (e : Event) : (w.emit e).init = w.init := rfl
@[simp] theorem emit_halted (w : World) (e : Event) : (w.emit e).halted = w.halted := rfl
@[simp] theorem emit_os (w : World) (e : Event) : (w.emit e).os = w.os := rfl
@[simp] theorem emit_clock (w : World) (e : Event) : (w.emit e).clock = w.clock := rfl
@[simp] theorem emit_next (w : World) (e : Event) : (w.emit e).next = w.next := rfl
@[simp] theorem setClients_trace (w : World) (l : List one_client) :
    (w.setClients l).trace = w.trace := rfl
@[simp] theorem setClients_client_list (w : World) (l : List one_client) :
    (w.setClients l).client_list = l := rfl
@[simp] theorem setClients_testSock (w : World) (l : List one_client) :
    (w.setClients l).testSock = w.testSock := rfl
@[simp] theorem setClients_init (w : World) (l : List one_client) :
    (w.setClients l).init = w.init := rfl
@[simp] theorem setClients_halted (w : World) (l : List one_client) :
    (w.setClients l).halted = w.halted := rfl
@[simp] theorem setClients_os (w : World) (l : List one_client) :
    (w.setClients l).os = w.os := rfl
@[simp] theorem setClients_clock (w : World) (l : List one_client) :
    (w.setClients l).clock = w.clock := rfl
@[simp] theorem tick_trace (w : World) : w.tick.trace = w.trace := rfl
@[simp] theorem tick_client_list (w : World) : w.tick.client_list = w.client_list := rfl
@[simp] theorem tick_testSock (w : World) : w.tick.testSock = w.testSock := rfl
@[simp] theorem tick_init (w : World) : w.tick.init = w.init := rfl
@[simp] theorem tick_halted (w : World) : w.tick.halted = w.halted := rfl
@[simp] theorem tick_os (w : World) : w.tick.os = w.os := rfl
@[simp] theorem tick_clock (w : World) : w.tick.clock = w.clock + 1 := rfl

theorem emitted_of_trace {w w2 : World} {evs : List Event} (h : w2.trace = w.trace ++ evs) :
    emitted w w2 = evs := by
  simp [emitted, h]

@[simp] theorem sends_nil : sends [] = [] := rfl

theorem sends_append (xs ys : List Event) : sends (xs ++ ys) = sends xs ++ sends ys := by
  induction xs with
  | nil => rfl
  | cons e es ih => cases e <;> simp [sends, ih]

theorem sends_of_probe {evs : List Event} (h : ∀ e ∈ evs, e.isProbe = true) : sends evs = [] := by
  induction evs with
  | nil => rfl
  | cons e es ih =>
    have he := h e (List.mem_cons_self _ _)
    have hes : ∀ x ∈ es, x.isProbe = true := fun x hx => h x (List.mem_cons_of_mem _ hx)
    cases e <;> simp_all [sends, Event.isProbe, Event.isFactory]

theorem isProbe_of_isFactory {e : Event} (h : e.isFactory = true) : e.isProbe = true := by
  cases e <;> simp_all [Event.isProbe, Event.isFactory]

theorem Ext.refl (Q : Event → Bool) (w : World) : Ext Q w w :=
  ⟨rfl, [], by simp, by simp⟩

theorem Ext.of_eq (Q : Event → Bool) {w w2 : World} (ho : w2.os = w.os)
    (ht : w2.trace = w.trace) : Ext Q w w2 :=
  ⟨ho, [], by simp [ht], by simp⟩

theorem Ext.trans {Q : Event → Bool} {w w2 w3 : World} (h1 : Ext Q w w2) (h2 : Ext Q w2 w3) :
    Ext Q w w3 := by
  obtain ⟨o1, evs1, t1, q1⟩ := h1
  obtain ⟨o2, evs2, t2, q2⟩ := h2
  refine ⟨o2.trans o1, evs1 ++ evs2, by rw [t2, t1, List.append_assoc], ?_⟩
  intro e he
  rcases List.mem_append.1 he with he | he
  · exact q1 e he
  · exact q2 e he

theorem Ext.mono {Q R : Event → Bool} {w w2 : World} (h : Ext Q w w2)
    (hQR : ∀ e, Q e = true → R e = true) : Ext R w w2 := by
  obtain ⟨o1, evs1, t1, q1⟩ := h
  exact ⟨o1, evs1, t1, fun e he => hQR e (q1 e he)⟩

theorem Ext.emit {Q : Event → Bool} {w w2 : World} (h : Ext Q w w2) (e : Event)
    (he : Q e = true) : Ext Q w (w2.emit e) :=
  h.trans ⟨rfl, [e], rfl, by simpa using he⟩

theorem Ext.call {Q : Event → Bool} {w w2 : World} (h : Ext Q w w2) (e : Event)
    (he : Q e = true) : Ext Q w (w2.tick.emit e) :=
  h.trans ⟨rfl, [e], rfl, by simpa using he⟩

theorem Ext.setClients {Q : Event → Bool} {w w2 : World} (h : Ext Q w w2)
    (l : List one_client) : Ext Q w (w2.setClients l) :=
  ⟨h.os, h.trace⟩

theorem Ext.emitted_all {Q : Event → Bool} {w w2 : World} (h : Ext Q w w2) :
    ∀ e ∈ emitted w w2, Q e = true := by
  obtain ⟨_, evs, t, q⟩ := h
  rw [emitted_of_trace t]
  exact q

/-- What `makeSocket` leaves alone. -/
theorem makeSocket_statics (P : Platform) (port : Nat) (reuseAddr : Bool) (w : World) :
    (makeSocket P port reuseAddr w).2.client_list = w.client_list ∧
    (makeSocket P port reuseAddr w).2.testSock = w.testSock ∧
    (makeSocket P port reuseAddr w).2.init = w.init ∧
    (makeSocket P port reuseAddr w).2.halted = w.halted := by
  unfold makeSocket
  simp only []
  split_ifs <;> simp

/-- The kind of actions `makeSocket` performs. -/
theorem makeSocket_ext (P : Platform) (port : Nat) (reuseAddr : Bool) (w : World) :
    Ext Event.isFactory w (makeSocket P port reuseAddr w).2 := by
  unfold makeSocket
  simp only []
  split_ifs <;> refine ⟨by simp, ?_⟩ <;> simp [Event.isFactory, htons, *]

theorem SameOs.rfl_ (w : World) : SameOs w w := ⟨rfl, rfl⟩

theorem makeSocket_sameOs (P : Platform) (port : Nat) (reuseAddr : Bool) {w w2 : World}
    (h : SameOs w w2) :
    (makeSocket P port reuseAddr w).1 = (makeSocket P port reuseAddr w2).1 ∧
    SameOs (makeSocket P port reuseAddr w).2 (makeSocket P port reuseAddr w2).2 := by
  obtain ⟨h1, h2⟩ := h
  unfold makeSocket SameOs
  simp only [World.next, emit_os, emit_clock, tick_os, tick_clock, h1, h2]
  split_ifs <;> simp [h1, h2]

theorem probes_sameOs (P : Platform) (l : List one_client) :
    ∀ {w w2 : World}, SameOs w w2 → probes P l w = probes P l w2 := by
  induction l with
  | nil => intro w w2 _; rfl
  | cons c cs ih =>
    intro w w2 h
    have hm := makeSocket_sameOs P (ntohs c.from_.sin_port) false h
    simp only [probes, hm.1, ih hm.2]

theorem survivors_nil (P : Platform) (w : World) : survivors P [] w = [] := rfl

theorem survivors_cons (P : Platform) (c : one_client) (cs : List one_client) (w : World) :
    survivors P (c :: cs) w =
      if (makeSocket P (ntohs c.from_.sin_port) false w).1.sock ≠ P.INVALID_SOCKET then
        survivors P cs (makeSocket P (ntohs c.from_.sin_port) false w).2
      else c :: survivors P cs (makeSocket P (ntohs c.from_.sin_port) false w).2 := by
  simp only [survivors, probes, List.zip_cons_cons, List.filter_cons]
  split_ifs <;> simp_all

theorem survivors_sameOs (P : Platform) (l : List one_client) {w w2 : World}
    (h : SameOs w w2) : survivors P l w = survivors P l w2 := by
  simp only [survivors, probes_sameOs P l h]

theorem survivors_sublist (P : Platform) (l : List one_client) :
    ∀ w : World, List.Sublist (survivors P l w) l := by
  induction l with
  | nil => intro w; simp [survivors_nil]
  | cons c cs ih =>
    intro w
    rw [survivors_cons]
    split_ifs
    · exact (ih _).trans (List.sublist_cons_self _ _)
    · exact (ih _).cons₂ _

/-- One pass of the loop of the prober, as a function of the state. -/
theorem verifyClientsLoop_cons (P : Platform) (c : one_client) (cs acc : List one_client)
    (w : World) :
    verifyClientsLoop P (c :: cs) acc w =
      if (makeSocket P (ntohs c.from_.sin_port) false (w.setClients cs)).1.sock
          ≠ P.INVALID_SOCKET then
        verifyClientsLoop P cs acc
          ((((makeSocket P (ntohs c.from_.sin_port) false (w.setClients cs)).2.emit
            (Event.socket_close
              (makeSocket P (ntohs c.from_.sin_port) false (w.setClients cs)).1.sock)).emit
            (Event.socket_close c.sock)).emit Event.free)
      else
        verifyClientsLoop P cs (acc ++ [c])
          (if (makeSocket P (ntohs c.from_.sin_port) false (w.setClients cs)).1.errNumber
              ≠ P.SOCK_EADDRINUSE then
            (makeSocket P (ntohs c.from_.sin_port) false (w.setClients cs)).2.emit
              Event.errlogPrintf
          else (makeSocket P (ntohs c.from_.sin_port) false (w.setClients cs)).2) := by
  simp only [verifyClientsLoop, World.setClients, List.dropLast_concat]

/-- The loop of the prober: it returns the survivors after what `theClients` held, empties
`client_list`, and performs prober actions only. -/
theorem verifyClientsLoop_spec (P : Platform) (l : List one_client) :
    ∀ (acc : List one_client) (w : World), w.client_list = l →
      (verifyClientsLoop P l acc w).1 = acc ++ survivors P l w ∧
      (verifyClientsLoop P l acc w).2.client_list = [] ∧
      (verifyClientsLoop P l acc w).2.testSock = w.testSock ∧
      (verifyClientsLoop P l acc w).2.init = w.init ∧
      (verifyClientsLoop P l acc w).2.halted = w.halted ∧
      Ext Event.isProbe w (verifyClientsLoop P l acc w).2 := by
  induction l with
  | nil =>
    intro acc w hw
    simp [verifyClientsLoop, survivors_nil, hw, Ext.refl]
  | cons c cs ih =>
    intro acc w _
    have hso : SameOs (w.setClients cs) w := ⟨rfl, rfl⟩
    have hm := makeSocket_sameOs P (ntohs c.from_.sin_port) false hso
    obtain ⟨f1, f2, f3, f4⟩ := makeSocket_statics P (ntohs c.from_.sin_port) false
      (w.setClients cs)
    have fe : Ext Event.isProbe w (makeSocket P (ntohs c.from_.sin_port) false
        (w.setClients cs)).2 :=
      (Ext.of_eq Event.isProbe (show (w.setClients cs).os = w.os from rfl) rfl).trans
        ((makeSocket_ext P (ntohs c.from_.sin_port) false (w.setClients cs)).mono
          (fun _ => isProbe_of_isFactory))
    rw [survivors_cons, verifyClientsLoop_cons, ← hm.1]
    split_ifs with hs he
    · obtain ⟨g1, g2, g3, g4, g5, g6⟩ := ih acc
        ((((makeSocket P (ntohs c.from_.sin_port) false (w.setClients cs)).2.emit
          (Event.socket_close (makeSocket P (ntohs c.from_.sin_port) false
            (w.setClients cs)).1.sock)).emit
          (Event.socket_close c.sock)).emit Event.free) (by simpa using f1)
      refine ⟨?_, g2, ?_, ?_, ?_, ?_⟩
      · rw [g1]
        congr 1
        exact survivors_sameOs P cs ⟨by simpa using hm.2.1, by simpa using hm.2.2⟩
      · simpa [f2] using g3
      · simpa [f3] using g4
      · simpa [f4] using g5
      · exact ((((fe.emit (Event.socket_close _) rfl).emit (Event.socket_close _) rfl).emit
          Event.free rfl)).trans g6
    · obtain ⟨g1, g2, g3, g4, g5, g6⟩ := ih (acc ++ [c])
        (((makeSocket P (ntohs c.from_.sin_port) false (w.setClients cs)).2.emit
          Event.errlogPrintf)) (by simpa using f1)
      refine ⟨?_, g2, ?_, ?_, ?_, ?_⟩
      · rw [g1, List.append_assoc]
        congr 1
        simp only [List.singleton_append]
        congr 1
        exact survivors_sameOs P cs ⟨by simpa using hm.2.1, by simpa using hm.2.2⟩
      · simpa [f2] using g3
      · simpa [f3] using g4
      · simpa [f4] using g5
      · exact (fe.emit Event.errlogPrintf rfl).trans g6
    · obtain ⟨g1, g2, g3, g4, g5, g6⟩ := ih (acc ++ [c])
        (makeSocket P (ntohs c.from_.sin_port) false (w.setClients cs)).2 f1
      refine ⟨?_, g2, ?_, ?_, ?_, ?_⟩
      · rw [g1, List.append_assoc]
        congr 1
        simp only [List.singleton_append]
        congr 1
        exact survivors_sameOs P cs hm.2
      · simpa [f2] using g3
      · simpa [f3] using g4
      · simpa [f4] using g5
      · exact fe.trans g6

/-- The prober: the client list becomes the list of survivors. -/
theorem verifyClients_spec (P : Platform) (w : World) :
    (verifyClients P w).client_list = survivors P w.client_list w ∧
    (verifyClients P w).testSock = w.testSock ∧
    (verifyClients P w).init = w.init ∧
    (verifyClients P w).halted = w.halted ∧
    Ext Event.isProbe w (verifyClients P w) := by
  obtain ⟨g1, g2, g3, g4, g5, g6⟩ := verifyClientsLoop_spec P w.client_list []
    (w.emit Event.call_verifyClients) rfl
  have hs : survivors P w.client_list (w.emit Event.call_verifyClients) =
      survivors P w.client_list w := survivors_sameOs P _ ⟨rfl, rfl⟩
  refine ⟨?_, ?_, ?_, ?_, ?_⟩
  · unfold verifyClients
    simp only [emit_client_list]
    rw [g2, g1, hs]; simp
  · exact g3
  · exact g4
  · exact g5
  · exact ((Ext.refl _ w).emit Event.call_verifyClients rfl).trans
      ⟨g6.os, g6.trace⟩

theorem Ext.trace_eq {Q : Event → Bool} {w w2 : World} (h : Ext Q w w2) :
    w2.trace = w.trace ++ emitted w w2 := by
  obtain ⟨_, evs, t, _⟩ := h
  rw [emitted_of_trace t, t]

theorem emitted_trans {Q R : Event → Bool} {w w2 w3 : World} (h1 : Ext Q w w2)
    (h2 : Ext R w2 w3) : emitted w w3 = emitted w w2 ++ emitted w2 w3 := by
  apply emitted_of_trace
  rw [h2.trace_eq, h1.trace_eq, List.append_assoc]

theorem emitted_step {Q : Event → Bool} {w w1 r : World} (es : List Event)
    (h1 : w1.trace = w.trace ++ es) (h2 : Ext Q w1 r) : emitted w r = es ++ emitted w1 r := by
  apply emitted_of_trace
  rw [h2.trace_eq, h1, List.append_assoc]

theorem emitted_append3 {w w1 w2 r : World} (es : List Event)
    (h1 : ∃ evs, w1.trace = w.trace ++ evs) (h2 : w2.trace = w1.trace ++ es)
    (h3 : ∃ evs, r.trace = w2.trace ++ evs) :
    emitted w r = emitted w w1 ++ es ++ emitted w2 r := by
  obtain ⟨e1, h1⟩ := h1
  obtain ⟨e3, h3⟩ := h3
  rw [emitted_of_trace h1, emitted_of_trace h3]
  apply emitted_of_trace
  rw [h3, h2, h1]
  simp only [List.append_assoc]

theorem emitted_self (w : World) : emitted w w = [] := by
  simp [emitted]

theorem emitted_congr {w w1 : World} (h : w1.trace = w.trace) (r : World) :
    emitted w r = emitted w1 r := by
  simp [emitted, h]

theorem emitted_emit (w : World) (e : Event) : emitted w (w.emit e) = [e] :=
  emitted_of_trace rfl

theorem isFan_of_isProbe {e : Event} (h : e.isProbe = true) : e.isFan = true := by
  cases e <;> simp_all [Event.isFan, Event.isProbe, Event.isFactory]

/-- One pass of the loop of `fanOut`, as a function of the state. -/
theorem fanOutLoop_cons (P : Platform) (pFrom : sockaddr_in) (pMsg : List Nat) (msgSize : Nat)
    (c : one_client) (cs acc : List one_client) (verify : Bool) (w : World) :
    fanOutLoop P pFrom pMsg msgSize (c :: cs) acc verify w =
      if isSender pFrom c = true then
        fanOutLoop P pFrom pMsg msgSize cs (acc ++ [c]) verify (w.setClients cs)
      else if w.next.ret < 0 then
        if w.next.errno = P.SOCK_ECONNREFUSED then
          fanOutLoop P pFrom pMsg msgSize cs (acc ++ [c]) true
            ((w.setClients cs).tick.emit (Event.send c.sock pMsg msgSize w.next))
        else
          fanOutLoop P pFrom pMsg msgSize cs (acc ++ [c]) verify
            (((w.setClients cs).tick.emit (Event.send c.sock pMsg msgSize w.next)).emit
              Event.errlogPrintf)
      else
        fanOutLoop P pFrom pMsg msgSize cs (acc ++ [c]) verify
          ((w.setClients cs).tick.emit (Event.send c.sock pMsg msgSize w.next)) := by
  simp only [fanOutLoop, isSender, decide_eq_true_eq]
  rfl

/-- The loop of `fanOut`: every record goes back to `theClients`, the sends are those owed to
the records that are not the sender, and `verify` is set exactly when a send was refused. -/
theorem fanOutLoop_spec (P : Platform) (pFrom : sockaddr_in) (pMsg : List Nat) (msgSize : Nat)
    (l : List one_client) :
    ∀ (acc : List one_client) (verify : Bool) (w : World), w.client_list = l →
      (fanOutLoop P pFrom pMsg msgSize l acc verify w).1 = acc ++ l ∧
      (fanOutLoop P pFrom pMsg msgSize l acc verify w).2.2.client_list = [] ∧
      (fanOutLoop P pFrom pMsg msgSize l acc verify w).2.2.testSock = w.testSock ∧
      (fanOutLoop P pFrom pMsg msgSize l acc verify w).2.2.init = w.init ∧
      (fanOutLoop P pFrom pMsg msgSize l acc verify w).2.2.halted = w.halted ∧
      Ext Event.isFanLoop w (fanOutLoop P pFrom pMsg msgSize l acc verify w).2.2 ∧
      sends (emitted w (fanOutLoop P pFrom pMsg msgSize l acc verify w).2.2) =
        fanOutSends pFrom pMsg msgSize l ∧
      (fanOutLoop P pFrom pMsg msgSize l acc verify w).2.1 =
        (verify || (emitted w (fanOutLoop P pFrom pMsg msgSize l acc verify w).2.2).any
          (Event.isRefused P)) := by
  induction l with
  | nil =>
    intro acc verify w hw
    simp [fanOutLoop, hw, Ext.refl, emitted_self, fanOutSends]
  | cons c cs ih =>
    intro acc verify w _
    rw [fanOutLoop_cons]
    split_ifs with hs hr he
    · obtain ⟨g1, g2, g3, g4, g5, g6, g7, g8⟩ := ih (acc ++ [c]) verify (w.setClients cs) rfl
      rw [← emitted_congr (show (w.setClients cs).trace = w.trace from rfl)] at g7 g8
      refine ⟨by simp [g1], g2, g3, g4, g5, ?_, ?_, g8⟩
      · exact (Ext.of_eq Event.isFanLoop (show (w.setClients cs).os = w.os from rfl) rfl).trans g6
      · simp [g7, fanOutSends, List.filter_cons, hs]
    · obtain ⟨g1, g2, g3, g4, g5, g6, g7, g8⟩ := ih (acc ++ [c]) true
        ((w.setClients cs).tick.emit (Event.send c.sock pMsg msgSize w.next)) rfl
      have e1 : Ext Event.isFanLoop w
          ((w.setClients cs).tick.emit (Event.send c.sock pMsg msgSize w.next)) :=
        ⟨rfl, [Event.send c.sock pMsg msgSize w.next], rfl, by simp [Event.isFanLoop]⟩
      have e2 := emitted_step (w := w) [Event.send c.sock pMsg msgSize w.next] rfl g6
      refine ⟨by simp [g1], g2, g3, g4, g5, e1.trans g6, ?_, ?_⟩
      · simp [g7, e2, sends, fanOutSends, List.filter_cons, hs]
      · simp [g8, e2, Event.isRefused, hr, he]
    · obtain ⟨g1, g2, g3, g4, g5, g6, g7, g8⟩ := ih (acc ++ [c]) verify
        (((w.setClients cs).tick.emit (Event.send c.sock pMsg msgSize w.next)).emit
          Event.errlogPrintf) rfl
      have e1 : Ext Event.isFanLoop w
          (((w.setClients cs).tick.emit (Event.send c.sock pMsg msgSize w.next)).emit
            Event.errlogPrintf) :=
        ⟨rfl, [Event.send c.sock pMsg msgSize w.next, Event.errlogPrintf],
          by simp, by simp [Event.isFanLoop]⟩
      have e2 := emitted_step (w := w)
        [Event.send c.sock pMsg msgSize w.next, Event.errlogPrintf] (by simp) g6
      refine ⟨by simp [g1], g2, g3, g4, g5, e1.trans g6, ?_, ?_⟩
      · simp [g7, e2, sends, fanOutSends, List.filter_cons, hs]
      · simp [g8, e2, Event.isRefused, hr, he]
    · obtain ⟨g1, g2, g3, g4, g5, g6, g7, g8⟩ := ih (acc ++ [c]) verify
        ((w.setClients cs).tick.emit (Event.send c.sock pMsg msgSize w.next)) rfl
      have e1 : Ext Event.isFanLoop w
          ((w.setClients cs).tick.emit (Event.send c.sock pMsg msgSize w.next)) :=
        ⟨rfl, [Event.send c.sock pMsg msgSize w.next], rfl, by simp [Event.isFanLoop]⟩
      have e2 := emitted_step (w := w) [Event.send c.sock pMsg msgSize w.next] rfl g6
      refine ⟨by simp [g1], g2, g3, g4, g5, e1.trans g6, ?_, ?_⟩
      · simp [g7, e2, sends, fanOutSends, List.filter_cons, hs]
      · simp [g8, e2, Event.isRefused, hr]

theorem isFan_of_isFanLoop {e : Event} (h : e.isFanLoop = true) : e.isFan = true := by
  cases e <;> simp_all [Event.isFan, Event.isFanLoop, Event.isProbe, Event.isFactory]

/-- The function `fanOut` is its loop, which changes nothing but the trace and the clock,
followed by the prober when a send was refused. -/
theorem fanOut_decomp (P : Platform) (pFrom : sockaddr_in) (pMsg : List Nat) (msgSize : Nat)
    (w : World) :
    ∃ w2 : World, w2.client_list = w.client_list ∧ w2.testSock = w.testSock ∧
      w2.init = w.init ∧ w2.halted = w.halted ∧ Ext Event.isFanLoop w w2 ∧
      sends (emitted w w2) = fanOutSends pFrom pMsg msgSize w.client_list ∧
      fanOut P pFrom pMsg msgSize w =
        if (emitted w w2).any (Event.isRefused P) = true then verifyClients P w2 else w2 := by
  obtain ⟨g1, g2, g3, g4, g5, g6, g7, g8⟩ := fanOutLoop_spec P pFrom pMsg msgSize
    w.client_list [] false (w.emit (Event.call_fanOut pFrom pMsg msgSize)) rfl
  have e2 := emitted_step (w := w) [Event.call_fanOut pFrom pMsg msgSize] rfl g6
  refine ⟨((fanOutLoop P pFrom pMsg msgSize w.client_list [] false
    (w.emit (Event.call_fanOut pFrom pMsg msgSize))).2.2).setClients w.client_list,
    rfl, g3, g4, g5, ?_, ?_, ?_⟩
  · exact ((Ext.refl _ w).emit (Event.call_fanOut pFrom pMsg msgSize) rfl).trans
      (g6.trans (Ext.of_eq _ rfl rfl))
  · show sends (emitted w (fanOutLoop P pFrom pMsg msgSize w.client_list [] false
      (w.emit (Event.call_fanOut pFrom pMsg msgSize))).2.2) = _
    rw [e2, sends_append, g7]
    rfl
  · have h8 : (emitted w (((fanOutLoop P pFrom pMsg msgSize w.client_list [] false
        (w.emit (Event.call_fanOut pFrom pMsg msgSize))).2.2).setClients w.client_list)).any
        (Event.isRefused P) = (fanOutLoop P pFrom pMsg msgSize w.client_list [] false
        (w.emit (Event.call_fanOut pFrom pMsg msgSize))).2.1 := by
      show (emitted w (fanOutLoop P pFrom pMsg msgSize w.client_list [] false
        (w.emit (Event.call_fanOut pFrom pMsg msgSize))).2.2).any (Event.isRefused P) = _
      rw [g8, e2]
      simp [Event.isRefused]
    rw [h8]
    simp only [fanOut, emit_client_list, g1, g2, World.setClients, List.nil_append]

theorem mem_sends_of_mem {evs : List Event} {sock : SOCKET} {pMsg : List Nat} {msgSize : Nat}
    {r : OsReturn} (h : Event.send sock pMsg msgSize r ∈ evs) :
    (sock, pMsg, msgSize) ∈ sends evs := by
  induction evs with
  | nil => simp at h
  | cons e es ih =>
    rcases List.mem_cons.1 h with h1 | h2
    · subst h1; simp [sends]
    · have h3 := ih h2
      cases e <;> simp [sends, h3]

/-- The effect of `fanOut` on the state and the trace. -/
theorem fanOut_spec (P : Platform) (pFrom : sockaddr_in) (pMsg : List Nat) (msgSize : Nat)
    (w : World) :
    Ext Event.isFan w (fanOut P pFrom pMsg msgSize w) ∧
    (fanOut P pFrom pMsg msgSize w).testSock = w.testSock ∧
    (fanOut P pFrom pMsg msgSize w).init = w.init ∧
    (fanOut P pFrom pMsg msgSize w).halted = w.halted ∧
    sends (emitted w (fanOut P pFrom pMsg msgSize w)) =
      fanOutSends pFrom pMsg msgSize w.client_list ∧
    List.Sublist (fanOut P pFrom pMsg msgSize w).client_list w.client_list ∧
    ((∀ e ∈ emitted w (fanOut P pFrom pMsg msgSize w), Event.isRefused P e = false) →
      (fanOut P pFrom pMsg msgSize w).client_list = w.client_list) := by
  obtain ⟨w2, h1, h2, h3, h4, h5, h6, h7⟩ := fanOut_decomp P pFrom pMsg msgSize w
  rw [h7]
  split_ifs with hv
  · obtain ⟨v1, v2, v3, v4, v5⟩ := verifyClients_spec P w2
    have he := emitted_trans h5 v5
    refine ⟨(h5.mono (fun _ => isFan_of_isFanLoop)).trans (v5.mono (fun _ => isFan_of_isProbe)),
      v2.trans h2, v3.trans h3, v4.trans h4, ?_, ?_, ?_⟩
    · rw [he, sends_append, h6, sends_of_probe v5.emitted_all, List.append_nil]
    · rw [v1, ← h1]
      exact survivors_sublist P _ _
    · intro hno
      exfalso
      obtain ⟨e, he1, he2⟩ := List.any_eq_true.1 hv
      have := hno e (by rw [he]; exact List.mem_append_left _ he1)
      rw [he2] at this
      exact Bool.noConfusion this
  · exact ⟨h5.mono (fun _ => isFan_of_isFanLoop), h2, h3, h4, h6, by rw [h1], fun _ => h1⟩

theorem sends_of_not_isSend {evs : List Event} (h : ∀ e ∈ evs, e.isSend = false) :
    sends evs = [] := by
  induction evs with
  | nil => rfl
  | cons e es ih =>
    have he := h e (List.mem_cons_self _ _)
    have hes : ∀ x ∈ es, x.isSend = false := fun x hx => h x (List.mem_cons_of_mem _ hx)
    cases e <;> simp_all [sends, Event.isSend]

theorem isLocalTest_of_isFactory {e : Event} (h : e.isFactory = true) :
    e.isLocalTest = true := by
  cases e <;> simp_all [Event.isLocalTest, Event.isFactory]

theorem isSetup_of_isLocalTest {e : Event} (h : e.isLocalTest = true) : e.isSetup = true := by
  cases e <;> simp_all [Event.isLocalTest, Event.isSetup]

theorem not_isSend_of_isSetup {e : Event} (h : e.isSetup = true) : e.isSend = false := by
  cases e <;> simp_all [Event.isLocalTest, Event.isSetup, Event.isSend]

theorem isConfirm_of_isFan {e : Event} (h : e.isFan = true) : e.isConfirm = true := by
  cases e <;> simp_all [Event.isConfirm]

/-- The creation of the bind test socket leaves the client list and `halted` alone. -/
theorem initTestSock_spec (P : Platform) (w : World) :
    (initTestSock P w).client_list = w.client_list ∧
    (initTestSock P w).halted = w.halted ∧
    Ext Event.isLocalTest w (initTestSock P w) := by
  obtain ⟨f1, _, _, f4⟩ := makeSocket_statics P PORT_ANY true w
  have fe := (makeSocket_ext P PORT_ANY true w).mono (fun _ => isLocalTest_of_isFactory)
  unfold initTestSock
  generalize makeSocket P PORT_ANY true w = r at f1 f4 fe
  obtain ⟨msr, w1⟩ := r
  simp only at f1 f4 fe ⊢
  split_ifs with hi hs
  · exact ⟨f1, f4, (fe.emit Event.errlogPrintf rfl).trans (Ext.of_eq _ rfl rfl)⟩
  · exact ⟨f1, f4, fe.trans (Ext.of_eq _ rfl rfl)⟩
  · exact ⟨rfl, rfl, Ext.refl _ w⟩

/-- The test that the client is local: what it leaves alone, and when it refuses. -/
theorem localTest_spec (P : Platform) (pFrom : sockaddr_in) (w : World) :
    (localTest P pFrom w).2.client_list = w.client_list ∧
    (localTest P pFrom w).2.halted = w.halted ∧
    Ext Event.isLocalTest w (localTest P pFrom w).2 ∧
    ((localTest P pFrom w).1 = false ↔
      (htonl P.INADDR_LOOPBACK ≠ pFrom.sin_addr ∧
        ((initTestSock P w).testSock = P.INVALID_SOCKET ∨ (initTestSock P w).next.ret ≠ 0))) := by
  obtain ⟨i1, i2, i3⟩ := initTestSock_spec P w
  unfold localTest
  simp only []
  split_ifs with hl ht hb
  · refine ⟨i1, i2, ?_, by simp [hl, hb]⟩
    exact i3.call (Event.bind _ _ _) rfl
  · refine ⟨i1, i2, ?_, by simp [hl, ht, hb]⟩
    exact i3.call (Event.bind _ _ _) rfl
  · exact ⟨i1, i2, i3, by simp [hl, not_not.1 ht]⟩
  · exact ⟨rfl, rfl, Ext.refl _ w, by simp [hl]⟩

theorem findClient_none {p : Nat} {l : List one_client} (h : findClient p l = none) :
    ∀ c ∈ l, c.from_.sin_port ≠ p := by
  induction l with
  | nil => simp
  | cons d ds ih =>
    simp only [findClient] at h
    split_ifs at h with hp
    simp only [Option.map_eq_none'] at h
    intro c hc
    rcases List.mem_cons.1 hc with rfl | hc
    · exact fun hh => hp hh.symm
    · exact ih h c hc

theorem findClient_some {p : Nat} {l : List one_client} {idx : Nat} {c : one_client} :
    findClient p l = some (idx, c) → l[idx]? = some c ∧ c.from_.sin_port = p := by
  induction l generalizing idx with
  | nil => simp [findClient]
  | cons d ds ih =>
    simp only [findClient]
    split_ifs with hp
    · intro h
      simp only [Option.some.injEq, Prod.mk.injEq] at h
      obtain ⟨rfl, rfl⟩ := h
      exact ⟨by simp, hp.symm⟩
    · intro h
      simp only [Option.map_eq_some', Prod.mk.injEq] at h
      obtain ⟨⟨j, c2⟩, hj, rfl, rfl⟩ := h
      have := ih hj
      exact ⟨by simpa using this.1, this.2⟩

/-- The creation of a client: on success the new record, made from `pFrom`, is at the tail
of the client list; otherwise the client list is as before. -/
theorem createClient_spec (P : Platform) (pFrom : sockaddr_in) (w : World) :
    Ext Event.isSetup w (createClient P pFrom w).2 ∧
    (createClient P pFrom w).2.halted = w.halted ∧
    ((createClient P pFrom w).1 = none →
      (createClient P pFrom w).2.client_list = w.client_list) ∧
    (∀ idx c, (createClient P pFrom w).1 = some (idx, c) →
      c.from_ = pFrom ∧ idx = w.client_list.length ∧
      (createClient P pFrom w).2.client_list = w.client_list ++ [c] ∧
      ∃ r, 0 ≤ r.ret ∧ Event.connect c.sock pFrom r ∈ emitted w (createClient P pFrom w).2) := by
  obtain ⟨f1, _, _, f4⟩ := makeSocket_statics P PORT_ANY false
    (w.tick.emit (Event.calloc w.next))
  have fe : Ext Event.isSetup w
      (makeSocket P PORT_ANY false (w.tick.emit (Event.calloc w.next))).2 :=
    ((Ext.refl _ w).call (Event.calloc w.next) rfl).trans
      ((makeSocket_ext P PORT_ANY false _).mono
        (fun _ h => isSetup_of_isLocalTest (isLocalTest_of_isFactory h)))
  unfold createClient
  simp only []
  by_cases hm : w.next.ret = 0
  · simp only [hm, if_true]
    exact ⟨((Ext.refl _ w).call (Event.calloc w.next) rfl).emit Event.errlogPrintf rfl, rfl,
      fun _ => rfl, by simp⟩
  · simp only [hm, if_false]
    generalize makeSocket P PORT_ANY false (w.tick.emit (Event.calloc w.next)) = r at f1 f4 fe
    obtain ⟨msr, w1⟩ := r
    simp only [emit_client_list, tick_client_list, emit_halted, tick_halted] at f1 f4 fe ⊢
    split_ifs with h1 h2
    · exact ⟨(fe.emit Event.free rfl).emit Event.errlogPrintf rfl, f4, fun _ => f1, by simp⟩
    · refine ⟨?_, f4, fun _ => f1, by simp⟩
      exact (((fe.call (Event.connect msr.sock pFrom w1.next) rfl).emit
        Event.errlogPrintf rfl).emit (Event.socket_close msr.sock) rfl).emit Event.free rfl
    · refine ⟨?_, f4, by simp, ?_⟩
      · exact (fe.call (Event.connect msr.sock pFrom w1.next) rfl).trans
          (Ext.of_eq _ rfl rfl)
      · intro idx c h
        simp only [Option.some.injEq, Prod.mk.injEq] at h
        obtain ⟨rfl, rfl⟩ := h
        refine ⟨rfl, by simp [f1], by simp [f1], w1.next, not_lt.1 h2, ?_⟩
        have ht : ∀ l, ((w1.tick.emit (Event.connect msr.sock pFrom w1.next)).setClients l).trace =
            w.trace ++ (emitted w w1 ++ [Event.connect msr.sock pFrom w1.next]) := by
          intro l
          simp [fe.trace_eq]
        rw [emitted_of_trace (ht _)]
        simp

/-- The lookup or creation of the client: the record obtained is at position `idx` of the
client list and has the port of `pFrom`; a record that was found leaves the state as it was,
a new record is made from `pFrom` and sits at the tail of the list. -/
theorem obtainClient_spec (P : Platform) (pFrom : sockaddr_in) (w : World) :
    Ext Event.isSetup w (obtainClient P pFrom w).2 ∧
    (obtainClient P pFrom w).2.halted = w.halted ∧
    ((obtainClient P pFrom w).1 = none →
      (obtainClient P pFrom w).2.client_list = w.client_list) ∧
    (∀ idx c newClient, (obtainClient P pFrom w).1 = some (idx, c, newClient) →
      (obtainClient P pFrom w).2.client_list[idx]? = some c ∧
      c.from_.sin_port = pFrom.sin_port ∧
      (newClient = false → (obtainClient P pFrom w).2 = w ∧
        findClient pFrom.sin_port w.client_list = some (idx, c)) ∧
      (newClient = true → c.from_ = pFrom ∧ idx = w.client_list.length ∧
        (obtainClient P pFrom w).2.client_list = w.client_list ++ [c] ∧
        findClient pFrom.sin_port w.client_list = none ∧
        ∃ r, 0 ≤ r.ret ∧ Event.connect c.sock pFrom r ∈ emitted w (obtainClient P pFrom w).2)) := by
  obtain ⟨c1, c2, c3, c4⟩ := createClient_spec P pFrom w
  unfold obtainClient
  cases hf : findClient pFrom.sin_port w.client_list with
  | some p =>
    obtain ⟨i, d⟩ := p
    have hfs := findClient_some hf
    simp only []
    refine ⟨Ext.refl _ w, trivial, by simp, ?_⟩
    intro idx c newClient h
    simp only [Option.some.injEq, Prod.mk.injEq] at h
    obtain ⟨rfl, rfl, rfl⟩ := h
    exact ⟨hfs.1, hfs.2, fun _ => ⟨trivial, rfl⟩, by simp⟩
  | none =>
    simp only []
    generalize createClient P pFrom w = r at c1 c2 c3 c4
    obtain ⟨o, w1⟩ := r
    cases o with
    | none => exact ⟨c1, c2, fun _ => c3 rfl, by simp⟩
    | some q =>
      obtain ⟨i, d⟩ := q
      obtain ⟨d1, d2, d3, d4⟩ := c4 i d rfl
      simp only at d3 d4 c1 c2 ⊢
      refine ⟨c1, c2, by simp, ?_⟩
      intro idx c newClient h
      simp only [Option.some.injEq, Prod.mk.injEq] at h
      obtain ⟨rfl, rfl, rfl⟩ := h
      refine ⟨by simp [d3, d2], by rw [d1], by simp, fun _ => ⟨d1, d2, d3, trivial, d4⟩⟩

/-- The end of the registrar: the fan-out of the zeroed header, then the prober for a new
client. -/
theorem sendNoop_spec (P : Platform) (pFrom : sockaddr_in) (newClient : Bool) (w : World) :
    Ext Event.isFan w (sendNoop P pFrom newClient w) ∧
    (sendNoop P pFrom newClient w).halted = w.halted ∧
    List.Sublist (sendNoop P pFrom newClient w).client_list w.client_list ∧
    sends (emitted w (sendNoop P pFrom newClient w)) =
      fanOutSends pFrom noopHdr.bytes sizeof_caHdr w.client_list := by
  obtain ⟨f1, _, _, f4, f5, f6, _⟩ := fanOut_spec P pFrom noopHdr.bytes sizeof_caHdr w
  unfold sendNoop
  simp only []
  split_ifs with hn
  · obtain ⟨v1, _, _, v4, v5⟩ := verifyClients_spec P (fanOut P pFrom noopHdr.bytes sizeof_caHdr w)
    refine ⟨f1.trans (v5.mono (fun _ => isFan_of_isProbe)), v4.trans f4, ?_, ?_⟩
    · rw [v1]
      exact (survivors_sublist P _ _).trans f6
    · rw [emitted_trans f1 v5, sends_append, f5, sends_of_probe v5.emitted_all,
        List.append_nil]
  · exact ⟨f1, f4, f6, f5⟩

/-- The confirmation and what follows it: the first action is the send of the confirmation on
the socket of the record, the sends after it are those of a fan-out of the zeroed header over
the client list (without the record when its confirmation was refused) or there are none (when
the `assert` failed), and the client list does not grow. -/
theorem confirmClient_spec (P : Platform) (pFrom : sockaddr_in) (idx : Nat) (c : one_client)
    (newClient : Bool) (w : World) :
    Ext Event.isConfirm w (confirmClient P pFrom idx c newClient w) ∧
    List.Sublist (confirmClient P pFrom idx c newClient w).client_list w.client_list ∧
    ∃ post, emitted w (confirmClient P pFrom idx c newClient w) =
        Event.send c.sock (confirmHdr P pFrom).bytes sizeof_caHdr w.next :: post ∧
      (sends post = [] ∨
        sends post = fanOutSends pFrom noopHdr.bytes sizeof_caHdr w.client_list ∨
        sends post = fanOutSends pFrom noopHdr.bytes sizeof_caHdr
          (w.client_list.eraseIdx idx)) := by
  have e0 : Ext Event.isConfirm w
      (w.tick.emit (Event.send c.sock (confirmHdr P pFrom).bytes sizeof_caHdr w.next)) :=
    (Ext.refl _ w).call _ rfl
  have hc : ∀ e : Event, e.isFan = true → e.isConfirm = true := fun _ => isConfirm_of_isFan
  unfold confirmClient
  simp only []
  split_ifs with h0 h16 hr
  · obtain ⟨n1, _, n3, n4⟩ := sendNoop_spec P pFrom newClient
      (w.tick.emit (Event.send c.sock (confirmHdr P pFrom).bytes sizeof_caHdr w.next))
    refine ⟨e0.trans (n1.mono hc), n3, _, emitted_step (w := w) [_] rfl n1, Or.inr (Or.inl n4)⟩
  · refine ⟨(e0.emit Event.assertFailed rfl).trans (Ext.of_eq _ rfl rfl),
      List.Sublist.refl _, [Event.assertFailed], ?_, Or.inl rfl⟩
    exact emitted_of_trace (by simp)
  · obtain ⟨n1, _, n3, n4⟩ := sendNoop_spec P pFrom newClient
      ((((w.tick.emit (Event.send c.sock (confirmHdr P pFrom).bytes sizeof_caHdr w.next)).setClients
        (w.client_list.eraseIdx idx)).emit (Event.socket_close c.sock)).emit Event.free)
    have e1 : Ext Event.isConfirm w
        ((((w.tick.emit (Event.send c.sock (confirmHdr P pFrom).bytes sizeof_caHdr
          w.next)).setClients (w.client_list.eraseIdx idx)).emit
          (Event.socket_close c.sock)).emit Event.free) :=
      (((e0.setClients _).emit (Event.socket_close c.sock) rfl).emit Event.free rfl)
    refine ⟨e1.trans (n1.mono hc), n3.trans (List.eraseIdx_sublist _ _), _,
      emitted_step (w := w) [_, Event.socket_close c.sock, Event.free] (by simp) n1, ?_⟩
    right; right
    simpa [sends] using n4
  · obtain ⟨n1, _, n3, n4⟩ := sendNoop_spec P pFrom newClient
      ((w.tick.emit (Event.send c.sock (confirmHdr P pFrom).bytes sizeof_caHdr w.next)).emit
        Event.errlogPrintf)
    refine ⟨(e0.emit Event.errlogPrintf rfl).trans (n1.mono hc), n3, _,
      emitted_step (w := w) [_, Event.errlogPrintf] (by simp) n1, ?_⟩
    right; left
    simpa [sends] using n4

/-- The registrar as a function of the results of its parts. -/
theorem register_new_client_eq (P : Platform) (pFrom : sockaddr_in) (w : World) :
    register_new_client P pFrom w =
      if pFrom.sin_family ≠ P.AF_INET then w
      else if (localTest P pFrom w).1 = false then (localTest P pFrom w).2
      else
        match (obtainClient P pFrom (localTest P pFrom w).2).1 with
        | none => (obtainClient P pFrom (localTest P pFrom w).2).2
        | some (idx, pclient, newClient) =>
          confirmClient P pFrom idx pclient newClient
            (obtainClient P pFrom (localTest P pFrom w).2).2 := by
  unfold register_new_client
  split_ifs with hf hl
  · rfl
  · rcases hlt : localTest P pFrom w with ⟨ok, w1⟩
    rw [hlt] at hl
    simp only at hl
    subst hl
    rfl
  · rcases hlt : localTest P pFrom w with ⟨ok, w1⟩
    rw [hlt] at hl
    simp only [Bool.not_eq_false] at hl
    subst hl
    simp only []
    rcases hoc : obtainClient P pFrom w1 with ⟨o, w2⟩
    cases o with
    | none => rfl
    | some q => rfl

/-- The ports of the records of a client list. -/
theorem ports_nodup_of_sublist {l l2 : List one_client} (h : List.Sublist l2 l)
    (hn : (l.map (fun c => c.from_.sin_port)).Nodup) :
    (l2.map (fun c => c.from_.sin_port)).Nodup :=
  List.Nodup.sublist (h.map _) hn

/-- The registrar keeps the ports of the client list distinct. -/
theorem register_new_client_nodup (P : Platform) (pFrom : sockaddr_in) (w : World)
    (hn : (w.client_list.map (fun c => c.from_.sin_port)).Nodup) :
    ((register_new_client P pFrom w).client_list.map (fun c => c.from_.sin_port)).Nodup := by
  obtain ⟨l1, _, _, _⟩ := localTest_spec P pFrom w
  obtain ⟨_, _, o3, o4⟩ := obtainClient_spec P pFrom (localTest P pFrom w).2
  rw [register_new_client_eq]
  split_ifs with hf hl
  · exact hn
  · rw [l1]; exact hn
  · generalize obtainClient P pFrom (localTest P pFrom w).2 = r at o3 o4
    obtain ⟨o, w2⟩ := r
    cases o with
    | none =>
      simp only at o3 ⊢
      rw [o3 trivial, l1]; exact hn
    | some q =>
      obtain ⟨idx, c, newClient⟩ := q
      simp only at o4 ⊢
      obtain ⟨_, _, q3, q4⟩ := o4 idx c newClient rfl
      obtain ⟨_, k2, _⟩ := confirmClient_spec P pFrom idx c newClient w2
      apply ports_nodup_of_sublist k2
      cases newClient with
      | false =>
        rw [(q3 rfl).1, l1]; exact hn
      | true =>
        obtain ⟨r1, _, r3, r4, _⟩ := q4 rfl
        rw [r3, l1, List.map_append, List.nodup_append]
        refine ⟨hn, by simp, ?_⟩
        rw [l1] at r4
        have hne := findClient_none r4
        intro p hp1 hp2
        simp only [List.map_cons, List.map_nil, List.mem_singleton] at hp2
        obtain ⟨d, hd, hdp⟩ := List.mem_map.1 hp1
        apply hne d hd
        rw [hdp, hp2, r1]

/-- One iteration of the dispatch loop keeps the ports of the client list distinct. -/
theorem dispatch_nodup (P : Platform) (d : Datagram) (w : World)
    (hn : (w.client_list.map (fun c => c.from_.sin_port)).Nodup) :
    ((dispatch P d w).client_list.map (fun c => c.from_.sin_port)).Nodup := by
  have hr := register_new_client_nodup P d.from_ w hn
  have hfan : ∀ (m : List Nat) (n : Nat) (w2 : World),
      (w2.client_list.map (fun c => c.from_.sin_port)).Nodup →
      ((fanOut P d.from_ m n w2).client_list.map (fun c => c.from_.sin_port)).Nodup :=
    fun m n w2 h => ports_nodup_of_sublist (fanOut_spec P d.from_ m n w2).2.2.2.2.2.1 h
  unfold dispatch
  simp only []
  split_ifs
  all_goals first | exact hn | exact hr | exact hfan _ _ _ hn | exact hfan _ _ _ hr

theorem dispatchAll_nodup (P : Platform) (ds : List Datagram) :
    ∀ w : World, (w.client_list.map (fun c => c.from_.sin_port)).Nodup →
      ((dispatchAll P ds w).client_list.map (fun c => c.from_.sin_port)).Nodup := by
  induction ds with
  | nil => intro w h; exact h
  | cons d ds ih =>
    intro w h
    simp only [dispatchAll]
    split_ifs
    · exact h
    · exact ih _ (dispatch_nodup P d w h)

/-- The one `bind` of `makeSocket` is to the port it was given on any interface, and it
decides whether a socket is returned. -/
theorem makeSocket_bind (P : Platform) (port : Nat) (reuseAddr : Bool) (w : World)
    (s : SOCKET) (a : sockaddr_in) (r : OsReturn)
    (h : Event.bind s a r ∈ emitted w (makeSocket P port reuseAddr w).2) :
    a = ⟨P.AF_INET, htons port, htonl P.INADDR_ANY⟩ ∧
    (0 ≤ r.ret → (makeSocket P port reuseAddr w).1.sock ≠ P.INVALID_SOCKET) ∧
    (r.ret < 0 → (makeSocket P port reuseAddr w).1.sock = P.INVALID_SOCKET) := by
  unfold makeSocket at h ⊢
  simp only [] at h ⊢
  split_ifs at h ⊢ with h1 h2 h3 h4 h5
  all_goals
    rw [emitted_of_trace (w := w) (by simp; rfl)] at h
    simp only [List.mem_cons, List.mem_singleton, List.not_mem_nil, Event.bind.injEq,
      reduceCtorEq, or_false, false_or, List.mem_append] at h
  all_goals
    obtain ⟨rfl, rfl, rfl⟩ := h
    have h3b : (w.tick.emit (Event.socket w.next)).next = w.tick.next := rfl
    rw [h3b] at h3
    refine ⟨rfl, ?_, ?_⟩ <;> intro hh <;> first
      | exact h1
      | rfl
      | (exfalso; omega)

theorem port_not_mem_of_nodup {c : one_client} {cs : List one_client}
    (hn : ((c :: cs).map (fun c => c.from_.sin_port)).Nodup) :
    ∀ d ∈ cs, d.from_.sin_port ≠ c.from_.sin_port := by
  intro d hd heq
  rw [List.map_cons, List.nodup_cons] at hn
  exact hn.1 (heq ▸ List.mem_map_of_mem _ hd)

/-- Each `bind` of the loop of the prober is the probe of a record of the list, and its result
decides whether that record survives, the ports of the list being distinct. -/
theorem verifyClientsLoop_binds (P : Platform) (l : List one_client) :
    ∀ (acc : List one_client) (w : World), w.client_list = l →
      (l.map (fun c => c.from_.sin_port)).Nodup →
      ∀ s a r, Event.bind s a r ∈ emitted w (verifyClientsLoop P l acc w).2 →
        ∃ d ∈ l, a = ⟨P.AF_INET, htons (ntohs d.from_.sin_port), htonl P.INADDR_ANY⟩ ∧
          (0 ≤ r.ret → d ∉ survivors P l w) ∧ (r.ret < 0 → d ∈ survivors P l w) := by
  induction l with
  | nil =>
    intro acc w _ _ s a r h
    simp [verifyClientsLoop, emitted_self] at h
  | cons c cs ih =>
    intro acc w _ hn s a r h
    have hn2 : (cs.map (fun c => c.from_.sin_port)).Nodup := by
      rw [List.map_cons, List.nodup_cons] at hn
      exact hn.2
    have hpc := port_not_mem_of_nodup hn
    have hccs : c ∉ cs := fun hc => hpc c hc rfl
    have hso : SameOs (w.setClients cs) w := ⟨rfl, rfl⟩
    have hm := makeSocket_sameOs P (ntohs c.from_.sin_port) false hso
    obtain ⟨f1, -, -, -⟩ := makeSocket_statics P (ntohs c.from_.sin_port) false
      (w.setClients cs)
    have fe := makeSocket_ext P (ntohs c.from_.sin_port) false (w.setClients cs)
    have fb := makeSocket_bind P (ntohs c.from_.sin_port) false (w.setClients cs) s a r
    rw [survivors_cons, ← hm.1]
    rw [verifyClientsLoop_cons] at h
    -- the three ways through the body of the loop
    have key : ∀ (es : List Event) (acc2 : List one_client) (w2 : World),
        w2.trace = (makeSocket P (ntohs c.from_.sin_port) false (w.setClients cs)).2.trace ++ es →
        w2.client_list = cs →
        SameOs w2 (makeSocket P (ntohs c.from_.sin_port) false w).2 →
        (∀ e ∈ es, ∀ s a r, e ≠ Event.bind s a r) →
        Event.bind s a r ∈ emitted w (verifyClientsLoop P cs acc2 w2).2 →
        (Event.bind s a r ∈ emitted (w.setClients cs)
            (makeSocket P (ntohs c.from_.sin_port) false (w.setClients cs)).2) ∨
          ∃ d ∈ cs, a = ⟨P.AF_INET, htons (ntohs d.from_.sin_port), htonl P.INADDR_ANY⟩ ∧
            (0 ≤ r.ret → d ∉ survivors P cs (makeSocket P (ntohs c.from_.sin_port) false w).2) ∧
            (r.ret < 0 → d ∈ survivors P cs (makeSocket P (ntohs c.from_.sin_port) false w).2) := by
      intro es acc2 w2 ht hcl hsame hes hmem
      have g6 := (verifyClientsLoop_spec P cs acc2 w2 hcl).2.2.2.2.2
      rw [emitted_append3 (w := w) es ⟨_, fe.trace_eq⟩ ht ⟨_, g6.trace_eq⟩] at hmem
      rcases List.mem_append.1 hmem with hmem | hmem
      · rcases List.mem_append.1 hmem with hmem | hmem
        · exact Or.inl hmem
        · exact absurd rfl (hes _ hmem s a r)
      · right
        obtain ⟨d, hd, ha, h1, h2⟩ := ih acc2 w2 hcl hn2 s a r hmem
        rw [survivors_sameOs P cs hsame] at h1 h2
        exact ⟨d, hd, ha, h1, h2⟩
    have fin : (Event.bind s a r ∈ emitted (w.setClients cs)
            (makeSocket P (ntohs c.from_.sin_port) false (w.setClients cs)).2) ∨
          (∃ d ∈ cs, a = ⟨P.AF_INET, htons (ntohs d.from_.sin_port), htonl P.INADDR_ANY⟩ ∧
            (0 ≤ r.ret → d ∉ survivors P cs (makeSocket P (ntohs c.from_.sin_port) false w).2) ∧
            (r.ret < 0 → d ∈ survivors P cs (makeSocket P (ntohs c.from_.sin_port) false w).2)) := by
      split_ifs at h with hs he
      · exact key [Event.socket_close (makeSocket P (ntohs c.from_.sin_port) false
            (w.setClients cs)).1.sock, Event.socket_close c.sock, Event.free] _ _
          (by simp) (by simpa using f1) ⟨by simpa using hm.2.1, by simpa using hm.2.2⟩
          (by simp) h
      · exact key [Event.errlogPrintf] _ _ (by simp) (by simpa using f1)
          ⟨by simpa using hm.2.1, by simpa using hm.2.2⟩ (by simp) h
      · exact key [] _ _ (by simp) f1 hm.2 (by simp) h
    rcases fin with hhead | ⟨d, hd, ha, h1, h2⟩
    · obtain ⟨b1, b2, b3⟩ := fb hhead
      refine ⟨c, List.mem_cons_self _ _, b1, ?_, ?_⟩
      · intro h0
        rw [if_pos (b2 h0)]
        exact fun hc => hccs ((survivors_sublist P cs _).subset hc)
      · intro h0
        rw [if_neg (not_not.2 (b3 h0))]
        exact List.mem_cons_self _ _
    · refine ⟨d, List.mem_cons_of_mem _ hd, ha, ?_, ?_⟩
      · intro h0
        split_ifs
        · exact h1 h0
        · intro hc
          rcases List.mem_cons.1 hc with rfl | hc
          · exact hccs hd
          · exact h1 h0 hc
      · intro h0
        split_ifs
        · exact h2 h0
        · exact List.mem_cons_of_mem _ (h2 h0)

theorem not_bind_of_isFanLoop {e : Event} (h : e.isFanLoop = true) (s : SOCKET)
    (a : sockaddr_in) (r : OsReturn) : e ≠ Event.bind s a r := by
  rintro rfl
  simp [Event.isFanLoop] at h

/-- Each `bind` of the prober is the probe of a record of the client list, and its result
decides whether that record is in the client list afterwards. -/
theorem verifyClients_binds (P : Platform) (w : World)
    (hn : (w.client_list.map (fun c => c.from_.sin_port)).Nodup) (s : SOCKET)
    (a : sockaddr_in) (r : OsReturn)
    (h : Event.bind s a r ∈ emitted w (verifyClients P w)) :
    ∃ d ∈ w.client_list,
      a = ⟨P.AF_INET, htons (ntohs d.from_.sin_port), htonl P.INADDR_ANY⟩ ∧
      (0 ≤ r.ret → d ∉ (verifyClients P w).client_list) ∧
      (r.ret < 0 → d ∈ (verifyClients P w).client_list) := by
  have g6 := (verifyClientsLoop_spec P w.client_list [] (w.emit Event.call_verifyClients)
    rfl).2.2.2.2.2
  have hb := verifyClientsLoop_binds P w.client_list [] (w.emit Event.call_verifyClients)
    rfl hn s a r
  have hs : survivors P w.client_list (w.emit Event.call_verifyClients) =
      survivors P w.client_list w := survivors_sameOs P _ ⟨rfl, rfl⟩
  rw [(verifyClients_spec P w).1]
  rw [hs] at hb
  apply hb
  have e1 : emitted w (verifyClients P w) = [Event.call_verifyClients] ++
      emitted (w.emit Event.call_verifyClients)
        (verifyClientsLoop P w.client_list [] (w.emit Event.call_verifyClients)).2 :=
    emitted_step (w := w) [Event.call_verifyClients] rfl ⟨g6.os, g6.trace⟩
  rw [e1] at h
  simpa using h

/-- Each `bind` of `fanOut` is the probe of a record of the client list, and its result
decides whether that record is in the client list afterwards. -/
theorem fanOut_binds (P : Platform) (pFrom : sockaddr_in) (pMsg : List Nat) (msgSize : Nat)
    (w : World) (hn : (w.client_list.map (fun c => c.from_.sin_port)).Nodup) (s : SOCKET)
    (a : sockaddr_in) (r : OsReturn)
    (h : Event.bind s a r ∈ emitted w (fanOut P pFrom pMsg msgSize w)) :
    ∃ d ∈ w.client_list,
      a = ⟨P.AF_INET, htons (ntohs d.from_.sin_port), htonl P.INADDR_ANY⟩ ∧
      (0 ≤ r.ret → d ∉ (fanOut P pFrom pMsg msgSize w).client_list) ∧
      (r.ret < 0 → d ∈ (fanOut P pFrom pMsg msgSize w).client_list) := by
  obtain ⟨w2, h1, _, _, _, h5, _, h7⟩ := fanOut_decomp P pFrom pMsg msgSize w
  rw [h7] at h ⊢
  split_ifs at h ⊢ with hv
  · obtain ⟨_, _, _, _, v5⟩ := verifyClients_spec P w2
    rw [emitted_trans h5 v5] at h
    rcases List.mem_append.1 h with h | h
    · exact absurd rfl (not_bind_of_isFanLoop (h5.emitted_all _ h) s a r)
    · rw [← h1]
      exact verifyClients_binds P w2 (by rw [h1]; exact hn) s a r h
  · exact absurd rfl (not_bind_of_isFanLoop (h5.emitted_all _ h) s a r)

theorem obtainClient_found (P : Platform) (pFrom : sockaddr_in) (w : World) {idx : Nat}
    {c : one_client} (h : findClient pFrom.sin_port w.client_list = some (idx, c)) :
    obtainClient P pFrom w = (some (idx, c, false), w) := by
  simp [obtainClient, h]

/-- A registration that passes the test that the client is local and obtains a record is the
confirmation of that record, after actions that contain no send. -/
theorem register_new_client_success (P : Platform) (pFrom : sockaddr_in) (w : World)
    {idx : Nat} {c : one_client} {newClient : Bool}
    (hfam : pFrom.sin_family = P.AF_INET) (hloc : (localTest P pFrom w).1 = true)
    (hrec : (obtainClient P pFrom (localTest P pFrom w).2).1 = some (idx, c, newClient)) :
    register_new_client P pFrom w =
      confirmClient P pFrom idx c newClient (obtainClient P pFrom (localTest P pFrom w).2).2 ∧
    Ext Event.isSetup w (obtainClient P pFrom (localTest P pFrom w).2).2 := by
  refine ⟨?_, ?_⟩
  · rw [register_new_client_eq, if_neg (not_not.2 hfam), if_neg (by simp [hloc]), hrec]
  · exact ((localTest_spec P pFrom w).2.2.1.mono (fun _ => isSetup_of_isLocalTest)).trans
      (obtainClient_spec P pFrom _).1

theorem confirm_ne_noop (P : Platform) (pFrom : sockaddr_in)
    (hK : P.REPEATER_CONFIRM % 65536 ≠ 0) : (confirmHdr P pFrom).bytes ≠ noopHdr.bytes := by
  intro h
  have h0 := congrArg (fun l => l.getD 0 0) h
  have h1 := congrArg (fun l => l.getD 1 0) h
  simp [confirmHdr, noopHdr, caHdr.bytes, caHdr.zero, be16, htons] at h0 h1
  omega

theorem mem_fanOutSends {pFrom : sockaddr_in} {pMsg : List Nat} {msgSize : Nat}
    {l : List one_client} {x : SOCKET × List Nat × Nat}
    (h : x ∈ fanOutSends pFrom pMsg msgSize l) :
    x.2.1 = pMsg ∧ x.2.2 = msgSize ∧ ∃ d ∈ l, d.sock = x.1 ∧
      ¬ (pFrom.sin_port = d.from_.sin_port ∧ pFrom.sin_addr = d.from_.sin_addr) := by
  simp only [fanOutSends, List.mem_map, List.mem_filter] at h
  obtain ⟨d, ⟨hd, hnd⟩, rfl⟩ := h
  refine ⟨rfl, rfl, d, hd, rfl, ?_⟩
  intro hboth
  simp [isSender, hboth.1, hboth.2] at hnd

/-- The sends of a registration: at most the confirmation, followed by sends of the fan-out
on sockets of records that were in the client list before and are not the sender; and each
record of the client list afterwards was in the list before or is made from `pFrom`. -/
theorem register_new_client_sends (P : Platform) (pFrom : sockaddr_in) (w : World) :
    (∃ S, (sends (emitted w (register_new_client P pFrom w)) = S ∨
        ∃ sock, sends (emitted w (register_new_client P pFrom w)) =
          (sock, (confirmHdr P pFrom).bytes, sizeof_caHdr) :: S) ∧
      ∀ x ∈ S, ∃ d ∈ w.client_list, d.sock = x.1 ∧
        ¬ (pFrom.sin_port = d.from_.sin_port ∧ pFrom.sin_addr = d.from_.sin_addr)) ∧
    (∀ d ∈ (register_new_client P pFrom w).client_list, d ∈ w.client_list ∨ d.from_ = pFrom) ∧
    Ext (fun _ => true) w (register_new_client P pFrom w) := by
  obtain ⟨l1, _, l3, _⟩ := localTest_spec P pFrom w
  obtain ⟨o1, _, o3, o4⟩ := obtainClient_spec P pFrom (localTest P pFrom w).2
  have hset : Ext Event.isSetup w (obtainClient P pFrom (localTest P pFrom w).2).2 :=
    (l3.mono (fun _ => isSetup_of_isLocalTest)).trans o1
  have hnil : ∀ {w2 : World}, Ext Event.isSetup w w2 → sends (emitted w w2) = [] :=
    fun h => sends_of_not_isSend (fun e he => not_isSend_of_isSetup (h.emitted_all e he))
  rw [register_new_client_eq]
  split_ifs with hf hl
  · exact ⟨⟨[], Or.inl (by simp [emitted_self]), by simp⟩, fun d hd => Or.inl hd, Ext.refl _ w⟩
  · refine ⟨⟨[], Or.inl (hnil (l3.mono (fun _ => isSetup_of_isLocalTest))), by simp⟩,
      fun d hd => Or.inl (l1 ▸ hd), l3.mono (fun _ _ => rfl)⟩
  · generalize hr : obtainClient P pFrom (localTest P pFrom w).2 = r at o1 o3 o4 hset
    obtain ⟨o, w2⟩ := r
    cases o with
    | none =>
      simp only at o3 hset ⊢
      refine ⟨⟨[], Or.inl (hnil hset), by simp⟩, fun d hd => Or.inl ?_, hset.mono (fun _ _ => rfl)⟩
      rw [o3 trivial, l1] at hd
      exact hd
    | some q =>
      obtain ⟨idx, c, newClient⟩ := q
      simp only at o4 hset ⊢
      obtain ⟨_, _, q3, q4⟩ := o4 idx c newClient rfl
      obtain ⟨k1, k2, post, k3, k4⟩ := confirmClient_spec P pFrom idx c newClient w2
      have hT : ∀ d ∈ w2.client_list, d ∈ w.client_list ∨ d.from_ = pFrom := by
        intro d hd
        cases newClient with
        | false =>
          have := (q3 rfl).1
          simp only at this
          rw [this, l1] at hd
          exact Or.inl hd
        | true =>
          obtain ⟨r1, _, r3, _, _⟩ := q4 rfl
          rw [r3, l1] at hd
          rcases List.mem_append.1 hd with hd | hd
          · exact Or.inl hd
          · rw [List.mem_singleton.1 hd]
            exact Or.inr r1
      have hS : ∀ l : List one_client, List.Sublist l w2.client_list →
          ∀ x ∈ fanOutSends pFrom noopHdr.bytes sizeof_caHdr l, ∃ d ∈ w.client_list,
            d.sock = x.1 ∧
            ¬ (pFrom.sin_port = d.from_.sin_port ∧ pFrom.sin_addr = d.from_.sin_addr) := by
        intro l hl x hx
        obtain ⟨_, _, d, hd, hs, hns⟩ := mem_fanOutSends hx
        rcases hT d (hl.subset hd) with h | h
        · exact ⟨d, h, hs, hns⟩
        · exact absurd (by rw [h]; exact ⟨rfl, rfl⟩) hns
      refine ⟨⟨sends post, Or.inr ⟨c.sock, ?_⟩, ?_⟩, fun d hd => hT d (k2.subset hd),
        (hset.mono (fun _ _ => rfl)).trans (k1.mono (fun _ _ => rfl))⟩
      · rw [emitted_trans hset k1, sends_append, hnil hset, k3]
        rfl
      · rcases k4 with h | h | h
        · rw [h]; simp
        · rw [h]; exact hS _ (List.Sublist.refl _)
        · rw [h]; exact hS _ (List.eraseIdx_sublist _ _)

/-- The dispatch of a registration that carries more than its header and returns: the bytes
after the header are fanned out. -/
theorem dispatch_register_eq (P : Platform) (d : Datagram) (w : World)
    (hsize : (sizeof_caHdr : Int) < d.size) (hcmd : msgCmmd d.buf = P.REPEATER_REGISTER)
    (hnh : (register_new_client P d.from_ w).halted = false) :
    dispatch P d w = fanOut P d.from_ (d.buf.drop sizeof_caHdr)
      (d.size - sizeof_caHdr).toNat (register_new_client P d.from_ w) := by
  have h1 : ¬ d.size < 0 := by simp only [sizeof_caHdr] at hsize; omega
  have h2 : sizeof_caHdr ≤ d.size.toNat := by simp only [sizeof_caHdr] at hsize ⊢; omega
  have h3 : ¬ (d.size - (sizeof_caHdr : Int) = 0) := by omega
  simp only [dispatch, h1, h2, h3, hcmd, hnh, if_true, if_false, Bool.false_eq_true]

/-- The actions of `makeSocket`, from the results of its calls into the operating system. -/
theorem makeSocket_emitted (P : Platform) (port : Nat) (reuseAddr : Bool) (w : World) :
    emitted w (makeSocket P port reuseAddr w).2 =
      if w.next.ret = P.INVALID_SOCKET then [Event.socket w.next]
      else if port ≠ PORT_ANY then
        if w.tick.next.ret < 0 then
          [Event.socket w.next,
            Event.bind w.next.ret ⟨P.AF_INET, htons port, htonl P.INADDR_ANY⟩ w.tick.next,
            Event.socket_close w.next.ret]
        else if reuseAddr = true then
          [Event.socket w.next,
            Event.bind w.next.ret ⟨P.AF_INET, htons port, htonl P.INADDR_ANY⟩ w.tick.next,
            Event.setsockopt w.next.ret w.tick.tick.next] ++
            (if w.tick.tick.next.ret < 0 then [Event.errlogPrintf] else [])
        else
          [Event.socket w.next,
            Event.bind w.next.ret ⟨P.AF_INET, htons port, htonl P.INADDR_ANY⟩ w.tick.next]
      else [Event.socket w.next] := by
  have h1 : (w.tick.emit (Event.socket w.next)).next = w.tick.next := rfl
  have h2 : ∀ e, ((w.tick.emit (Event.socket w.next)).tick.emit e).next = w.tick.tick.next :=
    fun _ => rfl
  unfold makeSocket
  simp only [h1, h2]
  split_ifs <;> exact emitted_of_trace (by simp)

/-- The value `makeSocket` returns, from the results of its calls into the operating
system. -/
theorem makeSocket_value (P : Platform) (port : Nat) (reuseAddr : Bool) (w : World) :
    (makeSocket P port reuseAddr w).1 =
      if w.next.ret = P.INVALID_SOCKET then ⟨w.next.ret, w.next.errno⟩
      else if port ≠ PORT_ANY ∧ w.tick.next.ret < 0 then ⟨P.INVALID_SOCKET, w.tick.next.errno⟩
      else ⟨w.next.ret, 0⟩ := by
  have h1 : (w.tick.emit (Event.socket w.next)).next = w.tick.next := rfl
  unfold makeSocket
  simp only [h1]
  split_ifs <;> simp_all

theorem fanOutCalls_append (xs ys : List Event) :
    fanOutCalls (xs ++ ys) = fanOutCalls xs ++ fanOutCalls ys := by
  induction xs with
  | nil => rfl
  | cons e es ih => cases e <;> simp [fanOutCalls, ih]

theorem fanOutCalls_of_no_call {evs : List Event}
    (h : ∀ e ∈ evs, ∀ a m n, e ≠ Event.call_fanOut a m n) : fanOutCalls evs = [] := by
  induction evs with
  | nil => rfl
  | cons e es ih =>
    have he := h e (List.mem_cons_self _ _)
    have hes := ih (fun x hx => h x (List.mem_cons_of_mem _ hx))
    cases e <;> simp_all [fanOutCalls]

theorem no_call_of_isProbe {e : Event} (h : e.isProbe = true) (a : sockaddr_in)
    (m : List Nat) (n : Nat) : e ≠ Event.call_fanOut a m n := by
  rintro rfl
  simp [Event.isProbe, Event.isFactory] at h

theorem no_call_of_isSendLog {e : Event} (h : e.isSendLog = true) (a : sockaddr_in)
    (m : List Nat) (n : Nat) : e ≠ Event.call_fanOut a m n := by
  rintro rfl
  simp [Event.isSendLog] at h

theorem no_call_of_isSetup {e : Event} (h : e.isSetup = true) (a : sockaddr_in)
    (m : List Nat) (n : Nat) : e ≠ Event.call_fanOut a m n := by
  rintro rfl
  simp [Event.isSetup, Event.isLocalTest] at h

/-- The loop of `fanOut` performs sends and writes log lines, nothing else. -/
theorem fanOutLoop_sendLog (P : Platform) (pFrom : sockaddr_in) (pMsg : List Nat)
    (msgSize : Nat) (l : List one_client) :
    ∀ (acc : List one_client) (verify : Bool) (w : World),
      Ext Event.isSendLog w (fanOutLoop P pFrom pMsg msgSize l acc verify w).2.2 := by
  induction l with
  | nil => intro acc verify w; exact Ext.refl _ w
  | cons c cs ih =>
    intro acc verify w
    rw [fanOutLoop_cons]
    split_ifs
    · exact ((Ext.refl _ w).setClients cs).trans (ih _ _ _)
    · exact (((Ext.refl _ w).setClients cs).call (Event.send c.sock pMsg msgSize w.next)
        rfl).trans (ih _ _ _)
    · exact ((((Ext.refl _ w).setClients cs).call (Event.send c.sock pMsg msgSize w.next)
        rfl).emit Event.errlogPrintf rfl).trans (ih _ _ _)
    · exact (((Ext.refl _ w).setClients cs).call (Event.send c.sock pMsg msgSize w.next)
        rfl).trans (ih _ _ _)

/-- The function `fanOut` from its loop: the state `fanOutBody` after the loop, followed by
the prober when a send of the loop was refused. -/
theorem fanOut_eq (P : Platform) (pFrom : sockaddr_in) (pMsg : List Nat) (msgSize : Nat)
    (w : World) :
    fanOut P pFrom pMsg msgSize w =
      if (emitted (w.emit (Event.call_fanOut pFrom pMsg msgSize))
          (fanOutLoop P pFrom pMsg msgSize w.client_list [] false
            (w.emit (Event.call_fanOut pFrom pMsg msgSize))).2.2).any (Event.isRefused P) = true
      then verifyClients P ((fanOutLoop P pFrom pMsg msgSize w.client_list [] false
        (w.emit (Event.call_fanOut pFrom pMsg msgSize))).2.2.setClients w.client_list)
      else (fanOutLoop P pFrom pMsg msgSize w.client_list [] false
        (w.emit (Event.call_fanOut pFrom pMsg msgSize))).2.2.setClients w.client_list := by
  obtain ⟨g1, g2, _, _, _, _, _, g8⟩ := fanOutLoop_spec P pFrom pMsg msgSize
    w.client_list [] false (w.emit (Event.call_fanOut pFrom pMsg msgSize)) rfl
  rw [Bool.false_or] at g8
  rw [← g8]
  simp only [fanOut, emit_client_list, g1, g2, World.setClients, List.nil_append]

/-- The first action of the prober is its marker. -/
theorem verifyClients_marker (P : Platform) (w : World) :
    ∃ rest, emitted w (verifyClients P w) = Event.call_verifyClients :: rest := by
  have g6 := (verifyClientsLoop_spec P w.client_list [] (w.emit Event.call_verifyClients)
    rfl).2.2.2.2.2
  exact ⟨_, emitted_step (w := w) [Event.call_verifyClients] rfl ⟨g6.os, g6.trace⟩⟩

/-- The one call of `fanOut` among the actions of `fanOut` is the call itself. -/
theorem fanOut_calls (P : Platform) (pFrom : sockaddr_in) (pMsg : List Nat) (msgSize : Nat)
    (w : World) :
    fanOutCalls (emitted w (fanOut P pFrom pMsg msgSize w)) = [(pFrom, pMsg, msgSize)] := by
  have sl := (fanOutLoop_sendLog P pFrom pMsg msgSize w.client_list [] false
    (w.emit (Event.call_fanOut pFrom pMsg msgSize))).setClients w.client_list
  have hloop := fanOutCalls_of_no_call (fun e he => no_call_of_isSendLog (sl.emitted_all e he))
  rw [fanOut_eq]
  split_ifs
  · obtain ⟨_, _, _, _, v5⟩ := verifyClients_spec P ((fanOutLoop P pFrom pMsg msgSize
      w.client_list [] false (w.emit (Event.call_fanOut pFrom pMsg msgSize))).2.2.setClients
      w.client_list)
    have hv := fanOutCalls_of_no_call (fun e he => no_call_of_isProbe (v5.emitted_all e he))
    have slT := sl.mono (R := fun _ => true) (fun _ _ => rfl)
    have vT := v5.mono (R := fun _ => true) (fun _ _ => rfl)
    rw [emitted_step (w := w) [Event.call_fanOut pFrom pMsg msgSize] rfl (slT.trans vT),
      emitted_trans slT vT, fanOutCalls_append, fanOutCalls_append, hloop, hv]
    rfl
  · rw [emitted_step (w := w) [Event.call_fanOut pFrom pMsg msgSize] rfl sl,
      fanOutCalls_append, hloop]
    rfl

theorem sendNoop_eq (P : Platform) (pFrom : sockaddr_in) (newClient : Bool) (w : World) :
    sendNoop P pFrom newClient w =
      if newClient = true then verifyClients P (fanOut P pFrom noopHdr.bytes sizeof_caHdr w)
      else fanOut P pFrom noopHdr.bytes sizeof_caHdr w := rfl

/-- The four ways through the confirmation: the `assert` fails and the thread stops, or the
end of the registrar runs from a state `w3` reached by a send that succeeded, by a refused
send and the removal of the record, or by a send that failed otherwise and a log line. -/
theorem confirmClient_cases (P : Platform) (pFrom : sockaddr_in) (idx : Nat) (c : one_client)
    (newClient : Bool) (w : World) :
    (0 ≤ w.next.ret ∧ w.next.ret ≠ sizeof_caHdr ∧
      (confirmClient P pFrom idx c newClient w).halted = true ∧
      emitted w (confirmClient P pFrom idx c newClient w) =
        [Event.send c.sock (confirmHdr P pFrom).bytes sizeof_caHdr w.next,
          Event.assertFailed] ∧
      (confirmClient P pFrom idx c newClient w).client_list = w.client_list) ∨
    ∃ mid w3, confirmClient P pFrom idx c newClient w = sendNoop P pFrom newClient w3 ∧
      emitted w w3 = Event.send c.sock (confirmHdr P pFrom).bytes sizeof_caHdr w.next :: mid ∧
      Ext Event.isConfirm w w3 ∧ w3.halted = w.halted ∧
      ((w.next.ret = sizeof_caHdr ∧ mid = [] ∧ w3.client_list = w.client_list) ∨
        (w.next.ret < 0 ∧ w.next.errno = P.SOCK_ECONNREFUSED ∧
          mid = [Event.socket_close c.sock, Event.free] ∧
          w3.client_list = w.client_list.eraseIdx idx) ∨
        (w.next.ret < 0 ∧ w.next.errno ≠ P.SOCK_ECONNREFUSED ∧
          mid = [Event.errlogPrintf] ∧ w3.client_list = w.client_list)) := by
  have e0 : Ext Event.isConfirm w
      (w.tick.emit (Event.send c.sock (confirmHdr P pFrom).bytes sizeof_caHdr w.next)) :=
    (Ext.refl _ w).call _ rfl
  unfold confirmClient
  simp only []
  split_ifs with h0 h16 hr
  · exact Or.inr ⟨[], _, rfl, emitted_of_trace rfl, e0, rfl, Or.inl ⟨h16, rfl, rfl⟩⟩
  · exact Or.inl ⟨h0, h16, rfl, emitted_of_trace (by simp), rfl⟩
  · exact Or.inr ⟨_, _, rfl, emitted_of_trace (by simp),
      ((e0.setClients _).emit (Event.socket_close c.sock) rfl).emit Event.free rfl, rfl,
      Or.inr (Or.inl ⟨not_le.1 h0, hr, rfl, rfl⟩)⟩
  · exact Or.inr ⟨_, _, rfl, emitted_of_trace (by simp), e0.emit Event.errlogPrintf rfl, rfl,
      Or.inr (Or.inr ⟨not_le.1 h0, hr, rfl, rfl⟩)⟩

/-- The one call of `fanOut` at the end of the registrar carries the header `noop` and the
source address. -/
theorem sendNoop_calls (P : Platform) (pFrom : sockaddr_in) (newClient : Bool) (w : World) :
    fanOutCalls (emitted w (sendNoop P pFrom newClient w)) =
      [(pFrom, noopHdr.bytes, sizeof_caHdr)] := by
  have fc := fanOut_calls P pFrom noopHdr.bytes sizeof_caHdr w
  rw [sendNoop_eq]
  split_ifs
  · obtain ⟨f1, _⟩ := fanOut_spec P pFrom noopHdr.bytes sizeof_caHdr w
    obtain ⟨_, _, _, _, v5⟩ := verifyClients_spec P (fanOut P pFrom noopHdr.bytes sizeof_caHdr w)
    rw [emitted_trans f1 v5, fanOutCalls_append, fc,
      fanOutCalls_of_no_call (fun e he => no_call_of_isProbe (v5.emitted_all e he))]
    rfl
  · exact fc

/-- A registration that passes the test that the client is local and obtains a record: the
`assert` on the confirmation fails, or the end of the registrar runs from a state `w3` that
the confirmation has reached. -/
theorem register_new_client_cases (P : Platform) (pFrom : sockaddr_in) (w : World)
    {idx : Nat} {c : one_client} {newClient : Bool}
    (hfam : pFrom.sin_family = P.AF_INET) (hloc : (localTest P pFrom w).1 = true)
    (hrec : (obtainClient P pFrom (localTest P pFrom w).2).1 = some (idx, c, newClient)) :
    (0 ≤ (obtainClient P pFrom (localTest P pFrom w).2).2.next.ret ∧
      (obtainClient P pFrom (localTest P pFrom w).2).2.next.ret ≠ sizeof_caHdr ∧
      (register_new_client P pFrom w).halted = true ∧
      emitted w (register_new_client P pFrom w) =
        emitted w (obtainClient P pFrom (localTest P pFrom w).2).2 ++
          [Event.send c.sock (confirmHdr P pFrom).bytes sizeof_caHdr
            (obtainClient P pFrom (localTest P pFrom w).2).2.next, Event.assertFailed] ∧
      (register_new_client P pFrom w).client_list =
        (obtainClient P pFrom (localTest P pFrom w).2).2.client_list) ∨
    ∃ mid w3, register_new_client P pFrom w = sendNoop P pFrom newClient w3 ∧
      emitted w (register_new_client P pFrom w) =
        emitted w (obtainClient P pFrom (localTest P pFrom w).2).2 ++
          (Event.send c.sock (confirmHdr P pFrom).bytes sizeof_caHdr
            (obtainClient P pFrom (localTest P pFrom w).2).2.next :: mid) ++
          emitted w3 (sendNoop P pFrom newClient w3) ∧
      w3.halted = w.halted ∧
      (((obtainClient P pFrom (localTest P pFrom w).2).2.next.ret = sizeof_caHdr ∧ mid = [] ∧
          w3.client_list = (obtainClient P pFrom (localTest P pFrom w).2).2.client_list) ∨
        ((obtainClient P pFrom (localTest P pFrom w).2).2.next.ret < 0 ∧
          (obtainClient P pFrom (localTest P pFrom w).2).2.next.errno = P.SOCK_ECONNREFUSED ∧
          mid = [Event.socket_close c.sock, Event.free] ∧
          w3.client_list =
            (obtainClient P pFrom (localTest P pFrom w).2).2.client_list.eraseIdx idx) ∨
        ((obtainClient P pFrom (localTest P pFrom w).2).2.next.ret < 0 ∧
          (obtainClient P pFrom (localTest P pFrom w).2).2.next.errno ≠ P.SOCK_ECONNREFUSED ∧
          mid = [Event.errlogPrintf] ∧
          w3.client_list = (obtainClient P pFrom (localTest P pFrom w).2).2.client_list)) := by
  obtain ⟨hreg, hext⟩ := register_new_client_success P pFrom w hfam hloc hrec
  have hh : (obtainClient P pFrom (localTest P pFrom w).2).2.halted = w.halted :=
    (obtainClient_spec P pFrom _).2.1.trans (localTest_spec P pFrom w).2.1
  rw [hreg]
  rcases confirmClient_cases P pFrom idx c newClient
    (obtainClient P pFrom (localTest P pFrom w).2).2 with
    ⟨h0, h16, hhalt, hem, hcl⟩ | ⟨mid, w3, heq, hem, he3, hh3, hcase⟩
  · left
    have k1 := (confirmClient_spec P pFrom idx c newClient
      (obtainClient P pFrom (localTest P pFrom w).2).2).1
    exact ⟨h0, h16, hhalt, by rw [emitted_trans hext k1, hem], hcl⟩
  · right
    refine ⟨mid, w3, heq, ?_, hh3.trans hh, hcase⟩
    have n1 := (sendNoop_spec P pFrom newClient w3).1
    rw [heq, emitted_trans hext (he3.trans (n1.mono (fun _ => isConfirm_of_isFan))),
      emitted_trans he3 n1, hem, List.append_assoc]

/-- For the port `PORT_ANY` the factory makes one call, `socket`, and binds nothing. -/
theorem makeSocket_any (P : Platform) (reuseAddr : Bool) (w : World) :
    makeSocket P PORT_ANY reuseAddr w =
      (if w.next.ret = P.INVALID_SOCKET then ⟨w.next.ret, w.next.errno⟩ else ⟨w.next.ret, 0⟩,
        w.tick.emit (Event.socket w.next)) := by
  unfold makeSocket
  simp only [ne_eq, not_true_eq_false, if_false]
  split_ifs <;> rfl

/-- The creation of a client, from the results of `calloc`, `socket` and `connect`. -/
theorem createClient_eq (P : Platform) (pFrom : sockaddr_in) (w : World) :
    createClient P pFrom w =
      if w.next.ret = 0 then
        (none, (w.tick.emit (Event.calloc w.next)).emit Event.errlogPrintf)
      else if w.tick.next.ret = P.INVALID_SOCKET then
        (none, ((((w.tick.emit (Event.calloc w.next)).tick.emit
          (Event.socket w.tick.next)).emit Event.free).emit Event.errlogPrintf))
      else if w.tick.tick.next.ret < 0 then
        (none, ((((((w.tick.emit (Event.calloc w.next)).tick.emit
          (Event.socket w.tick.next)).tick.emit
          (Event.connect w.tick.next.ret pFrom w.tick.tick.next)).emit
          Event.errlogPrintf).emit (Event.socket_close w.tick.next.ret)).emit Event.free))
      else
        (some (w.client_list.length, ⟨pFrom, w.tick.next.ret⟩),
          (((w.tick.emit (Event.calloc w.next)).tick.emit
            (Event.socket w.tick.next)).tick.emit
            (Event.connect w.tick.next.ret pFrom w.tick.tick.next)).setClients
            (w.client_list ++ [⟨pFrom, w.tick.next.ret⟩])) := by
  have h1 : (w.tick.emit (Event.calloc w.next)).next = w.tick.next := rfl
  have h2 : ((w.tick.emit (Event.calloc w.next)).tick.emit (Event.socket w.tick.next)).next =
      w.tick.tick.next := rfl
  unfold createClient
  simp only [makeSocket_any, h1, h2]
  split_ifs <;> rfl

/-- With distinct ports, the record at a position is the only one with its port. -/
theorem port_eraseIdx (l : List one_client) :
    ∀ (idx : Nat) (c : one_client), (l.map (fun c => c.from_.sin_port)).Nodup →
      l[idx]? = some c → ∀ d ∈ l.eraseIdx idx, d.from_.sin_port ≠ c.from_.sin_port := by
  induction l with
  | nil => intro idx c _ h; simp at h
  | cons a l ih =>
    intro idx c hn h d hd
    have hpa := port_not_mem_of_nodup hn
    cases idx with
    | zero =>
      simp only [List.getElem?_cons_zero, Option.some.injEq] at h
      subst h
      exact hpa d (by simpa using hd)
    | succ k =>
      simp only [List.getElem?_cons_succ] at h
      simp only [List.eraseIdx_cons_succ, List.mem_cons] at hd
      rcases hd with rfl | hd
      · have hc : c ∈ l := List.getElem?_mem h
        exact fun heq => hpa c hc heq.symm
      · rw [List.map_cons, List.nodup_cons] at hn
        exact ih k c hn.2 h d hd

/-- The ports of the client list stay distinct through the lookup or creation of a client. -/
theorem obtainClient_nodup (P : Platform) (pFrom : sockaddr_in) (w : World)
    (hn : (w.client_list.map (fun c => c.from_.sin_port)).Nodup) :
    ((obtainClient P pFrom w).2.client_list.map (fun c => c.from_.sin_port)).Nodup := by
  obtain ⟨_, _, o3, o4⟩ := obtainClient_spec P pFrom w
  cases hrec : (obtainClient P pFrom w).1 with
  | none => rw [o3 hrec]; exact hn
  | some q =>
    obtain ⟨idx, c, newClient⟩ := q
    obtain ⟨_, _, q3, q4⟩ := o4 idx c newClient hrec
    cases newClient with
    | false => rw [(q3 rfl).1]; exact hn
    | true =>
      obtain ⟨r1, _, r3, r4, _⟩ := q4 rfl
      rw [r3, List.map_append, List.nodup_append]
      refine ⟨hn, by simp, ?_⟩
      have hne := findClient_none r4
      intro p hp1 hp2
      simp only [List.map_cons, List.map_nil, List.mem_singleton] at hp2
      obtain ⟨d, hd, hdp⟩ := List.mem_map.1 hp1
      apply hne d hd
      rw [hdp, hp2, r1]

theorem proberCalls_append (xs ys : List Event) :
    proberCalls (xs ++ ys) = proberCalls xs + proberCalls ys := by
  induction xs with
  | nil => simp [proberCalls]
  | cons e es ih =>
    cases e <;> simp [proberCalls, ih]
    omega

theorem proberCalls_of_none {evs : List Event} (h : ∀ e ∈ evs, e ≠ Event.call_verifyClients) :
    proberCalls evs = 0 := by
  induction evs with
  | nil => rfl
  | cons e es ih =>
    have he := h e (List.mem_cons_self _ _)
    have hes := ih (fun x hx => h x (List.mem_cons_of_mem _ hx))
    cases e <;> simp_all [proberCalls]

theorem any_isRefused_of_none (P : Platform) {evs : List Event}
    (h : ∀ e ∈ evs, e.isSend = false) : evs.any (Event.isRefused P) = false := by
  rw [List.any_eq_false]
  intro e he
  have := h e he
  cases e <;> simp_all [Event.isRefused, Event.isSend]

theorem not_isSend_of_isProbe {e : Event} (h : e.isProbe = true) : e.isSend = false := by
  cases e <;> simp_all [Event.isProbe, Event.isFactory, Event.isSend]

theorem not_marker_of_isProbeLoop {e : Event} (h : e.isProbeLoop = true) :
    e ≠ Event.call_verifyClients := by
  rintro rfl
  simp [Event.isProbeLoop, Event.isFactory] at h

theorem not_marker_of_isSendLog {e : Event} (h : e.isSendLog = true) :
    e ≠ Event.call_verifyClients := by
  rintro rfl
  simp [Event.isSendLog] at h

theorem not_marker_of_isSetup {e : Event} (h : e.isSetup = true) :
    e ≠ Event.call_verifyClients := by
  rintro rfl
  simp [Event.isSetup, Event.isLocalTest] at h

theorem isProbeLoop_of_isFactory {e : Event} (h : e.isFactory = true) :
    e.isProbeLoop = true := by
  cases e <;> simp_all [Event.isProbeLoop, Event.isFactory]

/-- The loop of the prober performs the actions of the socket factory and `free`, nothing
else. -/
theorem verifyClientsLoop_probeLoop (P : Platform) (l : List one_client) :
    ∀ (acc : List one_client) (w : World),
      Ext Event.isProbeLoop w (verifyClientsLoop P l acc w).2 := by
  induction l with
  | nil => intro acc w; exact Ext.refl _ w
  | cons c cs ih =>
    intro acc w
    have fe : Ext Event.isProbeLoop w (makeSocket P (ntohs c.from_.sin_port) false
        (w.setClients cs)).2 :=
      ((Ext.refl _ w).setClients cs).trans
        ((makeSocket_ext P (ntohs c.from_.sin_port) false (w.setClients cs)).mono
          (fun _ => isProbeLoop_of_isFactory))
    rw [verifyClientsLoop_cons]
    split_ifs
    · exact (((fe.emit (Event.socket_close _) rfl).emit (Event.socket_close _) rfl).emit
        Event.free rfl).trans (ih _ _)
    · exact (fe.emit Event.errlogPrintf rfl).trans (ih _ _)
    · exact fe.trans (ih _ _)

/-- The prober runs once in `verifyClients`. -/
theorem verifyClients_proberCalls (P : Platform) (w : World) :
    proberCalls (emitted w (verifyClients P w)) = 1 := by
  have g := verifyClientsLoop_probeLoop P w.client_list [] (w.emit Event.call_verifyClients)
  have e1 : emitted w (verifyClients P w) = [Event.call_verifyClients] ++
      emitted (w.emit Event.call_verifyClients)
        (verifyClientsLoop P w.client_list [] (w.emit Event.call_verifyClients)).2 :=
    emitted_step (w := w) [Event.call_verifyClients] rfl
      (⟨g.os, g.trace⟩ : Ext Event.isProbeLoop _ (verifyClients P w))
  rw [e1, proberCalls_append,
    proberCalls_of_none (fun e he => not_marker_of_isProbeLoop (g.emitted_all e he))]
  rfl

/-- The refused sends of `fanOut` are those of its loop. -/
theorem fanOut_any_refused (P : Platform) (pFrom : sockaddr_in) (pMsg : List Nat)
    (msgSize : Nat) (w : World) :
    (emitted w (fanOut P pFrom pMsg msgSize w)).any (Event.isRefused P) =
      (emitted (w.emit (Event.call_fanOut pFrom pMsg msgSize))
        (fanOutLoop P pFrom pMsg msgSize w.client_list [] false
          (w.emit (Event.call_fanOut pFrom pMsg msgSize))).2.2).any (Event.isRefused P) := by
  have sl := (fanOutLoop_sendLog P pFrom pMsg msgSize w.client_list [] false
    (w.emit (Event.call_fanOut pFrom pMsg msgSize))).setClients w.client_list
  rw [fanOut_eq]
  split_ifs
  · obtain ⟨_, _, _, _, v5⟩ := verifyClients_spec P ((fanOutLoop P pFrom pMsg msgSize
      w.client_list [] false (w.emit (Event.call_fanOut pFrom pMsg msgSize))).2.2.setClients
      w.client_list)
    have slT := sl.mono (R := fun _ => true) (fun _ _ => rfl)
    have vT := v5.mono (R := fun _ => true) (fun _ _ => rfl)
    rw [emitted_step (w := w) [Event.call_fanOut pFrom pMsg msgSize] rfl (slT.trans vT),
      emitted_trans slT vT, List.any_append, List.any_append,
      any_isRefused_of_none P (fun e he => not_isSend_of_isProbe (v5.emitted_all e he))]
    simp [Event.isRefused]
    rfl
  · rw [emitted_step (w := w) [Event.call_fanOut pFrom pMsg msgSize] rfl sl, List.any_append]
    simp [Event.isRefused]
    rfl

/-- The prober runs in `fanOut` once when a send was refused, and not otherwise. -/
theorem fanOut_proberCalls (P : Platform) (pFrom : sockaddr_in) (pMsg : List Nat)
    (msgSize : Nat) (w : World) :
    proberCalls (emitted w (fanOut P pFrom pMsg msgSize w)) =
      if (emitted w (fanOut P pFrom pMsg msgSize w)).any (Event.isRefused P) = true then 1
      else 0 := by
  have sl := (fanOutLoop_sendLog P pFrom pMsg msgSize w.client_list [] false
    (w.emit (Event.call_fanOut pFrom pMsg msgSize))).setClients w.client_list
  have hloop := proberCalls_of_none (fun e he => not_marker_of_isSendLog (sl.emitted_all e he))
  rw [fanOut_any_refused, fanOut_eq]
  split_ifs
  · obtain ⟨_, _, _, _, v5⟩ := verifyClients_spec P ((fanOutLoop P pFrom pMsg msgSize
      w.client_list [] false (w.emit (Event.call_fanOut pFrom pMsg msgSize))).2.2.setClients
      w.client_list)
    have slT := sl.mono (R := fun _ => true) (fun _ _ => rfl)
    have vT := v5.mono (R := fun _ => true) (fun _ _ => rfl)
    rw [emitted_step (w := w) [Event.call_fanOut pFrom pMsg msgSize] rfl (slT.trans vT),
      emitted_trans slT vT, proberCalls_append, proberCalls_append, hloop,
      verifyClients_proberCalls]
    rfl
  · rw [emitted_step (w := w) [Event.call_fanOut pFrom pMsg msgSize] rfl sl,
      proberCalls_append, hloop]
    rfl

/-- Without a refused send `fanOut` binds nothing and keeps the client list. -/
theorem fanOut_quiet (P : Platform) (pFrom : sockaddr_in) (pMsg : List Nat) (msgSize : Nat)
    (w : World)
    (h : (emitted w (fanOut P pFrom pMsg msgSize w)).any (Event.isRefused P) = false) :
    (∀ s a r, Event.bind s a r ∉ emitted w (fanOut P pFrom pMsg msgSize w)) ∧
    (fanOut P pFrom pMsg msgSize w).client_list = w.client_list := by
  have sl := (fanOutLoop_sendLog P pFrom pMsg msgSize w.client_list [] false
    (w.emit (Event.call_fanOut pFrom pMsg msgSize))).setClients w.client_list
  have h2 := h
  rw [fanOut_any_refused] at h2
  rw [fanOut_eq, if_neg (by simp [h2])]
  refine ⟨?_, rfl⟩
  intro s a r hmem
  rw [emitted_step (w := w) [Event.call_fanOut pFrom pMsg msgSize] rfl sl] at hmem
  rcases List.mem_append.1 hmem with hm | hm
  · simp at hm
  · have := sl.emitted_all _ hm
    simp [Event.isSendLog] at this

/-- The runs of the prober at the end of the registrar: one in the fan-out when a send was
refused, and one more for a new client. -/
theorem sendNoop_prober (P : Platform) (pFrom : sockaddr_in) (newClient : Bool) (w : World) :
    proberCalls (emitted w (sendNoop P pFrom newClient w)) =
      (if (emitted w (sendNoop P pFrom newClient w)).any (Event.isRefused P) = true then 1
        else 0) + (if newClient = true then 1 else 0) ∧
    (newClient = false →
      (emitted w (sendNoop P pFrom newClient w)).any (Event.isRefused P) = false →
      (∀ s a r, Event.bind s a r ∉ emitted w (sendNoop P pFrom newClient w)) ∧
      (sendNoop P pFrom newClient w).client_list = w.client_list) := by
  have fp := fanOut_proberCalls P pFrom noopHdr.bytes sizeof_caHdr w
  cases newClient with
  | true =>
    have e : sendNoop P pFrom true w =
        verifyClients P (fanOut P pFrom noopHdr.bytes sizeof_caHdr w) := rfl
    obtain ⟨f1, _⟩ := fanOut_spec P pFrom noopHdr.bytes sizeof_caHdr w
    obtain ⟨_, _, _, _, v5⟩ := verifyClients_spec P (fanOut P pFrom noopHdr.bytes sizeof_caHdr w)
    refine ⟨?_, fun h => by simp at h⟩
    rw [e, emitted_trans f1 v5, proberCalls_append, verifyClients_proberCalls, List.any_append,
      any_isRefused_of_none P (fun e he => not_isSend_of_isProbe (v5.emitted_all e he)),
      Bool.or_false, fp]
    rfl
  | false =>
    have e : sendNoop P pFrom false w = fanOut P pFrom noopHdr.bytes sizeof_caHdr w := rfl
    rw [e]
    exact ⟨by rw [fp]; rfl, fun _ h => fanOut_quiet P pFrom noopHdr.bytes sizeof_caHdr w h⟩

theorem probeState_append (P : Platform) (l1 l2 : List one_client) :
    ∀ w : World, probeState P (l1 ++ l2) w = probeState P l2 (probeState P l1 w) := by
  induction l1 with
  | nil => intro w; rfl
  | cons c cs ih => intro w; exact ih _

theorem survivors_append (P : Platform) (l1 l2 : List one_client) :
    ∀ w : World, survivors P (l1 ++ l2) w =
      survivors P l1 w ++ survivors P l2 (probeState P l1 w) := by
  induction l1 with
  | nil => intro w; simp [survivors_nil, probeState]
  | cons c cs ih =>
    intro w
    rw [List.cons_append, survivors_cons, survivors_cons, probeState, ih]
    split_ifs <;> simp

/-- One pass of the loop of the prober: the probe of the head, then actions that allocate no
socket, then the loop over the tail. -/
theorem verifyClientsLoop_step (P : Platform) (c : one_client) (cs acc : List one_client)
    (w : World) :
    ∃ es acc2 w2, verifyClientsLoop P (c :: cs) acc w = verifyClientsLoop P cs acc2 w2 ∧
      w2.client_list = cs ∧
      SameOs w2 (makeSocket P (ntohs c.from_.sin_port) false w).2 ∧
      (∀ e ∈ es, ∀ sr, e ≠ Event.socket sr) ∧
      emitted w (verifyClientsLoop P (c :: cs) acc w).2 =
        emitted w (makeSocket P (ntohs c.from_.sin_port) false w).2 ++ es ++
          emitted w2 (verifyClientsLoop P cs acc2 w2).2 := by
  have hso : SameOs (w.setClients cs) w := ⟨rfl, rfl⟩
  have hm := makeSocket_sameOs P (ntohs c.from_.sin_port) false hso
  obtain ⟨f1, -, -, -⟩ := makeSocket_statics P (ntohs c.from_.sin_port) false
    (w.setClients cs)
  have fe := makeSocket_ext P (ntohs c.from_.sin_port) false (w.setClients cs)
  have hem : emitted w (makeSocket P (ntohs c.from_.sin_port) false w).2 =
      emitted w (makeSocket P (ntohs c.from_.sin_port) false (w.setClients cs)).2 := by
    have h2 : emitted w (makeSocket P (ntohs c.from_.sin_port) false (w.setClients cs)).2 =
        emitted (w.setClients cs)
          (makeSocket P (ntohs c.from_.sin_port) false (w.setClients cs)).2 := rfl
    rw [h2, makeSocket_emitted, makeSocket_emitted]
    rfl
  have key : ∀ (es : List Event) (acc2 : List one_client) (w2 : World),
      w2.trace = (makeSocket P (ntohs c.from_.sin_port) false (w.setClients cs)).2.trace ++ es →
      w2.client_list = cs →
      emitted w (verifyClientsLoop P cs acc2 w2).2 =
        emitted w (makeSocket P (ntohs c.from_.sin_port) false w).2 ++ es ++
          emitted w2 (verifyClientsLoop P cs acc2 w2).2 := by
    intro es acc2 w2 ht hcl
    have g6 := (verifyClientsLoop_spec P cs acc2 w2 hcl).2.2.2.2.2
    rw [hem]
    exact emitted_append3 (w := w) es ⟨_, fe.trace_eq⟩ ht ⟨_, g6.trace_eq⟩
  rw [verifyClientsLoop_cons]
  split_ifs with hs he
  · exact ⟨[Event.socket_close (makeSocket P (ntohs c.from_.sin_port) false
      (w.setClients cs)).1.sock, Event.socket_close c.sock, Event.free], _, _, rfl,
      by simpa using f1, ⟨by simpa using hm.2.1, by simpa using hm.2.2⟩, by simp,
      key _ _ _ (by simp) (by simpa using f1)⟩
  · exact ⟨[Event.errlogPrintf], _, _, rfl, by simpa using f1,
      ⟨by simpa using hm.2.1, by simpa using hm.2.2⟩, by simp,
      key _ _ _ (by simp) (by simpa using f1)⟩
  · exact ⟨[], _, _, rfl, f1, hm.2, by simp, key _ _ _ (by simp) f1⟩

theorem makeSocket_socket_mem (P : Platform) (port : Nat) (reuseAddr : Bool) (w : World) :
    Event.socket w.next ∈ emitted w (makeSocket P port reuseAddr w).2 := by
  rw [makeSocket_emitted]
  split_ifs <;> simp

/-- When every `socket` of the loop of the prober succeeds, no record with port 0 survives. -/
theorem verifyClientsLoop_port0 (P : Platform) (l : List one_client) :
    ∀ (acc : List one_client) (w : World),
      (∀ sr, Event.socket sr ∈ emitted w (verifyClientsLoop P l acc w).2 →
        sr.ret ≠ P.INVALID_SOCKET) →
      ∀ d ∈ survivors P l w, d.from_.sin_port ≠ 0 := by
  induction l with
  | nil => intro acc w _ d hd; simp [survivors_nil] at hd
  | cons c cs ih =>
    intro acc w h d hd
    obtain ⟨es, acc2, w2, heq, _, hsame, _, hem⟩ := verifyClientsLoop_step P c cs acc w
    rw [hem] at h
    have hhead : w.next.ret ≠ P.INVALID_SOCKET :=
      h _ (List.mem_append_left _ (List.mem_append_left _ (makeSocket_socket_mem P _ false w)))
    have hrest : ∀ d ∈ survivors P cs (makeSocket P (ntohs c.from_.sin_port) false w).2,
        d.from_.sin_port ≠ 0 := by
      rw [← survivors_sameOs P cs hsame]
      exact ih acc2 w2 (fun sr hsr => h sr (List.mem_append_right _ hsr))
    rw [survivors_cons] at hd
    split_ifs at hd with hs
    · exact hrest d hd
    · rcases List.mem_cons.1 hd with rfl | hd
      · intro hp
        apply hs
        have hv := makeSocket_value P (ntohs d.from_.sin_port) false w
        rw [if_neg hhead, if_neg (by simp [ntohs, PORT_ANY, hp])] at hv
        rw [hv]
        exact hhead
      · exact hrest d hd

/-- When every `socket` of the prober succeeds, no record with port 0 is left. -/
theorem verifyClients_port0 (P : Platform) (w : World)
    (h : ∀ sr, Event.socket sr ∈ emitted w (verifyClients P w) → sr.ret ≠ P.INVALID_SOCKET) :
    ∀ d ∈ (verifyClients P w).client_list, d.from_.sin_port ≠ 0 := by
  have g := verifyClientsLoop_probeLoop P w.client_list [] (w.emit Event.call_verifyClients)
  have e1 : emitted w (verifyClients P w) = [Event.call_verifyClients] ++
      emitted (w.emit Event.call_verifyClients)
        (verifyClientsLoop P w.client_list [] (w.emit Event.call_verifyClients)).2 :=
    emitted_step (w := w) [Event.call_verifyClients] rfl
      (⟨g.os, g.trace⟩ : Ext Event.isProbeLoop _ (verifyClients P w))
  rw [(verifyClients_spec P w).1,
    ← survivors_sameOs P w.client_list (⟨rfl, rfl⟩ : SameOs (w.emit Event.call_verifyClients) w)]
  apply verifyClientsLoop_port0 P w.client_list []
  intro sr hsr
  exact h sr (by rw [e1]; exact List.mem_append_right _ hsr)

/-- When every `socket` of the loop of the prober succeeds, a record every bind to whose port
succeeds does not survive, and such a bind is made when its port is not `PORT_ANY`. -/
theorem verifyClientsLoop_reaps (P : Platform) (l : List one_client) :
    ∀ (acc : List one_client) (w : World),
      (∀ sr, Event.socket sr ∈ emitted w (verifyClientsLoop P l acc w).2 →
        sr.ret ≠ P.INVALID_SOCKET) →
      ∀ d ∈ l,
        (∀ s r, Event.bind s ⟨P.AF_INET, htons (ntohs d.from_.sin_port), htonl P.INADDR_ANY⟩ r ∈
          emitted w (verifyClientsLoop P l acc w).2 → 0 ≤ r.ret) →
        d ∉ survivors P l w ∧
        (d.from_.sin_port ≠ PORT_ANY →
          ∃ s r, Event.bind s ⟨P.AF_INET, htons (ntohs d.from_.sin_port), htonl P.INADDR_ANY⟩ r ∈
            emitted w (verifyClientsLoop P l acc w).2 ∧ 0 ≤ r.ret) := by
  induction l with
  | nil => intro acc w _ d hd; simp at hd
  | cons c cs ih =>
    intro acc w h d hd hb
    obtain ⟨es, acc2, w2, heq, _, hsame, _, hem⟩ := verifyClientsLoop_step P c cs acc w
    rw [hem] at h hb ⊢
    have hhead : w.next.ret ≠ P.INVALID_SOCKET :=
      h _ (List.mem_append_left _ (List.mem_append_left _ (makeSocket_socket_mem P _ false w)))
    have hme := makeSocket_emitted P (ntohs c.from_.sin_port) false w
    have hv := makeSocket_value P (ntohs c.from_.sin_port) false w
    rw [if_neg hhead] at hme hv
    have htail : d ∈ cs →
        d ∉ survivors P cs (makeSocket P (ntohs c.from_.sin_port) false w).2 ∧
        (d.from_.sin_port ≠ PORT_ANY →
          ∃ s r, Event.bind s ⟨P.AF_INET, htons (ntohs d.from_.sin_port), htonl P.INADDR_ANY⟩ r ∈
            emitted w2 (verifyClientsLoop P cs acc2 w2).2 ∧ 0 ≤ r.ret) := by
      intro hdc
      have := ih acc2 w2 (fun sr hsr => h sr (List.mem_append_right _ hsr)) d hdc
        (fun s r hm => hb s r (List.mem_append_right _ hm))
      rwa [survivors_sameOs P cs hsame] at this
    have hnot : d ∉ survivors P cs (makeSocket P (ntohs c.from_.sin_port) false w).2 := by
      by_cases hdc : d ∈ cs
      · exact (htail hdc).1
      · exact fun hm => hdc ((survivors_sublist P cs _).subset hm)
    rw [survivors_cons]
    by_cases hdc : d = c
    · subst hdc
      by_cases hp : ntohs d.from_.sin_port ≠ PORT_ANY
      · rw [if_pos hp] at hme
        have hmem : Event.bind w.next.ret
            ⟨P.AF_INET, htons (ntohs d.from_.sin_port), htonl P.INADDR_ANY⟩ w.tick.next ∈
            emitted w (makeSocket P (ntohs d.from_.sin_port) false w).2 := by
          rw [hme]; split_ifs <;> simp
        have hr := hb _ _ (List.mem_append_left _ (List.mem_append_left _ hmem))
        rw [if_neg (by omega)] at hv
        refine ⟨?_, fun _ => ⟨_, _, List.mem_append_left _ (List.mem_append_left _ hmem), hr⟩⟩
        rw [if_pos (by rw [hv]; exact hhead)]
        exact hnot
      · rw [if_neg (fun hh => hp hh.1)] at hv
        refine ⟨?_, fun hh => absurd hh (by simpa [ntohs] using hp)⟩
        rw [if_pos (by rw [hv]; exact hhead)]
        exact hnot
    · have hdcs : d ∈ cs := by
        rcases List.mem_cons.1 hd with h1 | h1
        · exact absurd h1 hdc
        · exact h1
      refine ⟨?_, fun hp => ?_⟩
      · split_ifs
        · exact hnot
        · intro hm
          rcases List.mem_cons.1 hm with h1 | h1
          · exact hdc h1
          · exact hnot h1
      · obtain ⟨s, r, hm, hr⟩ := (htail hdcs).2 hp
        exact ⟨s, r, List.mem_append_right _ hm, hr⟩

/-- When every `socket` of the prober succeeds, a record every bind to whose port succeeds is
not in the client list afterwards, and such a bind is made when its port is not `PORT_ANY`. -/
theorem verifyClients_reaps (P : Platform) (w : World)
    (h : ∀ sr, Event.socket sr ∈ emitted w (verifyClients P w) → sr.ret ≠ P.INVALID_SOCKET)
    (d : one_client) (hd : d ∈ w.client_list)
    (hb : ∀ s r, Event.bind s ⟨P.AF_INET, htons (ntohs d.from_.sin_port), htonl P.INADDR_ANY⟩ r ∈
      emitted w (verifyClients P w) → 0 ≤ r.ret) :
    d ∉ (verifyClients P w).client_list ∧
    (d.from_.sin_port ≠ PORT_ANY →
      ∃ s r, Event.bind s ⟨P.AF_INET, htons (ntohs d.from_.sin_port), htonl P.INADDR_ANY⟩ r ∈
        emitted w (verifyClients P w) ∧ 0 ≤ r.ret) := by
  have g := verifyClientsLoop_probeLoop P w.client_list [] (w.emit Event.call_verifyClients)
  have e1 : emitted w (verifyClients P w) = [Event.call_verifyClients] ++
      emitted (w.emit Event.call_verifyClients)
        (verifyClientsLoop P w.client_list [] (w.emit Event.call_verifyClients)).2 :=
    emitted_step (w := w) [Event.call_verifyClients] rfl
      (⟨g.os, g.trace⟩ : Ext Event.isProbeLoop _ (verifyClients P w))
  have key := verifyClientsLoop_reaps P w.client_list [] (w.emit Event.call_verifyClients)
    (fun sr hsr => h sr (by rw [e1]; exact List.mem_append_right _ hsr)) d hd
    (fun s r hm => hb s r (by rw [e1]; exact List.mem_append_right _ hm))
  rw [survivors_sameOs P w.client_list
    (⟨rfl, rfl⟩ : SameOs (w.emit Event.call_verifyClients) w)] at key
  rw [(verifyClients_spec P w).1]
  refine ⟨key.1, fun hp => ?_⟩
  obtain ⟨s, r, hm, hr⟩ := key.2 hp
  exact ⟨s, r, by rw [e1]; exact List.mem_append_right _ hm, hr⟩

/-- The bytes of the header `confirm`: the command `REPEATER_CONFIRM`, ten zero bytes and the
address of the client, the 16-bit and 32-bit fields most significant byte first. -/
theorem confirmHdr_bytes (P : Platform) (pFrom : sockaddr_in) :
    (confirmHdr P pFrom).bytes =
      be16 P.REPEATER_CONFIRM ++ [0, 0, 0, 0, 0, 0, 0, 0, 0, 0] ++ be32 pFrom.sin_addr := by
  simp [confirmHdr, caHdr.bytes, caHdr.zero, be16, be32, htons]

/-- The command that the dispatch loop reads is the 16-bit number that the first two bytes of
the buffer hold, most significant byte first. -/
theorem msgCmmd_eq_iff (buf : List Nat) (R : Nat) (hR : R < 65536)
    (hb : ∀ b ∈ buf, b < 256) (hl : 2 ≤ buf.length) :
    msgCmmd buf = R ↔ buf.take 2 = be16 R := by
  match buf, hb, hl with
  | [], _, hl => simp at hl
  | [_], _, hl => simp at hl
  | b0 :: b1 :: rest, hb, _ =>
    have h0 : b0 < 256 := hb b0 (by simp)
    have h1 : b1 < 256 := hb b1 (by simp)
    simp only [msgCmmd, ntohs, be16, List.getD_cons_zero, List.getD_cons_succ, List.take_succ_cons,
      List.take_zero, List.cons.injEq, and_true, Nat.mod_eq_of_lt h0, Nat.mod_eq_of_lt h1]
    constructor
    · intro h; constructor <;> omega
    · rintro ⟨h2, h3⟩; omega

/-- The registrar calls `fanOut` at most once, exactly when the registration passes the test
that the client is local, obtains a record and its confirmation does not fail the `assert`;
the suppression key is the source address and the message is the sixteen zero bytes of the
header `noop`. -/
theorem register_new_client_fanOutCalls (P : Platform) (pFrom : sockaddr_in) (w : World) :
    (fanOutCalls (emitted w (register_new_client P pFrom w)) = [] ∨
      fanOutCalls (emitted w (register_new_client P pFrom w)) =
        [(pFrom, List.replicate 16 0, sizeof_caHdr)]) ∧
    (fanOutCalls (emitted w (register_new_client P pFrom w)) =
        [(pFrom, List.replicate 16 0, sizeof_caHdr)] ↔
      (pFrom.sin_family = P.AF_INET ∧ (localTest P pFrom w).1 = true ∧
        ∃ idx c newClient,
          (obtainClient P pFrom (localTest P pFrom w).2).1 = some (idx, c, newClient) ∧
          ((obtainClient P pFrom (localTest P pFrom w).2).2.next.ret < 0 ∨
            (obtainClient P pFrom (localTest P pFrom w).2).2.next.ret = sizeof_caHdr))) := by
  have hl3 := (localTest_spec P pFrom w).2.2.1
  have ho1 := (obtainClient_spec P pFrom (localTest P pFrom w).2).1
  have hset : Ext Event.isSetup w (obtainClient P pFrom (localTest P pFrom w).2).2 :=
    (hl3.mono (fun _ => isSetup_of_isLocalTest)).trans ho1
  have hnil : ∀ {w2 : World}, Ext Event.isSetup w w2 → fanOutCalls (emitted w w2) = [] :=
    fun h => fanOutCalls_of_no_call (fun e he => no_call_of_isSetup (h.emitted_all e he))
  have hbytes : noopHdr.bytes = List.replicate 16 0 := by decide
  have key : (fanOutCalls (emitted w (register_new_client P pFrom w)) = [] ∧
        ¬ (pFrom.sin_family = P.AF_INET ∧ (localTest P pFrom w).1 = true ∧
        ∃ idx c newClient,
          (obtainClient P pFrom (localTest P pFrom w).2).1 = some (idx, c, newClient) ∧
          ((obtainClient P pFrom (localTest P pFrom w).2).2.next.ret < 0 ∨
            (obtainClient P pFrom (localTest P pFrom w).2).2.next.ret = sizeof_caHdr))) ∨
      (fanOutCalls (emitted w (register_new_client P pFrom w)) =
        [(pFrom, List.replicate 16 0, sizeof_caHdr)] ∧
        (pFrom.sin_family = P.AF_INET ∧ (localTest P pFrom w).1 = true ∧
        ∃ idx c newClient,
          (obtainClient P pFrom (localTest P pFrom w).2).1 = some (idx, c, newClient) ∧
          ((obtainClient P pFrom (localTest P pFrom w).2).2.next.ret < 0 ∨
            (obtainClient P pFrom (localTest P pFrom w).2).2.next.ret = sizeof_caHdr))) := by
    by_cases hf : pFrom.sin_family = P.AF_INET
    swap
    · left
      rw [register_new_client_eq, if_pos hf]
      exact ⟨by simp [emitted_self, fanOutCalls], fun h => hf h.1⟩
    by_cases hl : (localTest P pFrom w).1 = true
    swap
    · left
      rw [register_new_client_eq, if_neg (not_not.2 hf), if_pos (by simpa using hl)]
      exact ⟨hnil (hl3.mono (fun _ => isSetup_of_isLocalTest)), fun h => hl h.2.1⟩
    cases hrec : (obtainClient P pFrom (localTest P pFrom w).2).1 with
    | none =>
      left
      rw [register_new_client_eq, if_neg (not_not.2 hf), if_neg (by simp [hl]), hrec]
      exact ⟨hnil hset, by simp⟩
    | some q =>
      obtain ⟨idx, c, newClient⟩ := q
      rcases register_new_client_cases P pFrom w hf hl hrec with
        ⟨h0, h16, _, hem, _⟩ | ⟨mid, w3, _, hem, _, hcase⟩
      · left
        refine ⟨?_, ?_⟩
        · rw [hem, fanOutCalls_append, hnil hset]
          rfl
        · rintro ⟨_, _, i2, c2, n2, _, hr⟩
          rcases hr with hr | hr
          · omega
          · exact h16 hr
      · right
        refine ⟨?_, hf, hl, idx, c, newClient, rfl, ?_⟩
        · rw [hem, fanOutCalls_append, fanOutCalls_append, hnil hset, sendNoop_calls, hbytes]
          rcases hcase with ⟨_, rfl, _⟩ | ⟨_, _, rfl, _⟩ | ⟨_, _, rfl, _⟩ <;> rfl
        · rcases hcase with ⟨h, _⟩ | ⟨h, _⟩ | ⟨h, _⟩
          · exact Or.inr h
          · exact Or.inl h
          · exact Or.inl h
  refine ⟨?_, ?_⟩
  · rcases key with ⟨h, _⟩ | ⟨h, _⟩
    · exact Or.inl h
    · exact Or.inr h
  · rcases key with ⟨h, hn⟩ | ⟨h, hc⟩
    · rw [h]
      exact ⟨fun hh => by simp at hh, fun hh => absurd hh hn⟩
    · exact ⟨fun _ => hc, fun _ => h⟩

end basics

/-! ## The client table -/

/-- C1, uniqueness: whatever datagrams `ca_repeater` dispatches after it has emptied the
client list, and whatever the operating system answers to its calls, no two records of the
client list have the same source port. -/
theorem ca_repeater_ports_unique (P : Platform) (port : Nat) (ds : List Datagram) (w : World) :
    ((ca_repeater P port ds w).client_list.map (fun c => c.from_.sin_port)).Nodup := by
  obtain ⟨f1, _, _, _⟩ := makeSocket_statics P port true (w.setClients [])
  have h0 : (((makeSocket P port true (w.setClients [])).2).client_list.map
      (fun c => c.from_.sin_port)).Nodup := by
    rw [f1]; simp
  unfold ca_repeater
  simp only []
  generalize makeSocket P port true (w.setClients []) = r at h0
  obtain ⟨msr, w1⟩ := r
  simp only at h0 ⊢
  split_ifs
  · exact h0
  · exact h0
  · exact dispatchAll_nodup P ds w1 h0

/-! ## The fan-out engine: sender suppression, delivery, frame -/

/-- C2, sender suppression: every send of `fanOut` is on the socket of a record of the client
list that is not the sender, so no send goes out on the socket of a record whose port and
address are those of the source of the datagram (a socket being owned by the records of one
client only). -/
theorem fanOut_sender_suppression (P : Platform) (pFrom : sockaddr_in) (pMsg : List Nat)
    (msgSize : Nat) (w : World) :
    (∀ sock m n r, Event.send sock m n r ∈ emitted w (fanOut P pFrom pMsg msgSize w) →
      ∃ d ∈ w.client_list, d.sock = sock ∧
        ¬ (pFrom.sin_port = d.from_.sin_port ∧ pFrom.sin_addr = d.from_.sin_addr)) ∧
    (∀ c ∈ w.client_list,
      pFrom.sin_port = c.from_.sin_port → pFrom.sin_addr = c.from_.sin_addr →
      (∀ d ∈ w.client_list, d.sock = c.sock →
        pFrom.sin_port = d.from_.sin_port ∧ pFrom.sin_addr = d.from_.sin_addr) →
      ∀ m n r, Event.send c.sock m n r ∉ emitted w (fanOut P pFrom pMsg msgSize w)) := by
  have key : ∀ sock m n r, Event.send sock m n r ∈ emitted w (fanOut P pFrom pMsg msgSize w) →
      ∃ d ∈ w.client_list, d.sock = sock ∧
        ¬ (pFrom.sin_port = d.from_.sin_port ∧ pFrom.sin_addr = d.from_.sin_addr) := by
    intro sock m n r h
    have hs := mem_sends_of_mem h
    rw [(fanOut_spec P pFrom pMsg msgSize w).2.2.2.2.1] at hs
    simp only [fanOutSends, List.mem_map, List.mem_filter] at hs
    obtain ⟨d, ⟨hd, hnd⟩, heq⟩ := hs
    refine ⟨d, hd, (Prod.mk.inj heq).1, ?_⟩
    intro hboth
    simp [isSender, hboth.1, hboth.2] at hnd
  refine ⟨key, ?_⟩
  intro c _ _ _ hown m n r hmem
  obtain ⟨d, hd, hsock, hnot⟩ := key c.sock m n r hmem
  exact hnot (hown d hd hsock)

/-- C3, delivery and order: the sends of `fanOut`, in the order in which they are made, are one
send of the message and size it was given on the socket of each record that is not the sender,
in the order of the client list, whatever the sends return. -/
theorem fanOut_delivery_order (P : Platform) (pFrom : sockaddr_in) (pMsg : List Nat)
    (msgSize : Nat) (w : World) :
    sends (emitted w (fanOut P pFrom pMsg msgSize w)) =
      (w.client_list.filter (fun c =>
        !decide (pFrom.sin_port = c.from_.sin_port ∧ pFrom.sin_addr = c.from_.sin_addr))).map
        (fun c => (c.sock, pMsg, msgSize)) :=
  (fanOut_spec P pFrom pMsg msgSize w).2.2.2.2.1

/-- C4, fan-out does not delete: when no send of a `fanOut` call fails with
`SOCK_ECONNREFUSED`, the client list after the call is the client list before it. -/
theorem fanOut_keeps_table (P : Platform) (pFrom : sockaddr_in) (pMsg : List Nat)
    (msgSize : Nat) (w : World)
    (h : ∀ sock m n r, Event.send sock m n r ∈ emitted w (fanOut P pFrom pMsg msgSize w) →
      ¬ (r.ret < 0 ∧ r.errno = P.SOCK_ECONNREFUSED)) :
    (fanOut P pFrom pMsg msgSize w).client_list = w.client_list := by
  apply (fanOut_spec P pFrom pMsg msgSize w).2.2.2.2.2.2
  intro e he
  cases e with
  | send sock m n r => simpa [Event.isRefused] using h sock m n r he
  | _ => rfl

/-- C2 on two clients: a datagram from the first client is not sent on its socket. -/
theorem fanOut_sender_suppression_witness :
    decide (Event.send 5 [1, 2, 3] 3 ⟨3, 0⟩ ∈ emitted (scenario twoClients [] ⟨3, 0⟩)
      (fanOut linuxPlatform (loopback 5001) [1, 2, 3] 3 (scenario twoClients [] ⟨3, 0⟩))) =
      false :=
  decide_eq_false ((fanOut_sender_suppression linuxPlatform (loopback 5001) [1, 2, 3] 3
    (scenario twoClients [] ⟨3, 0⟩)).2 ⟨loopback 5001, 5⟩ (by decide) rfl rfl (by decide)
    [1, 2, 3] 3 ⟨3, 0⟩)

/-- C4 on two clients: a send that fails with another error leaves both records in place. -/
theorem fanOut_keeps_table_witness :
    (fanOut linuxPlatform (loopback 5003) [1, 2, 3] 3
      (scenario twoClients [⟨-1, 11⟩] ⟨3, 0⟩)).client_list = twoClients :=
  fanOut_keeps_table linuxPlatform (loopback 5003) [1, 2, 3] 3
    (scenario twoClients [⟨-1, 11⟩] ⟨3, 0⟩) (by
      have h : emitted (scenario twoClients [⟨-1, 11⟩] ⟨3, 0⟩)
          (fanOut linuxPlatform (loopback 5003) [1, 2, 3] 3
            (scenario twoClients [⟨-1, 11⟩] ⟨3, 0⟩)) =
          [Event.call_fanOut (loopback 5003) [1, 2, 3] 3, Event.send 5 [1, 2, 3] 3 ⟨-1, 11⟩,
            Event.errlogPrintf, Event.send 6 [1, 2, 3] 3 ⟨3, 0⟩] := by decide
      intro sock m n r hmem
      rw [h] at hmem
      simp only [List.mem_cons, Event.send.injEq, List.mem_singleton, List.not_mem_nil,
        or_false, false_or, reduceCtorEq] at hmem
      rcases hmem with ⟨_, _, _, rfl⟩ | ⟨_, _, _, rfl⟩ <;> decide)

/-! ## The liveness prober -/

/-- C5, the result of the prober: the client list after `verifyClients` consists of the
records before it whose probe (the call of `makeSocket` for the port of the record) returned
no socket, whatever error it reported, in their order; the other records are gone. -/
theorem verifyClients_result (P : Platform) (w : World) :
    (probes P w.client_list w).length = w.client_list.length ∧
    (verifyClients P w).client_list =
      ((w.client_list.zip (probes P w.client_list w)).filter
        (fun p => decide (p.2.sock = P.INVALID_SOCKET))).map Prod.fst := by
  refine ⟨?_, (verifyClients_spec P w).1⟩
  generalize w.client_list = l
  induction l generalizing w with
  | nil => rfl
  | cons c cs ih => simp [probes, ih]

/-- C6, reap correctness: in a fan-out over a client list with distinct ports, let the send to
the client `c` fail with `SOCK_ECONNREFUSED`, let every `socket` call of the fan-out succeed
and let every bind to the port of `c` made in it succeed.  Then the prober runs once in the
fan-out, it makes a successful bind to the port of `c` (unless that port is `PORT_ANY`, for
which no bind is made), the record of `c` is not in the client list when `fanOut` returns,
every record the bind to whose port fails is, and a later fan-out sends to the records of that
list only. -/
theorem fanOut_reaps (P : Platform) (pFrom : sockaddr_in) (pMsg : List Nat) (msgSize : Nat)
    (w : World) (c : one_client)
    (hn : (w.client_list.map (fun c => c.from_.sin_port)).Nodup)
    (hc : c ∈ w.client_list)
    (hsend : ∃ r, Event.send c.sock pMsg msgSize r ∈ emitted w (fanOut P pFrom pMsg msgSize w) ∧
      r.ret < 0 ∧ r.errno = P.SOCK_ECONNREFUSED)
    (hsock : ∀ sr, Event.socket sr ∈ emitted w (fanOut P pFrom pMsg msgSize w) →
      sr.ret ≠ P.INVALID_SOCKET)
    (hbind : ∀ s r, Event.bind s
        ⟨P.AF_INET, htons (ntohs c.from_.sin_port), htonl P.INADDR_ANY⟩ r ∈
          emitted w (fanOut P pFrom pMsg msgSize w) → 0 ≤ r.ret) :
    proberCalls (emitted w (fanOut P pFrom pMsg msgSize w)) = 1 ∧
    (c.from_.sin_port ≠ PORT_ANY → ∃ s r, Event.bind s
        ⟨P.AF_INET, htons (ntohs c.from_.sin_port), htonl P.INADDR_ANY⟩ r ∈
          emitted w (fanOut P pFrom pMsg msgSize w) ∧ 0 ≤ r.ret) ∧
    c ∉ (fanOut P pFrom pMsg msgSize w).client_list ∧
    (∀ d ∈ w.client_list,
      (∃ s r, Event.bind s ⟨P.AF_INET, htons (ntohs d.from_.sin_port), htonl P.INADDR_ANY⟩ r ∈
        emitted w (fanOut P pFrom pMsg msgSize w) ∧ r.ret < 0) →
      d ∈ (fanOut P pFrom pMsg msgSize w).client_list) ∧
    (∀ pFrom2 pMsg2 msgSize2,
      sends (emitted (fanOut P pFrom pMsg msgSize w)
        (fanOut P pFrom2 pMsg2 msgSize2 (fanOut P pFrom pMsg msgSize w))) =
      ((fanOut P pFrom pMsg msgSize w).client_list.filter (fun d =>
        !decide (pFrom2.sin_port = d.from_.sin_port ∧ pFrom2.sin_addr = d.from_.sin_addr))).map
        (fun d => (d.sock, pMsg2, msgSize2))) := by
  have huniq : ∀ d ∈ w.client_list, ∀ e ∈ w.client_list,
      (⟨P.AF_INET, htons (ntohs d.from_.sin_port), htonl P.INADDR_ANY⟩ : sockaddr_in) =
        ⟨P.AF_INET, htons (ntohs e.from_.sin_port), htonl P.INADDR_ANY⟩ → e = d := by
    intro d hd e he heq
    have hp : e.from_.sin_port = d.from_.sin_port := by
      have := congrArg sockaddr_in.sin_port heq
      simpa [htons, ntohs] using this.symm
    exact List.inj_on_of_nodup_map hn he hd hp
  obtain ⟨r0, hr0, hneg, herr⟩ := hsend
  have hany : (emitted w (fanOut P pFrom pMsg msgSize w)).any (Event.isRefused P) = true :=
    List.any_eq_true.2 ⟨_, hr0, by simp [Event.isRefused, hneg, herr]⟩
  have hrun : proberCalls (emitted w (fanOut P pFrom pMsg msgSize w)) = 1 := by
    rw [fanOut_proberCalls, if_pos hany]
  obtain ⟨w2, h1, _, _, _, h5, _, h7⟩ := fanOut_decomp P pFrom pMsg msgSize w
  have hv : (emitted w w2).any (Event.isRefused P) = true := by
    by_contra hno
    rw [h7, if_neg hno] at hrun
    rw [proberCalls_of_none (fun e he => ?_)] at hrun
    · exact absurd hrun (by decide)
    · have := h5.emitted_all e he
      rintro rfl
      simp [Event.isFanLoop] at this
  have hfan : fanOut P pFrom pMsg msgSize w = verifyClients P w2 := by rw [h7, if_pos hv]
  have hem : emitted w (fanOut P pFrom pMsg msgSize w) =
      emitted w w2 ++ emitted w2 (verifyClients P w2) := by
    rw [hfan]
    exact emitted_trans h5 (verifyClients_spec P w2).2.2.2.2
  obtain ⟨k1, k2⟩ := verifyClients_reaps P w2
    (fun sr hsr => hsock sr (by rw [hem]; exact List.mem_append_right _ hsr)) c
    (by rw [h1]; exact hc)
    (fun s r hm => hbind s r (by rw [hem]; exact List.mem_append_right _ hm))
  refine ⟨hrun, ?_, ?_, ?_, ?_⟩
  · intro hp
    obtain ⟨s, r, hm, hr⟩ := k2 hp
    exact ⟨s, r, by rw [hem]; exact List.mem_append_right _ hm, hr⟩
  · rw [hfan]
    exact k1
  · rintro d hd ⟨s, r, hmem, hr⟩
    obtain ⟨e, he, ha, _, h2⟩ := fanOut_binds P pFrom pMsg msgSize w hn s _ r hmem
    rw [huniq d hd e he ha] at h2
    exact h2 hr
  · intro pFrom2 pMsg2 msgSize2
    exact (fanOut_spec P pFrom2 pMsg2 msgSize2 _).2.2.2.2.1

/-- C6 on two clients: the second has exited, its send is refused and the bind to its port
succeeds, while the bind to the port of the first fails with address in use; the prober runs
once, the second record is gone and the first is kept. -/
theorem fanOut_reaps_witness :
    proberCalls (emitted clientExited
      (fanOut linuxPlatform (loopback 6000) [1, 2, 3] 3 clientExited)) = 1 ∧
    decide ((⟨loopback 5002, 6⟩ : one_client) ∈
      (fanOut linuxPlatform (loopback 6000) [1, 2, 3] 3 clientExited).client_list) = false ∧
    decide ((⟨loopback 5001, 5⟩ : one_client) ∈
      (fanOut linuxPlatform (loopback 6000) [1, 2, 3] 3 clientExited).client_list) = true := by
  have h : emitted clientExited
      (fanOut linuxPlatform (loopback 6000) [1, 2, 3] 3 clientExited) =
      [Event.call_fanOut (loopback 6000) [1, 2, 3] 3, Event.send 5 [1, 2, 3] 3 ⟨3, 0⟩,
        Event.send 6 [1, 2, 3] 3 ⟨-1, 111⟩, Event.call_verifyClients, Event.socket ⟨7, 0⟩,
        Event.bind 7 ⟨2, 5001, 0⟩ ⟨-1, 98⟩, Event.socket_close 7, Event.socket ⟨7, 0⟩,
        Event.bind 7 ⟨2, 5002, 0⟩ ⟨0, 0⟩, Event.socket_close 7, Event.socket_close 6,
        Event.free] := by decide
  have t := fanOut_reaps linuxPlatform (loopback 6000) [1, 2, 3] 3 clientExited
    ⟨loopback 5002, 6⟩ (by decide) (by decide)
    ⟨⟨-1, 111⟩, by decide, by decide, by decide⟩
    (by
      intro sr hm
      rw [h] at hm
      simp only [List.mem_cons, Event.socket.injEq, List.mem_singleton, List.not_mem_nil,
        or_false, false_or, reduceCtorEq, or_self] at hm
      subst hm
      decide)
    (by
      intro s r hm
      rw [h] at hm
      simp only [List.mem_cons, Event.bind.injEq, List.mem_singleton, List.not_mem_nil,
        or_false, false_or, reduceCtorEq] at hm
      rcases hm with ⟨_, hh, _⟩ | ⟨_, _, rfl⟩
      · exact absurd hh (by decide)
      · decide)
  exact ⟨t.1, decide_eq_false t.2.2.1,
    decide_eq_true (t.2.2.2.1 ⟨loopback 5001, 5⟩ (by decide) ⟨7, ⟨-1, 98⟩, by decide, by decide⟩)⟩

/-! ## The registrar -/

/-- C7, locality: a registration from an address other than the loopback address for which the
bind test socket could not be created, or the bind of that socket to the address fails, leaves
the client list as it was and performs no `send`, no `connect`, no `calloc`, no fan-out and no
run of the prober. -/
theorem register_refuses_nonlocal (P : Platform) (pFrom : sockaddr_in) (w : World)
    (hlo : pFrom.sin_addr ≠ htonl P.INADDR_LOOPBACK)
    (hnl : (initTestSock P w).testSock = P.INVALID_SOCKET ∨
      (initTestSock P w).next.ret ≠ 0) :
    (register_new_client P pFrom w).client_list = w.client_list ∧
    ∀ e ∈ emitted w (register_new_client P pFrom w),
      (∀ s m n r, e ≠ Event.send s m n r) ∧ (∀ s a r, e ≠ Event.connect s a r) ∧
      (∀ r, e ≠ Event.calloc r) ∧ (∀ a m n, e ≠ Event.call_fanOut a m n) ∧
      e ≠ Event.call_verifyClients := by
  obtain ⟨l1, _, l3, l4⟩ := localTest_spec P pFrom w
  have hfalse : (localTest P pFrom w).1 = false := l4.2 ⟨fun h => hlo h.symm, hnl⟩
  rw [register_new_client_eq]
  split_ifs with hf
  · refine ⟨rfl, ?_⟩
    simp [emitted_self]
  · refine ⟨l1, ?_⟩
    intro e he
    have hk := l3.emitted_all e he
    cases e <;> simp_all [Event.isLocalTest]

/-- C7 on an address of another host: the bind of the test socket to 10.1.2.3 fails. -/
theorem register_refuses_nonlocal_witness :
    (register_new_client linuxPlatform ⟨2, 5001, 167838211⟩
      (scenario twoClients [⟨4, 0⟩, ⟨-1, 99⟩] ⟨0, 0⟩)).client_list = twoClients :=
  (register_refuses_nonlocal linuxPlatform ⟨2, 5001, 167838211⟩
    (scenario twoClients [⟨4, 0⟩, ⟨-1, 99⟩] ⟨0, 0⟩) (by decide) (Or.inr (by decide))).1

/-- C8, idempotent re-registration: a registration that passes the test that the client is
local and whose port is that of a record of the client list allocates no record and connects
no socket, leaves a client list made of records of the list before it, and its first send is
on the socket of the record found and carries one header of sixteen bytes: the command
`REPEATER_CONFIRM` in network byte order, ten zero bytes, and the address of the registrant in
network byte order. -/
theorem register_again (P : Platform) (pFrom : sockaddr_in) (w : World) (idx : Nat)
    (c : one_client) (hfam : pFrom.sin_family = P.AF_INET)
    (hloc : (localTest P pFrom w).1 = true)
    (hfind : findClient pFrom.sin_port w.client_list = some (idx, c)) :
    (w.client_list[idx]? = some c ∧ c.from_.sin_port = pFrom.sin_port) ∧
    List.Sublist (register_new_client P pFrom w).client_list w.client_list ∧
    (∀ e ∈ emitted w (register_new_client P pFrom w),
      (∀ s a r, e ≠ Event.connect s a r) ∧ (∀ r, e ≠ Event.calloc r)) ∧
    ∃ pre post, emitted w (register_new_client P pFrom w) =
        pre ++ Event.send c.sock
          (be16 P.REPEATER_CONFIRM ++ [0, 0, 0, 0, 0, 0, 0, 0, 0, 0] ++ be32 pFrom.sin_addr) 16
          (localTest P pFrom w).2.next :: post ∧
      sends pre = [] := by
  obtain ⟨l1, _, l3, _⟩ := localTest_spec P pFrom w
  have hoc := obtainClient_found P pFrom (localTest P pFrom w).2 (by rw [l1]; exact hfind)
  obtain ⟨hreg, _⟩ := register_new_client_success P pFrom w hfam hloc (by rw [hoc])
  rw [hoc] at hreg
  simp only at hreg
  obtain ⟨k1, k2, post, k3, _⟩ := confirmClient_spec P pFrom idx c false (localTest P pFrom w).2
  rw [hreg]
  refine ⟨findClient_some hfind, by rw [← l1]; exact k2, ?_, emitted w (localTest P pFrom w).2,
    post, ?_, ?_⟩
  · intro e he
    rw [emitted_trans l3 k1] at he
    rcases List.mem_append.1 he with he | he
    · have := l3.emitted_all e he
      cases e <;> simp_all [Event.isLocalTest]
    · have := k1.emitted_all e he
      cases e <;> simp_all [Event.isConfirm, Event.isFan, Event.isProbe, Event.isFactory]
  · rw [emitted_trans l3 k1, k3, confirmHdr_bytes]
    rfl
  · exact sends_of_not_isSend (fun e he =>
      not_isSend_of_isSetup (isSetup_of_isLocalTest (l3.emitted_all e he)))

/-- C8 on two clients: the first one registers again from the loopback address; the list keeps
its two records and the first send is the confirmation for 127.0.0.1 on its socket 5. -/
theorem register_again_witness :
    List.Sublist (register_new_client linuxPlatform (loopback 5001)
      (scenario twoClients [] ⟨16, 0⟩)).client_list twoClients ∧
    (sends (emitted (scenario twoClients [] ⟨16, 0⟩)
      (register_new_client linuxPlatform (loopback 5001)
        (scenario twoClients [] ⟨16, 0⟩)))).head? =
      some (5, [0, 17, 0, 0, 0, 0, 0, 0, 0, 0, 0, 0, 127, 0, 0, 1], 16) := by
  have t := register_again linuxPlatform (loopback 5001) (scenario twoClients [] ⟨16, 0⟩) 0
    ⟨loopback 5001, 5⟩ rfl (by decide) (by decide)
  obtain ⟨pre, post, h, hp⟩ := t.2.2.2
  refine ⟨t.2.1, ?_⟩
  rw [h, sends_append, hp]
  rfl

/-- C9, confirmation atomicity: in a registration that passes the test that the client is
local, obtains a record and whose confirmation is sent with success, the sends are the
confirmation, on the socket of the record with the port of the registrant (a socket that the
call has connected to the registrant when the record is new), followed only by sends of the
zeroed header of the fan-out; the
confirmation is one header long, starts with `REPEATER_CONFIRM` in network byte order, ends with
the address of the registrant in network byte order and is zero in between; and, the command
`REPEATER_CONFIRM` being a non-zero 16-bit value, it is the only send with these bytes. -/
theorem register_confirms (P : Platform) (pFrom : sockaddr_in) (w : World) (idx : Nat)
    (c : one_client) (newClient : Bool) (hK : P.REPEATER_CONFIRM % 65536 ≠ 0)
    (hfam : pFrom.sin_family = P.AF_INET) (hloc : (localTest P pFrom w).1 = true)
    (hrec : (obtainClient P pFrom (localTest P pFrom w).2).1 = some (idx, c, newClient))
    (_hsend : 0 ≤ (obtainClient P pFrom (localTest P pFrom w).2).2.next.ret) :
    c.from_.sin_port = pFrom.sin_port ∧
    (newClient = true → c.from_ = pFrom ∧ ∃ r, 0 ≤ r.ret ∧ Event.connect c.sock pFrom r ∈
      emitted w (obtainClient P pFrom (localTest P pFrom w).2).2) ∧
    (confirmHdr P pFrom).bytes =
      be16 P.REPEATER_CONFIRM ++ [0, 0, 0, 0, 0, 0, 0, 0, 0, 0] ++ be32 pFrom.sin_addr ∧
    (confirmHdr P pFrom).bytes.length = sizeof_caHdr ∧
    (∃ post, emitted w (register_new_client P pFrom w) =
        emitted w (obtainClient P pFrom (localTest P pFrom w).2).2 ++
          Event.send c.sock (confirmHdr P pFrom).bytes sizeof_caHdr
            (obtainClient P pFrom (localTest P pFrom w).2).2.next :: post ∧
      sends (emitted w (obtainClient P pFrom (localTest P pFrom w).2).2) = [] ∧
      ∀ x ∈ sends post, x.2.1 = noopHdr.bytes ∧ x.2.2 = sizeof_caHdr) ∧
    ((sends (emitted w (register_new_client P pFrom w))).filter
      (fun x => decide (x.2.1 = (confirmHdr P pFrom).bytes))).length = 1 := by
  obtain ⟨hreg, hext⟩ := register_new_client_success P pFrom w hfam hloc hrec
  obtain ⟨_, _, _, o4⟩ := obtainClient_spec P pFrom (localTest P pFrom w).2
  obtain ⟨_, q2, _, q4⟩ := o4 idx c newClient hrec
  obtain ⟨k1, _, post, k3, k4⟩ := confirmClient_spec P pFrom idx c newClient
    (obtainClient P pFrom (localTest P pFrom w).2).2
  have hpre : sends (emitted w (obtainClient P pFrom (localTest P pFrom w).2).2) = [] :=
    sends_of_not_isSend (fun e he => not_isSend_of_isSetup (hext.emitted_all e he))
  have hpost : ∀ x ∈ sends post, x.2.1 = noopHdr.bytes ∧ x.2.2 = sizeof_caHdr := by
    intro x hx
    rcases k4 with h | h | h
    · rw [h] at hx; simp at hx
    · rw [h] at hx
      exact ⟨(mem_fanOutSends hx).1, (mem_fanOutSends hx).2.1⟩
    · rw [h] at hx
      exact ⟨(mem_fanOutSends hx).1, (mem_fanOutSends hx).2.1⟩
  have hem : emitted w (register_new_client P pFrom w) =
      emitted w (obtainClient P pFrom (localTest P pFrom w).2).2 ++
        Event.send c.sock (confirmHdr P pFrom).bytes sizeof_caHdr
          (obtainClient P pFrom (localTest P pFrom w).2).2.next :: post := by
    rw [hreg, emitted_trans hext k1, k3]
  have hconn : newClient = true → c.from_ = pFrom ∧ ∃ r, 0 ≤ r.ret ∧
      Event.connect c.sock pFrom r ∈ emitted w (obtainClient P pFrom (localTest P pFrom w).2).2 := by
    intro h
    obtain ⟨r1, _, _, _, r, hr, hmem⟩ := q4 h
    refine ⟨r1, r, hr, ?_⟩
    rw [emitted_trans (localTest_spec P pFrom w).2.2.1
      (obtainClient_spec P pFrom (localTest P pFrom w).2).1]
    exact List.mem_append_right _ hmem
  refine ⟨q2, hconn, by simp [confirmHdr, caHdr.bytes, caHdr.zero, be16, be32, htons],
    by simp [confirmHdr, caHdr.bytes, be16, be32, sizeof_caHdr], ⟨post, hem, hpre, hpost⟩, ?_⟩
  rw [hem, sends_append, hpre, List.nil_append]
  simp only [sends, List.filter_cons, decide_True, if_true, List.length_cons]
  have : (sends post).filter (fun x => decide (x.2.1 = (confirmHdr P pFrom).bytes)) = [] := by
    rw [List.filter_eq_nil_iff]
    intro x hx
    simp only [decide_eq_true_eq]
    rw [(hpost x hx).1]
    exact fun h => confirm_ne_noop P pFrom hK h.symm
  rw [this]
  rfl

/-- C9 on a first registration: record and socket are created, the confirmation is sent, and
the probe of the new client finds its port in use. -/
theorem register_confirms_witness :
    ((sends (emitted (scenario [] [⟨1, 0⟩, ⟨5, 0⟩, ⟨0, 0⟩, ⟨16, 0⟩, ⟨6, 0⟩, ⟨-1, 98⟩] ⟨0, 0⟩)
      (register_new_client linuxPlatform (loopback 5001)
        (scenario [] [⟨1, 0⟩, ⟨5, 0⟩, ⟨0, 0⟩, ⟨16, 0⟩, ⟨6, 0⟩, ⟨-1, 98⟩] ⟨0, 0⟩)))).filter
      (fun x => decide (x.2.1 = (confirmHdr linuxPlatform (loopback 5001)).bytes))).length = 1 :=
  (register_confirms linuxPlatform (loopback 5001)
    (scenario [] [⟨1, 0⟩, ⟨5, 0⟩, ⟨0, 0⟩, ⟨16, 0⟩, ⟨6, 0⟩, ⟨-1, 98⟩] ⟨0, 0⟩) 0
    ⟨loopback 5001, 5⟩ true (by decide) rfl (by decide) (by decide) (by decide)).2.2.2.2.2

/-- C12, the message of the poke: in a registration that reaches the fan-out (it passes the
test that the client is local, obtains a record, and its confirmation does not fail the
`assert`), the command `CA_PROTO_NOOP` being zero as in the Channel Access protocol, `fanOut`
is called once, with the source address of the registrant as the suppression key and a message
of one header of sixteen bytes: the command `CA_PROTO_NOOP` in network byte order followed by
fourteen zero bytes. -/
theorem register_noop_message (P : Platform) (pFrom : sockaddr_in) (w : World) (idx : Nat)
    (c : one_client) (newClient : Bool) (hN : P.CA_PROTO_NOOP = 0)
    (hfam : pFrom.sin_family = P.AF_INET) (hloc : (localTest P pFrom w).1 = true)
    (hrec : (obtainClient P pFrom (localTest P pFrom w).2).1 = some (idx, c, newClient))
    (hret : (obtainClient P pFrom (localTest P pFrom w).2).2.next.ret < 0 ∨
      (obtainClient P pFrom (localTest P pFrom w).2).2.next.ret = sizeof_caHdr) :
    fanOutCalls (emitted w (register_new_client P pFrom w)) =
      [(pFrom, be16 P.CA_PROTO_NOOP ++ [0, 0, 0, 0, 0, 0, 0, 0, 0, 0, 0, 0, 0, 0], 16)] := by
  rw [(register_new_client_fanOutCalls P pFrom w).2.2
    ⟨hfam, hloc, idx, c, newClient, hrec, hret⟩, hN]
  rfl

/-- C12 on two clients: the second registers again from the loopback address; the one call of
`fanOut` has its address as the key and the header of a NOOP as the message. -/
theorem register_noop_message_witness :
    fanOutCalls (emitted (scenario twoClients [] ⟨16, 0⟩)
      (register_new_client linuxPlatform (loopback 5002) (scenario twoClients [] ⟨16, 0⟩))) =
      [(loopback 5002, [0, 0, 0, 0, 0, 0, 0, 0, 0, 0, 0, 0, 0, 0, 0, 0], 16)] :=
  (register_noop_message linuxPlatform (loopback 5002) (scenario twoClients [] ⟨16, 0⟩) 1
    ⟨loopback 5002, 6⟩ false rfl rfl (by decide) (by decide) (Or.inr (by decide))).trans
    (by decide)

/-- C15, a failed creation is atomic: in a registration that passes the test that the client is
local, from a port that no record has, when `calloc` returns no memory, `socket` returns no
socket or `connect` fails, the client list is as before, the call performs no send, no fan-out
and no run of the prober, and after the test its actions are the allocation and a log line; or
also the failed `socket` and `free`; or the socket, the failed `connect`, a log line, the close
of that socket and `free`. -/
theorem register_create_fails (P : Platform) (pFrom : sockaddr_in) (w : World)
    (hfam : pFrom.sin_family = P.AF_INET) (hloc : (localTest P pFrom w).1 = true)
    (hfind : findClient pFrom.sin_port w.client_list = none)
    (hfail : (localTest P pFrom w).2.next.ret = 0 ∨
      (localTest P pFrom w).2.tick.next.ret = P.INVALID_SOCKET ∨
      (localTest P pFrom w).2.tick.tick.next.ret < 0) :
    (register_new_client P pFrom w).client_list = w.client_list ∧
    (∀ e ∈ emitted w (register_new_client P pFrom w),
      (∀ s m n r, e ≠ Event.send s m n r) ∧ (∀ a m n, e ≠ Event.call_fanOut a m n) ∧
      e ≠ Event.call_verifyClients) ∧
    (emitted (localTest P pFrom w).2 (register_new_client P pFrom w) =
        [Event.calloc (localTest P pFrom w).2.next, Event.errlogPrintf] ∨
      emitted (localTest P pFrom w).2 (register_new_client P pFrom w) =
        [Event.calloc (localTest P pFrom w).2.next,
          Event.socket (localTest P pFrom w).2.tick.next, Event.free, Event.errlogPrintf] ∨
      ((localTest P pFrom w).2.tick.next.ret ≠ P.INVALID_SOCKET ∧
        emitted (localTest P pFrom w).2 (register_new_client P pFrom w) =
          [Event.calloc (localTest P pFrom w).2.next,
            Event.socket (localTest P pFrom w).2.tick.next,
            Event.connect (localTest P pFrom w).2.tick.next.ret pFrom
              (localTest P pFrom w).2.tick.tick.next,
            Event.errlogPrintf, Event.socket_close (localTest P pFrom w).2.tick.next.ret,
            Event.free])) := by
  obtain ⟨l1, _, l3, _⟩ := localTest_spec P pFrom w
  obtain ⟨o1, _, o3, _⟩ := obtainClient_spec P pFrom (localTest P pFrom w).2
  have hset : Ext Event.isSetup w (obtainClient P pFrom (localTest P pFrom w).2).2 :=
    (l3.mono (fun _ => isSetup_of_isLocalTest)).trans o1
  have hoc : obtainClient P pFrom (localTest P pFrom w).2 =
      ((createClient P pFrom (localTest P pFrom w).2).1.map (fun p => (p.1, p.2, true)),
        (createClient P pFrom (localTest P pFrom w).2).2) := by
    unfold obtainClient
    rw [l1, hfind]
    rcases createClient P pFrom (localTest P pFrom w).2 with ⟨o, w2⟩
    cases o <;> rfl
  have hcc : (createClient P pFrom (localTest P pFrom w).2).1 = none ∧
      (emitted (localTest P pFrom w).2 (createClient P pFrom (localTest P pFrom w).2).2 =
        [Event.calloc (localTest P pFrom w).2.next, Event.errlogPrintf] ∨
      emitted (localTest P pFrom w).2 (createClient P pFrom (localTest P pFrom w).2).2 =
        [Event.calloc (localTest P pFrom w).2.next,
          Event.socket (localTest P pFrom w).2.tick.next, Event.free, Event.errlogPrintf] ∨
      ((localTest P pFrom w).2.tick.next.ret ≠ P.INVALID_SOCKET ∧
        emitted (localTest P pFrom w).2 (createClient P pFrom (localTest P pFrom w).2).2 =
          [Event.calloc (localTest P pFrom w).2.next,
            Event.socket (localTest P pFrom w).2.tick.next,
            Event.connect (localTest P pFrom w).2.tick.next.ret pFrom
              (localTest P pFrom w).2.tick.tick.next,
            Event.errlogPrintf, Event.socket_close (localTest P pFrom w).2.tick.next.ret,
            Event.free])) := by
    rw [createClient_eq]
    split_ifs with h1 h2 h3
    · exact ⟨rfl, Or.inl (emitted_of_trace (by simp))⟩
    · exact ⟨rfl, Or.inr (Or.inl (emitted_of_trace (by simp)))⟩
    · exact ⟨rfl, Or.inr (Or.inr ⟨h2, emitted_of_trace (by simp)⟩)⟩
    · rcases hfail with h | h | h
      · exact absurd h h1
      · exact absurd h h2
      · exact absurd h h3
  have hnone : (obtainClient P pFrom (localTest P pFrom w).2).1 = none := by
    rw [hoc, hcc.1]; rfl
  have hreg : register_new_client P pFrom w = (createClient P pFrom (localTest P pFrom w).2).2 := by
    rw [register_new_client_eq, if_neg (not_not.2 hfam), if_neg (by simp [hloc]), hnone, hoc]
  refine ⟨?_, ?_, ?_⟩
  · rw [register_new_client_eq, if_neg (not_not.2 hfam), if_neg (by simp [hloc]), hnone,
      o3 hnone, l1]
  · intro e he
    rw [register_new_client_eq, if_neg (not_not.2 hfam), if_neg (by simp [hloc]), hnone] at he
    have hk := hset.emitted_all e he
    cases e <;> simp_all [Event.isSetup, Event.isLocalTest]
  · rw [hreg]
    exact hcc.2

/-- C15 on a failed `connect`: the socket that was made is closed and both records stay. -/
theorem register_create_fails_witness :
    (register_new_client linuxPlatform (loopback 5003)
      (scenario twoClients [⟨1, 0⟩, ⟨5, 0⟩, ⟨-1, 101⟩] ⟨0, 0⟩)).client_list = twoClients :=
  (register_create_fails linuxPlatform (loopback 5003)
    (scenario twoClients [⟨1, 0⟩, ⟨5, 0⟩, ⟨-1, 101⟩] ⟨0, 0⟩) rfl (by decide) (by decide)
    (Or.inr (Or.inr (by decide)))).1

/-- C11 as stated fails: in a first registration whose confirmation send fails with an error
other than `SOCK_ECONNREFUSED` (here 105) the call returns, its one send has failed, and the
record of the registrant is in the client list. -/
theorem register_keeps_unconfirmed :
    (localTest linuxPlatform (loopback 5001) confirmFails).1 = true ∧
    (obtainClient linuxPlatform (loopback 5001)
      (localTest linuxPlatform (loopback 5001) confirmFails).2).1 =
        some (0, ⟨loopback 5001, 5⟩, true) ∧
    (register_new_client linuxPlatform (loopback 5001) confirmFails).halted = false ∧
    emitted confirmFails (register_new_client linuxPlatform (loopback 5001) confirmFails) =
      [Event.calloc ⟨1, 0⟩, Event.socket ⟨5, 0⟩, Event.connect 5 (loopback 5001) ⟨0, 0⟩,
        Event.send 5 (confirmHdr linuxPlatform (loopback 5001)).bytes 16 ⟨-1, 105⟩,
        Event.errlogPrintf, Event.call_fanOut (loopback 5001) noopHdr.bytes 16,
        Event.call_verifyClients, Event.socket ⟨6, 0⟩,
        Event.bind 6 ⟨2, 5001, 0⟩ ⟨-1, 98⟩, Event.socket_close 6] ∧
    (register_new_client linuxPlatform (loopback 5001) confirmFails).client_list =
      [⟨loopback 5001, 5⟩] := by
  decide

/-- C11 amended: a registration that passes the test that the client is local and obtains a
record, the ports of the client list being distinct, ends in one of four ways.  The
confirmation was sent with success and is the only send with its bytes (`REPEATER_CONFIRM`
being a non-zero 16-bit value); or its send was refused and no record with the port of the
registrant is in the client list; or its send failed with another error, a line was logged and
the end of the function ran with the record still in the client list; or the `assert` on the
length of the send failed and the thread stopped. -/
theorem register_confirmed_or_reaped (P : Platform) (pFrom : sockaddr_in) (w : World)
    (idx : Nat) (c : one_client) (newClient : Bool) (hK : P.REPEATER_CONFIRM % 65536 ≠ 0)
    (hfam : pFrom.sin_family = P.AF_INET) (hloc : (localTest P pFrom w).1 = true)
    (hrec : (obtainClient P pFrom (localTest P pFrom w).2).1 = some (idx, c, newClient))
    (hn : (w.client_list.map (fun c => c.from_.sin_port)).Nodup) :
    ((obtainClient P pFrom (localTest P pFrom w).2).2.next.ret = sizeof_caHdr ∧
      Event.send c.sock (confirmHdr P pFrom).bytes sizeof_caHdr
        (obtainClient P pFrom (localTest P pFrom w).2).2.next ∈
          emitted w (register_new_client P pFrom w) ∧
      ((sends (emitted w (register_new_client P pFrom w))).filter
        (fun x => decide (x.2.1 = (confirmHdr P pFrom).bytes))).length = 1) ∨
    ((obtainClient P pFrom (localTest P pFrom w).2).2.next.ret < 0 ∧
      (obtainClient P pFrom (localTest P pFrom w).2).2.next.errno = P.SOCK_ECONNREFUSED ∧
      ∀ d ∈ (register_new_client P pFrom w).client_list,
        d.from_.sin_port ≠ pFrom.sin_port) ∨
    ((obtainClient P pFrom (localTest P pFrom w).2).2.next.ret < 0 ∧
      (obtainClient P pFrom (localTest P pFrom w).2).2.next.errno ≠ P.SOCK_ECONNREFUSED ∧
      Event.errlogPrintf ∈ emitted w (register_new_client P pFrom w) ∧
      ∃ w3, w3.client_list = (obtainClient P pFrom (localTest P pFrom w).2).2.client_list ∧
        w3.client_list[idx]? = some c ∧
        register_new_client P pFrom w = sendNoop P pFrom newClient w3) ∨
    (0 ≤ (obtainClient P pFrom (localTest P pFrom w).2).2.next.ret ∧
      (obtainClient P pFrom (localTest P pFrom w).2).2.next.ret ≠ sizeof_caHdr ∧
      (register_new_client P pFrom w).halted = true) := by
  obtain ⟨l1, _, l3, _⟩ := localTest_spec P pFrom w
  obtain ⟨o1, _, _, o4⟩ := obtainClient_spec P pFrom (localTest P pFrom w).2
  obtain ⟨q1, q2, _, _⟩ := o4 idx c newClient hrec
  have hset : Ext Event.isSetup w (obtainClient P pFrom (localTest P pFrom w).2).2 :=
    (l3.mono (fun _ => isSetup_of_isLocalTest)).trans o1
  have hpre : sends (emitted w (obtainClient P pFrom (localTest P pFrom w).2).2) = [] :=
    sends_of_not_isSend (fun e he => not_isSend_of_isSetup (hset.emitted_all e he))
  have hn2 := obtainClient_nodup P pFrom (localTest P pFrom w).2 (by rw [l1]; exact hn)
  rcases register_new_client_cases P pFrom w hfam hloc hrec with
    ⟨h0, h16, hh, _, _⟩ | ⟨mid, w3, heq, hem, _, hcase⟩
  · exact Or.inr (Or.inr (Or.inr ⟨h0, h16, hh⟩))
  · obtain ⟨_, _, n3, n4⟩ := sendNoop_spec P pFrom newClient w3
    rcases hcase with ⟨hr, rfl, _⟩ | ⟨hr, he, rfl, hcl⟩ | ⟨hr, he, rfl, hcl⟩
    · left
      refine ⟨hr, by rw [hem]; simp, ?_⟩
      rw [hem, sends_append, sends_append, hpre, n4]
      simp only [sends, List.nil_append, List.singleton_append, List.filter_cons,
        decide_True, if_true, List.length_cons]
      have : (fanOutSends pFrom noopHdr.bytes sizeof_caHdr w3.client_list).filter
          (fun x => decide (x.2.1 = (confirmHdr P pFrom).bytes)) = [] := by
        rw [List.filter_eq_nil_iff]
        intro x hx
        simp only [decide_eq_true_eq]
        rw [(mem_fanOutSends hx).1]
        exact fun h => confirm_ne_noop P pFrom hK h.symm
      rw [this]
      rfl
    · right; left
      refine ⟨hr, he, ?_⟩
      intro d hd
      rw [heq] at hd
      have hd2 := n3.subset hd
      rw [hcl] at hd2
      rw [← q2]
      exact port_eraseIdx _ idx c hn2 q1 d hd2
    · right; right; left
      exact ⟨hr, he, by rw [hem]; simp, w3, hcl, by rw [hcl]; exact q1, heq⟩

/-- C11 amended, on a registration whose confirmation is refused: no record with the port of
the registrant is left. -/
theorem register_confirmed_or_reaped_witness :
    (register_new_client linuxPlatform (loopback 5001)
      (scenario [] [⟨1, 0⟩, ⟨5, 0⟩, ⟨0, 0⟩, ⟨-1, 111⟩] ⟨0, 0⟩)).client_list.all
        (fun d => decide (d.from_.sin_port ≠ (loopback 5001).sin_port)) = true :=
  List.all_eq_true.2 (fun d hd => decide_eq_true
    ((((register_confirmed_or_reaped linuxPlatform (loopback 5001)
      (scenario [] [⟨1, 0⟩, ⟨5, 0⟩, ⟨0, 0⟩, ⟨-1, 111⟩] ⟨0, 0⟩) 0 ⟨loopback 5001, 5⟩ true
      (by decide) rfl (by decide) (by decide) (by decide)).resolve_left
        (fun h => absurd h.1 (by decide))).elim (fun h => h.2.2)
      (fun h => h.elim (fun h3 => absurd (by decide) h3.2.1)
        (fun h4 => absurd h4.1 (by decide)))) d hd))

/-- C16, when the prober runs: `fanOut` runs it once when one of its sends failed with
`SOCK_ECONNREFUSED` and not otherwise; a registration that passes the test that the client is
local, obtains a record and returns runs it only after the send of the confirmation, once for
the fan-out when a send of the fan-out was refused and once more when the record is new; so a
registration again whose fan-out meets no refused send binds nothing after the confirmation and
leaves the client list as it was, or without its own record when its confirmation was
refused. -/
theorem prober_schedule (P : Platform) (pFrom : sockaddr_in) (w : World) (idx : Nat)
    (c : one_client) (newClient : Bool)
    (hfam : pFrom.sin_family = P.AF_INET) (hloc : (localTest P pFrom w).1 = true)
    (hrec : (obtainClient P pFrom (localTest P pFrom w).2).1 = some (idx, c, newClient))
    (hret : (obtainClient P pFrom (localTest P pFrom w).2).2.next.ret < 0 ∨
      (obtainClient P pFrom (localTest P pFrom w).2).2.next.ret = sizeof_caHdr) :
    (∀ pFrom2 pMsg msgSize w0,
      proberCalls (emitted w0 (fanOut P pFrom2 pMsg msgSize w0)) =
        if (emitted w0 (fanOut P pFrom2 pMsg msgSize w0)).any (Event.isRefused P) = true
        then 1 else 0) ∧
    ∃ post, emitted w (register_new_client P pFrom w) =
        emitted w (obtainClient P pFrom (localTest P pFrom w).2).2 ++
          Event.send c.sock (confirmHdr P pFrom).bytes sizeof_caHdr
            (obtainClient P pFrom (localTest P pFrom w).2).2.next :: post ∧
      proberCalls (emitted w (obtainClient P pFrom (localTest P pFrom w).2).2) = 0 ∧
      proberCalls post =
        (if post.any (Event.isRefused P) = true then 1 else 0) +
          (if newClient = true then 1 else 0) ∧
      (newClient = false → post.any (Event.isRefused P) = false →
        (∀ s a r, Event.bind s a r ∉ post) ∧
        ((register_new_client P pFrom w).client_list =
            (obtainClient P pFrom (localTest P pFrom w).2).2.client_list ∨
          ((obtainClient P pFrom (localTest P pFrom w).2).2.next.ret < 0 ∧
            (obtainClient P pFrom (localTest P pFrom w).2).2.next.errno =
              P.SOCK_ECONNREFUSED ∧
            (register_new_client P pFrom w).client_list =
              (obtainClient P pFrom (localTest P pFrom w).2).2.client_list.eraseIdx idx))) := by
  refine ⟨fun pFrom2 pMsg msgSize w0 => fanOut_proberCalls P pFrom2 pMsg msgSize w0, ?_⟩
  have hset : Ext Event.isSetup w (obtainClient P pFrom (localTest P pFrom w).2).2 :=
    ((localTest_spec P pFrom w).2.2.1.mono (fun _ => isSetup_of_isLocalTest)).trans
      (obtainClient_spec P pFrom (localTest P pFrom w).2).1
  have hpre := proberCalls_of_none
    (fun e he => not_marker_of_isSetup (hset.emitted_all e he))
  rcases register_new_client_cases P pFrom w hfam hloc hrec with
    ⟨h0, h16, _, _, _⟩ | ⟨mid, w3, heq, hem, _, hcase⟩
  · rcases hret with h | h
    · omega
    · exact absurd h h16
  · obtain ⟨p1, p2⟩ := sendNoop_prober P pFrom newClient w3
    refine ⟨mid ++ emitted w3 (sendNoop P pFrom newClient w3), ?_, hpre, ?_, ?_⟩
    · rw [hem]; simp
    · have hmid : proberCalls mid = 0 ∧ mid.any (Event.isRefused P) = false := by
        rcases hcase with ⟨_, rfl, _⟩ | ⟨_, _, rfl, _⟩ | ⟨_, _, rfl, _⟩ <;>
          exact ⟨rfl, rfl⟩
      rw [proberCalls_append, List.any_append, hmid.1, hmid.2, Bool.false_or, p1, Nat.zero_add]
    · intro hn hq
      have hmid : (∀ s a r, Event.bind s a r ∉ mid) ∧ mid.any (Event.isRefused P) = false := by
        rcases hcase with ⟨_, rfl, _⟩ | ⟨_, _, rfl, _⟩ | ⟨_, _, rfl, _⟩ <;>
          exact ⟨by simp, rfl⟩
      rw [List.any_append, hmid.2, Bool.false_or] at hq
      obtain ⟨b1, b2⟩ := p2 hn hq
      refine ⟨?_, ?_⟩
      · intro s a r hmem
        rcases List.mem_append.1 hmem with h | h
        · exact hmid.1 s a r h
        · exact b1 s a r h
      · rw [heq, b2]
        rcases hcase with ⟨_, _, h⟩ | ⟨h1, h2, _, h⟩ | ⟨_, _, _, h⟩
        · exact Or.inl h
        · exact Or.inr ⟨h1, h2, h⟩
        · exact Or.inl h

/-- C16 on two clients: a datagram is fanned out with success and the prober does not run. -/
theorem prober_schedule_witness :
    proberCalls (emitted (scenario twoClients [] ⟨16, 0⟩)
      (fanOut linuxPlatform (loopback 6000) [1, 2, 3] 3 (scenario twoClients [] ⟨16, 0⟩))) = 0 :=
  ((prober_schedule linuxPlatform (loopback 5001) (scenario twoClients [] ⟨16, 0⟩) 0
    ⟨loopback 5001, 5⟩ false rfl (by decide) (by decide) (Or.inr (by decide))).1
    (loopback 6000) [1, 2, 3] 3 (scenario twoClients [] ⟨16, 0⟩)).trans (by decide)

/-- C17, records with port 0 are reaped: the prober drops a record with source port 0 from its
place in the client list when the `socket` call of its probe succeeds, no bind being made for
it, so that with distinct ports the record is not in the list afterwards; hence a registration
from source port 0 that creates a record and returns, all its `socket` calls succeeding, has
put the record at the tail of the client list, has sent the confirmation on its socket, and
leaves no record with port 0 in the client list. -/
theorem port_zero_reaped (P : Platform) (pFrom : sockaddr_in) (w : World) (idx : Nat)
    (c : one_client)
    (hfam : pFrom.sin_family = P.AF_INET) (hloc : (localTest P pFrom w).1 = true)
    (hrec : (obtainClient P pFrom (localTest P pFrom w).2).1 = some (idx, c, true))
    (hport : pFrom.sin_port = 0)
    (hret : (obtainClient P pFrom (localTest P pFrom w).2).2.next.ret < 0 ∨
      (obtainClient P pFrom (localTest P pFrom w).2).2.next.ret = sizeof_caHdr)
    (hsock : ∀ sr, Event.socket sr ∈ emitted w (register_new_client P pFrom w) →
      sr.ret ≠ P.INVALID_SOCKET) :
    (∀ (w0 : World) (l1 : List one_client) (c0 : one_client) (l2 : List one_client),
      w0.client_list = l1 ++ c0 :: l2 → c0.from_.sin_port = 0 →
      (probeState P l1 w0).next.ret ≠ P.INVALID_SOCKET →
      (verifyClients P w0).client_list =
        survivors P l1 w0 ++ survivors P l2 (probeState P (l1 ++ [c0]) w0) ∧
      ((w0.client_list.map (fun c => c.from_.sin_port)).Nodup →
        c0 ∉ (verifyClients P w0).client_list)) ∧
    (c.from_ = pFrom ∧
      (obtainClient P pFrom (localTest P pFrom w).2).2.client_list = w.client_list ++ [c]) ∧
    Event.send c.sock (confirmHdr P pFrom).bytes sizeof_caHdr
      (obtainClient P pFrom (localTest P pFrom w).2).2.next ∈
        emitted w (register_new_client P pFrom w) ∧
    c ∉ (register_new_client P pFrom w).client_list ∧
    ∀ d ∈ (register_new_client P pFrom w).client_list, d.from_.sin_port ≠ 0 := by
  have hc : c.from_ = pFrom := (((obtainClient_spec P pFrom (localTest P pFrom w).2).2.2.2
    idx c true hrec).2.2.2 rfl).1
  have hlast : ∀ d ∈ (register_new_client P pFrom w).client_list, d.from_.sin_port ≠ 0 := by
    rcases register_new_client_cases P pFrom w hfam hloc hrec with
      ⟨h0, h16, _, _, _⟩ | ⟨mid, w3, heq, hem, _, _⟩
    · rcases hret with h | h
      · omega
      · exact absurd h h16
    · have e : sendNoop P pFrom true w3 =
          verifyClients P (fanOut P pFrom noopHdr.bytes sizeof_caHdr w3) := rfl
      obtain ⟨f1, _⟩ := fanOut_spec P pFrom noopHdr.bytes sizeof_caHdr w3
      obtain ⟨_, _, _, _, v5⟩ := verifyClients_spec P
        (fanOut P pFrom noopHdr.bytes sizeof_caHdr w3)
      rw [hem, e, emitted_trans f1 v5] at hsock
      rw [heq, e]
      apply verifyClients_port0
      intro sr hsr
      exact hsock sr (List.mem_append_right _ (List.mem_append_right _ hsr))
  refine ⟨?_, ?_, ?_, fun hmem => hlast c hmem (by rw [hc, hport]), hlast⟩
  · intro w0 l1 c0 l2 hl hp hs
    have hv := makeSocket_value P (ntohs c0.from_.sin_port) false (probeState P l1 w0)
    rw [if_neg hs, if_neg (by simp [ntohs, PORT_ANY, hp])] at hv
    have hres : (verifyClients P w0).client_list =
        survivors P l1 w0 ++ survivors P l2 (probeState P (l1 ++ [c0]) w0) := by
      rw [(verifyClients_spec P w0).1, hl, survivors_append, survivors_cons, hv,
        if_pos (by simpa using hs), probeState_append]
      rfl
    refine ⟨hres, ?_⟩
    intro hn hmem
    rw [hl, List.map_append, List.map_cons, List.nodup_middle, List.nodup_cons] at hn
    rw [hres] at hmem
    apply hn.1
    rw [← List.map_append]
    apply List.mem_map_of_mem (fun c => c.from_.sin_port) (a := c0)
    rcases List.mem_append.1 hmem with h | h
    · exact List.mem_append_left _ ((survivors_sublist P l1 _).subset h)
    · exact List.mem_append_right _ ((survivors_sublist P l2 _).subset h)
  · obtain ⟨r1, _, r3, _⟩ := ((obtainClient_spec P pFrom (localTest P pFrom w).2).2.2.2
      idx c true hrec).2.2.2 rfl
    exact ⟨r1, by rw [r3, (localTest_spec P pFrom w).1]⟩
  · rcases register_new_client_cases P pFrom w hfam hloc hrec with
      ⟨_, _, _, hem, _⟩ | ⟨mid, w3, _, hem, _, _⟩ <;> rw [hem] <;> simp

/-- C17 on a registration from port 0 with an empty client list: the record that is created
and confirmed is not in the client list when the call returns. -/
theorem port_zero_reaped_witness :
    (register_new_client linuxPlatform (loopback 0)
      (scenario [] [⟨1, 0⟩, ⟨5, 0⟩, ⟨0, 0⟩, ⟨16, 0⟩, ⟨6, 0⟩] ⟨0, 0⟩)).client_list.all
        (fun d => decide (d.from_.sin_port ≠ 0)) = true :=
  List.all_eq_true.2 (fun d hd => decide_eq_true
    ((port_zero_reaped linuxPlatform (loopback 0)
      (scenario [] [⟨1, 0⟩, ⟨5, 0⟩, ⟨0, 0⟩, ⟨16, 0⟩, ⟨6, 0⟩] ⟨0, 0⟩) 0 ⟨loopback 0, 5⟩
      rfl (by decide) (by decide) rfl (Or.inr (by decide)) (by
        have h : emitted (scenario [] [⟨1, 0⟩, ⟨5, 0⟩, ⟨0, 0⟩, ⟨16, 0⟩, ⟨6, 0⟩] ⟨0, 0⟩)
            (register_new_client linuxPlatform (loopback 0)
              (scenario [] [⟨1, 0⟩, ⟨5, 0⟩, ⟨0, 0⟩, ⟨16, 0⟩, ⟨6, 0⟩] ⟨0, 0⟩)) =
            [Event.calloc ⟨1, 0⟩, Event.socket ⟨5, 0⟩, Event.connect 5 (loopback 0) ⟨0, 0⟩,
              Event.send 5 (confirmHdr linuxPlatform (loopback 0)).bytes 16 ⟨16, 0⟩,
              Event.call_fanOut (loopback 0) noopHdr.bytes 16, Event.call_verifyClients,
              Event.socket ⟨6, 0⟩, Event.socket_close 6, Event.socket_close 5,
              Event.free] := by decide
        intro sr hsr
        rw [h] at hsr
        simp only [List.mem_cons, Event.socket.injEq, List.mem_singleton, List.not_mem_nil,
          or_false, false_or, reduceCtorEq] at hsr
        rcases hsr with rfl | rfl <;> decide)).2.2.2.2 d hd))

/-! ## The dispatch loop -/

/-- C10 as stated fails: the client of port 5001 is in the client list with the interface
address and registers again, with two more bytes, from the loopback address; the zeroed header
of the registration and the two bytes are both sent on the socket of its own record. -/
theorem dispatch_reflects_to_registrant :
    msgCmmd registerWithPayload.buf = linuxPlatform.REPEATER_REGISTER ∧
    (localTest linuxPlatform registerWithPayload.from_ movedClient).1 = true ∧
    ∃ c ∈ movedClient.client_list,
      c.from_.sin_port = registerWithPayload.from_.sin_port ∧
      (c.sock, noopHdr.bytes, sizeof_caHdr) ∈
        sends (emitted movedClient (dispatch linuxPlatform registerWithPayload movedClient)) ∧
      (c.sock, [7, 7], 2) ∈
        sends (emitted movedClient (dispatch linuxPlatform registerWithPayload movedClient)) := by
  decide

/-- C10 amended: when a datagram starts with a `REPEATER_REGISTER` header and carries more
bytes, and the registration returns, the bytes after the header are sent, with their length, to
every record of the client list left by the registration that is not the sender; each such
record was in the client list before or has the source as its address; and of all the sends of
the iteration only the confirmation can be on the socket of a record other than a record of
the earlier list whose port or address differs from the source. -/
theorem dispatch_register_payload (P : Platform) (d : Datagram) (w : World)
    (hsize : (sizeof_caHdr : Int) < d.size) (hcmd : msgCmmd d.buf = P.REPEATER_REGISTER)
    (hnh : (register_new_client P d.from_ w).halted = false) :
    sends (emitted (register_new_client P d.from_ w) (dispatch P d w)) =
      ((register_new_client P d.from_ w).client_list.filter (fun c =>
        !decide (d.from_.sin_port = c.from_.sin_port ∧ d.from_.sin_addr = c.from_.sin_addr))).map
        (fun c => (c.sock, d.buf.drop sizeof_caHdr, (d.size - sizeof_caHdr).toNat)) ∧
    (∀ c ∈ (register_new_client P d.from_ w).client_list,
      c ∈ w.client_list ∨ c.from_ = d.from_) ∧
    ∃ S, (sends (emitted w (dispatch P d w)) = S ∨
        ∃ sock, sends (emitted w (dispatch P d w)) =
          (sock, (confirmHdr P d.from_).bytes, sizeof_caHdr) :: S) ∧
      ∀ x ∈ S, ∃ c ∈ w.client_list, c.sock = x.1 ∧
        ¬ (d.from_.sin_port = c.from_.sin_port ∧ d.from_.sin_addr = c.from_.sin_addr) := by
  obtain ⟨⟨S, hS1, hS2⟩, hT, hext⟩ := register_new_client_sends P d.from_ w
  obtain ⟨f1, _, _, _, f5, _, _⟩ := fanOut_spec P d.from_ (d.buf.drop sizeof_caHdr)
    (d.size - sizeof_caHdr).toNat (register_new_client P d.from_ w)
  rw [dispatch_register_eq P d w hsize hcmd hnh]
  refine ⟨f5, hT, S ++ fanOutSends d.from_ (d.buf.drop sizeof_caHdr)
    (d.size - sizeof_caHdr).toNat (register_new_client P d.from_ w).client_list, ?_, ?_⟩
  · rw [emitted_trans hext f1, sends_append, f5]
    rcases hS1 with h | ⟨sock, h⟩
    · exact Or.inl (by rw [h])
    · exact Or.inr ⟨sock, by rw [h]; rfl⟩
  · intro x hx
    rcases List.mem_append.1 hx with hx | hx
    · exact hS2 x hx
    · obtain ⟨_, _, c, hc, hs, hns⟩ := mem_fanOutSends hx
      rcases hT c hc with h | h
      · exact ⟨c, h, hs, hns⟩
      · exact absurd (by rw [h]; exact ⟨rfl, rfl⟩) hns

/-- C10 amended, on two clients: the first registers again from its own address with two more
bytes, which go to the second client only. -/
theorem dispatch_register_payload_witness :
    sends (emitted (register_new_client linuxPlatform registerWithPayload.from_
        (scenario twoClients [] ⟨16, 0⟩))
      (dispatch linuxPlatform registerWithPayload (scenario twoClients [] ⟨16, 0⟩))) =
      [(6, [7, 7], 2)] :=
  (dispatch_register_payload linuxPlatform registerWithPayload (scenario twoClients [] ⟨16, 0⟩)
    (by decide) (by decide) (by decide)).1.trans (by decide)

/-- C13, dispatch classification: let `recvfrom` return a datagram of `n ≥ 0` bytes, held in
a buffer of at least `n` bytes, the command `REPEATER_REGISTER` being a 16-bit value.  When
`n = 0` the iteration is the registrar alone.  When `n` is at least the header size of sixteen
bytes and the first two bytes of the buffer are `REPEATER_REGISTER` in network byte order, it
is the registrar followed, when that returns and `n` is not sixteen, by the fan-out of the
bytes after the first sixteen with the length `n - 16`.  In every other case it is the fan-out
of the buffer with the length `n` alone. -/
theorem dispatch_classification (P : Platform) (d : Datagram) (w : World)
    (hR : P.REPEATER_REGISTER < 65536) (hbytes : ∀ b ∈ d.buf, b < 256)
    (hlen : d.size ≤ d.buf.length) (h0 : 0 ≤ d.size) :
    (d.size = 0 → dispatch P d w = register_new_client P d.from_ w) ∧
    (16 ≤ d.size → d.buf.take 2 = be16 P.REPEATER_REGISTER →
      dispatch P d w =
        if (register_new_client P d.from_ w).halted = true ∨ d.size = 16 then
          register_new_client P d.from_ w
        else fanOut P d.from_ (d.buf.drop 16) (d.size - 16).toNat
          (register_new_client P d.from_ w)) ∧
    (0 < d.size → (d.size < 16 ∨ d.buf.take 2 ≠ be16 P.REPEATER_REGISTER) →
      dispatch P d w = fanOut P d.from_ d.buf d.size.toNat w) := by
  have hneg : ¬ d.size < 0 := not_lt.2 h0
  refine ⟨?_, ?_, ?_⟩
  · intro hz
    have h16 : ¬ sizeof_caHdr ≤ d.size.toNat := by simp [hz, sizeof_caHdr]
    simp only [dispatch, hneg, h16, if_false]
    simp only [hz, if_true]
  · intro hs ht
    have h16 : sizeof_caHdr ≤ d.size.toNat := by
      simp only [sizeof_caHdr]; omega
    have hc : msgCmmd d.buf = P.REPEATER_REGISTER :=
      (msgCmmd_eq_iff d.buf _ hR hbytes (by omega)).2 ht
    simp only [dispatch, hneg, h16, hc, if_true, if_false]
    by_cases hh : (register_new_client P d.from_ w).halted = true
    · simp [hh]
    · have e16 : (d.size - (sizeof_caHdr : Nat) = 0) ↔ d.size = 16 := by
        simp only [sizeof_caHdr]; omega
      simp only [hh, false_or, e16, if_false, Bool.false_eq_true]
      rfl
  · intro hz hnot
    by_cases h16 : sizeof_caHdr ≤ d.size.toNat
    · have hs : 16 ≤ d.size := by
        simp only [sizeof_caHdr] at h16; omega
      have hc : ¬ msgCmmd d.buf = P.REPEATER_REGISTER := by
        rw [msgCmmd_eq_iff d.buf _ hR hbytes (by omega)]
        rcases hnot with h | h
        · omega
        · exact h
      simp only [dispatch, hneg, h16, hc, if_true, if_false]
    · have hz2 : ¬ d.size = 0 := by omega
      simp only [dispatch, hneg, h16, hz2, if_false]

/-- C13 on a registration with two more bytes: the datagram starts with a `REPEATER_REGISTER`
header, so the registrar runs, with its fan-out of the zeroed header, and the two bytes after
the header are fanned out after it. -/
theorem dispatch_classification_witness :
    fanOutCalls (emitted (scenario twoClients [] ⟨16, 0⟩)
      (dispatch linuxPlatform registerWithPayload (scenario twoClients [] ⟨16, 0⟩))) =
      [(loopback 5001, [0, 0, 0, 0, 0, 0, 0, 0, 0, 0, 0, 0, 0, 0, 0, 0], 16),
        (loopback 5001, [7, 7], 2)] :=
  (congrArg (fun x => fanOutCalls (emitted (scenario twoClients [] ⟨16, 0⟩) x))
    ((dispatch_classification linuxPlatform registerWithPayload (scenario twoClients [] ⟨16, 0⟩)
      (by decide) (by decide) (by decide) (by decide)).2.1 (by decide) (by decide))).trans
    (by decide)

/-! ## The socket factory -/

/-- C14, the result of the socket factory: `makeSocket` returns a valid socket with error
number 0 exactly when `socket` succeeded and the port is `PORT_ANY` or the bind to that port on
any interface succeeded; when the bind fails the socket is closed and the result is the invalid
socket with the error number of the bind; the reuse option is set exactly when it is asked for
and a port was bound, and its result is no part of what is returned. -/
theorem makeSocket_result (P : Platform) (port : Nat) (reuseAddr : Bool) (w : World) :
    (((makeSocket P port reuseAddr w).1.sock ≠ P.INVALID_SOCKET ∧
        (makeSocket P port reuseAddr w).1.errNumber = 0) ↔
      (w.next.ret ≠ P.INVALID_SOCKET ∧ (port = PORT_ANY ∨ ¬ w.tick.next.ret < 0))) ∧
    ((makeSocket P port reuseAddr w).1 =
      if w.next.ret = P.INVALID_SOCKET then ⟨w.next.ret, w.next.errno⟩
      else if port ≠ PORT_ANY ∧ w.tick.next.ret < 0 then ⟨P.INVALID_SOCKET, w.tick.next.errno⟩
      else ⟨w.next.ret, 0⟩) ∧
    ((∃ sock addr r, Event.bind sock addr r ∈ emitted w (makeSocket P port reuseAddr w).2) ↔
      (w.next.ret ≠ P.INVALID_SOCKET ∧ port ≠ PORT_ANY)) ∧
    (Event.bind w.next.ret ⟨P.AF_INET, htons port, htonl P.INADDR_ANY⟩ w.tick.next ∈
        emitted w (makeSocket P port reuseAddr w).2 ↔
      (w.next.ret ≠ P.INVALID_SOCKET ∧ port ≠ PORT_ANY)) ∧
    (Event.socket_close w.next.ret ∈ emitted w (makeSocket P port reuseAddr w).2 ↔
      (w.next.ret ≠ P.INVALID_SOCKET ∧ port ≠ PORT_ANY ∧ w.tick.next.ret < 0)) ∧
    ((∃ sock r, Event.setsockopt sock r ∈ emitted w (makeSocket P port reuseAddr w).2) ↔
      (reuseAddr = true ∧ w.next.ret ≠ P.INVALID_SOCKET ∧ port ≠ PORT_ANY ∧
        ¬ w.tick.next.ret < 0)) := by
  rw [makeSocket_emitted, makeSocket_value]
  refine ⟨?_, rfl, ?_, ?_, ?_, ?_⟩ <;> split_ifs <;> simp_all
  by_cases hp : port = PORT_ANY
  · exact Or.inl hp
  · exact Or.inr (by simp_all)

end Repeater

namespace CaServer

/-- C18 fails on the code: with 10 bytes available and 10 needed in blocking mode, a first
`send` that takes 6 bytes is followed by a second `osdSend` from the start of the buffer, again
for all 10 bytes; each call reports no more than the 10 bytes it was asked for, and `xSend`
returns `xSendOK` with 16 in `nActualBytes`, more than the buffer holds. -/
theorem xSend_reports_more_than_available :
    (osdSend 11 10 0 partialThenFull).2.1 = 6 ∧
    (osdSend 11 10 6 (osdSend 11 10 0 partialThenFull).2.2).2.1 = 10 ∧
    (xSend 11 5 0 10 10 partialThenFull).map (fun r => (r.1, r.2.1)) =
      some (xSendStatus.xSendOK, 16) ∧
    ¬ (∀ n, (xSend 11 5 0 10 10 partialThenFull).map (fun r => (r.1, r.2.1)) =
        some (xSendStatus.xSendOK, n) → 10 ≤ n ∧ n ≤ 10) := by
  refine ⟨by decide, by decide, by decide, fun h => ?_⟩
  have h16 := h 16 (by decide)
  omega

end CaServer
